import Mathlib

/-!
# Cart and Order aggregates: a shallow embedding

The Go sources `internal/domain/cart/cart.go` and `internal/domain/order/order.go`
(with the value objects they use) are embedded as pure Lean functions.

Conventions of the embedding.

* A method with a pointer receiver, `func (c *Cart) M(args) error`, becomes a function
  `Cart.M : Cart → args → Cart × Option Error`: the first component is the receiver after
  the call, the second is the returned error (`none` for `nil`).  Nothing is assumed about
  the receiver on the error path: it is whatever the Go code leaves behind.
* `[]*CartItem` and `[]*OrderItem` become `List`; writing through an element pointer
  becomes `List.set` at the index of that element.
* `time.Now()` is an explicit argument `now`; every reading of the clock within one call
  is that same instant.  `uuid.New().String()` is an explicit argument of type `uuid.UUID`.
* Go `int` is the 64-bit two-complement integer: values are `Int`, and the one arithmetic
  operation on them (`+=` in `IncreaseQuantity`) wraps with `Go.wrapInt64`.
* Go `float64` is `Float64` below: IEEE 754 binary64 with round-to-nearest-even.
* Go strings are modelled by Lean strings (sequences of Unicode scalar values).
-/

/-! ## Go runtime: integers, clock, strings, uuid -/

/-- Reading of the clock, `time.Now()`. -/
abbrev Time := Nat

namespace Go

/-- Smallest value of the 64-bit Go `int`. -/
def minInt64 : Int := -9223372036854775808

/-- Largest value of the 64-bit Go `int`. -/
def maxInt64 : Int := 9223372036854775807

/-- Two-complement wrap-around of a mathematical integer into the 64-bit Go `int`. -/
def wrapInt64 (x : Int) : Int := (x + 9223372036854775808) % 18446744073709551616 - 9223372036854775808

/-- The integer is representable as a 64-bit Go `int`. -/
def InInt64 (x : Int) : Prop := minInt64 ≤ x ∧ x ≤ maxInt64

instance (x : Int) : Decidable (InInt64 x) := by unfold InInt64; infer_instance

/-- The idiom `for i, item := range xs { if pred(item) { ...; return } }`:
index and element of the first element satisfying `pred`, if any. -/
def rangeFind {α : Type} (pred : α → Bool) : List α → Option (Nat × α)
  | [] => none
  | x :: xs => if pred x then some (0, x) else (rangeFind pred xs).map (fun r => (r.1 + 1, r.2))

end Go

namespace unicode

/-- Go `unicode.IsSpace`: the Unicode White_Space property. -/
def IsSpace (c : Char) : Bool :=
  let n := c.toNat
  (9 ≤ n && n ≤ 13) || n == 32 || n == 133 || n == 160 || n == 5760 ||
  (8192 ≤ n && n ≤ 8202) || n == 8232 || n == 8233 || n == 8239 || n == 8287 || n == 12288

end unicode

namespace strings

/-- Go `strings.TrimSpace`: the string without its leading and trailing white space. -/
def TrimSpace (s : String) : String :=
  String.mk ((s.data.dropWhile unicode.IsSpace).reverse.dropWhile unicode.IsSpace).reverse

end strings

namespace uuid

/-- Result of `uuid.New().String()`: the canonical 36-character text form of a UUID,
recorded here only as far as the code depends on it, namely that it is not blank. -/
structure UUID where
  str : String
  nonblank : strings.TrimSpace str ≠ ""

end uuid

/-! ## float64 -/

/-- IEEE 754 binary64.  A finite value is `k * 2^(-1074)` for the integer `k` (every finite
binary64 is such a multiple, `2^(-1074)` being the smallest subnormal).  Negative zero is
identified with zero: the embedded code never divides, takes a sign bit or formats a float,
so the two are indistinguishable to it.  Every product and every sum is rounded on its own,
as the amd64 compiler does (no fused multiply-add). -/
inductive Float64 where
  | nan : Float64
  | inf (negative : Bool) : Float64
  | fin (k : Int) : Float64
deriving DecidableEq

namespace Float64

/-- Binary search step for the bit length: `acc` plus the bit length of `a`, for `a`
below two to the sum of the listed exponents. -/
def bitsGo : List Nat → Nat → Nat → Nat
  | [], a, acc => if a = 0 then acc else acc + 1
  | e :: es, a, acc => if a >>> e = 0 then bitsGo es a acc else bitsGo es (a >>> e) (acc + e)

/-- Number of binary digits of `a` (0 for 0). -/
def bitLen (a : Nat) : Nat :=
  if a >>> 8192 = 0 then bitsGo [4096, 2048, 1024, 512, 256, 128, 64, 32, 16, 8, 4, 2, 1] a 0
  else Nat.log2 a + 1

/-- Round the magnitude `a * 2^(-1074 - s)` to the binary64 grid, to nearest, ties to even,
with unbounded exponent; the result is in units of `2^(-1074)`.  The grid keeps 53
significant bits, and never less than one unit (the subnormal range). -/
def roundNat (a s : Nat) : Nat :=
  let shift := max (bitLen a - 53) s
  let r := a >>> shift
  let rem := a - r <<< shift
  let r1 := if 2 * rem > 1 <<< shift ∨ (2 * rem = 1 <<< shift ∧ r % 2 = 1) then r + 1 else r
  r1 <<< (shift - s)

/-- Round the exact value `n * 2^(-1074 - s)` to binary64; magnitudes that round to
`2^1024` or more overflow to an infinity. -/
def round (n : Int) (s : Nat) : Float64 :=
  let k := roundNat n.natAbs s
  if k ≥ 1 <<< 2098 then inf (decide (n < 0)) else fin (if n < 0 then -(k : Int) else (k : Int))

/-- Conversion `float64(q)` of a Go `int`. -/
def ofInt (q : Int) : Float64 := round (q * ((1 <<< 1074 : Nat) : Int)) 0

/-- The float64 nearest to the non-negative fraction `n / d`: how Go converts a decimal
constant such as `9.99` (`ofFraction 999 100`). -/
def ofFraction (n d : Nat) : Float64 :=
  round (((2 * (n <<< 1075 / d) + (if (n <<< 1075) % d = 0 then 0 else 1) : Nat) : Int)) 2

/-- The float64 constant `0` (also `0.0`). -/
def zero : Float64 := fin 0

/-- Go `x + y` on float64. -/
def add : Float64 → Float64 → Float64
  | fin a, fin b => round (a + b) 0
  | nan, _ => nan
  | _, nan => nan
  | inf s, inf t => if s = t then inf s else nan
  | inf s, fin _ => inf s
  | fin _, inf t => inf t

/-- Go `x * y` on float64. -/
def mul : Float64 → Float64 → Float64
  | fin a, fin b => round (a * b) 1074
  | nan, _ => nan
  | _, nan => nan
  | inf s, inf t => inf (s != t)
  | inf s, fin b => if b = 0 then nan else inf (s != decide (b < 0))
  | fin a, inf t => if a = 0 then nan else inf (decide (a < 0) != t)

/-- Go `x <= y` on float64: false as soon as one side is NaN. -/
def le : Float64 → Float64 → Bool
  | fin a, fin b => decide (a ≤ b)
  | nan, _ => false
  | _, nan => false
  | inf s, inf t => s || !t
  | inf s, fin _ => s
  | fin _, inf t => !t

/-- Go `x < y` on float64: false as soon as one side is NaN. -/
def lt : Float64 → Float64 → Bool
  | fin a, fin b => decide (a < b)
  | nan, _ => false
  | _, nan => false
  | inf s, inf t => s && !t
  | inf s, fin _ => s
  | fin _, inf t => !t

end Float64

/-! ## package product (value_objects.go, the part the aggregates use) -/

namespace product

/-- Errors of package product. -/
inductive Error where
  | ErrInvalidID
  | ErrInvalidName
  | ErrInvalidDescription
  | ErrInvalidPrice
  | ErrInvalidStock
deriving DecidableEq

/-- The type `product.ID`, a string. -/
abbrev ID := String

/-- Go `product.NewID`. -/
def NewID (id : String) : Except Error ID :=
  if id = "" then .error .ErrInvalidID else .ok id

/-- The type `product.Name`, a string. -/
abbrev Name := String

/-- Go `product.NewName`; `len` is the length in bytes. -/
def NewName (name : String) : Except Error Name :=
  let trimmedName := strings.TrimSpace name
  if trimmedName = "" ∨ trimmedName.utf8ByteSize < 2 then .error .ErrInvalidName
  else .ok trimmedName

/-- The type `product.Description`, a string. -/
abbrev Description := String

/-- Go `product.NewDescription`. -/
def NewDescription (description : String) : Except Error Description :=
  let trimmedDescription := strings.TrimSpace description
  if trimmedDescription = "" then .error .ErrInvalidDescription else .ok trimmedDescription

/-- The type `product.Price`, a float64. -/
abbrev Price := Float64

/-- Go `product.NewPrice`. -/
def NewPrice (price : Float64) : Except Error Price :=
  if Float64.le price Float64.zero then .error .ErrInvalidPrice else .ok price

/-- The type `product.Stock`, an `int`. -/
abbrev Stock := Int

/-- Go `product.NewStock`. -/
def NewStock (stock : Int) : Except Error Stock :=
  if stock < 0 then .error .ErrInvalidStock else .ok stock

/-- Go struct `Product`. -/
structure Product where
  id : ID
  name : Name
  description : Description
  price : Price
  stock : Stock
  createdAt : Time
  updatedAt : Time
deriving DecidableEq

/-- Go `NewProduct`. -/
def NewProduct (name description : String) (price : Float64) (stock : Int) (u : uuid.UUID)
    (now : Time) : Except Error Product :=
  match NewID u.str with
  | .error err => .error err
  | .ok id =>
    match NewName name with
    | .error err => .error err
    | .ok nameVO =>
      match NewDescription description with
      | .error err => .error err
      | .ok descriptionVO =>
        match NewPrice price with
        | .error err => .error err
        | .ok priceVO =>
          match NewStock stock with
          | .error err => .error err
          | .ok stockVO =>
            .ok { id := id, name := nameVO, description := descriptionVO, price := priceVO,
                  stock := stockVO, createdAt := now, updatedAt := now }

/-- Go `(*Product).ChangeName`. -/
def Product.ChangeName (p : Product) (name : String) (now : Time) : Product × Option Error :=
  match NewName name with
  | .error err => (p, some err)
  | .ok nameVO => ({ p with name := nameVO, updatedAt := now }, none)

/-- Go `(*Product).ChangeDescription`. -/
def Product.ChangeDescription (p : Product) (description : String) (now : Time) :
    Product × Option Error :=
  match NewDescription description with
  | .error err => (p, some err)
  | .ok descriptionVO => ({ p with description := descriptionVO, updatedAt := now }, none)

/-- Go `(*Product).ChangePrice`. -/
def Product.ChangePrice (p : Product) (price : Float64) (now : Time) : Product × Option Error :=
  match NewPrice price with
  | .error err => (p, some err)
  | .ok priceVO => ({ p with price := priceVO, updatedAt := now }, none)

/-- Go `(*Product).ChangeStock`. -/
def Product.ChangeStock (p : Product) (stock : Int) (now : Time) : Product × Option Error :=
  match NewStock stock with
  | .error err => (p, some err)
  | .ok stockVO => ({ p with stock := stockVO, updatedAt := now }, none)

/-- Go `(*Product).IncreaseStock`; the sum is the wrapping sum of the 64-bit `int`. -/
def Product.IncreaseStock (p : Product) (quantity : Int) (now : Time) : Product × Option Error :=
  if quantity ≤ 0 then (p, some .ErrInvalidStock)
  else
    let newStock := Go.wrapInt64 (p.stock + quantity)
    p.ChangeStock newStock now

/-- Go `(*Product).DecreaseStock`; the difference is the wrapping one of the 64-bit `int`. -/
def Product.DecreaseStock (p : Product) (quantity : Int) (now : Time) : Product × Option Error :=
  if quantity ≤ 0 then (p, some .ErrInvalidStock)
  else
    let newStock := Go.wrapInt64 (p.stock - quantity)
    if newStock < 0 then (p, some .ErrInvalidStock)
    else p.ChangeStock newStock now

/-- Go `(*Product).IsInStock`. -/
def Product.IsInStock (p : Product) : Bool := decide (p.stock > 0)

/-- Go `(*Product).HasSufficientStock`. -/
def Product.HasSufficientStock (p : Product) (quantity : Int) : Bool :=
  decide (p.stock ≥ quantity)

/-- A product that `NewProduct` returned, after any number of calls of its mutating methods
with arbitrary arguments, whether the call returned an error or not. -/
inductive Reachable : Product → Prop where
  | newProduct (name description : String) (price : Float64) (stock : Int) (u : uuid.UUID)
      (now : Time) (p : Product) (h : NewProduct name description price stock u now = .ok p) :
      Reachable p
  | changeName (p : Product) (name : String) (now : Time) (h : Reachable p) :
      Reachable (p.ChangeName name now).1
  | changeDescription (p : Product) (description : String) (now : Time) (h : Reachable p) :
      Reachable (p.ChangeDescription description now).1
  | changePrice (p : Product) (price : Float64) (now : Time) (h : Reachable p) :
      Reachable (p.ChangePrice price now).1
  | changeStock (p : Product) (stock : Int) (now : Time) (h : Reachable p) :
      Reachable (p.ChangeStock stock now).1
  | increaseStock (p : Product) (quantity : Int) (now : Time) (h : Reachable p) :
      Reachable (p.IncreaseStock quantity now).1
  | decreaseStock (p : Product) (quantity : Int) (now : Time) (h : Reachable p) :
      Reachable (p.DecreaseStock quantity now).1

end product

/-! ## package user (value_objects.go, the part the aggregates use) -/

namespace user

/-- Errors of package user: the four package-level values, and `New msg` for an error made
in place by `errors.New(msg)`, of which the model keeps the message only. -/
inductive Error where
  | ErrInvalidID
  | ErrInvalidEmail
  | ErrInvalidPassword
  | ErrInvalidName
  | New (msg : String)
deriving DecidableEq

/-- The type `user.ID`, a string. -/
abbrev ID := String

/-- Go `user.NewID`. -/
def NewID (id : String) : Except Error ID :=
  if id = "" then .error .ErrInvalidID else .ok id

/-- Go struct `user.CartItem`. -/
structure CartItem where
  ProductID : String
  Quantity : Int
deriving DecidableEq

/-- The type `user.OrderStatus`, a string. -/
abbrev OrderStatus := String

/-- Go struct `user.OrderItem`. -/
structure OrderItem where
  ProductID : String
  Quantity : Int
  Price : Float64
deriving DecidableEq

/-- Go struct `user.Order`. -/
structure Order where
  ID : String
  Status : OrderStatus
  TotalAmount : Float64
  ShippingAddress : String
  BillingAddress : String
  PaymentMethod : String
  Items : List OrderItem
  CreatedAt : Time
  UpdatedAt : Time
deriving DecidableEq

/-- The type `user.Email`, a string. -/
abbrev Email := String

/-- The type `user.Password`, a string. -/
abbrev Password := String

/-- The type `user.Name`, a string. -/
abbrev Name := String

/-- Go struct `User`. -/
structure User where
  id : ID
  email : Email
  password : Password
  name : Name
  cart : List CartItem
  orders : List Order
  createdAt : Time
  updatedAt : Time
deriving DecidableEq

/-- Go `(*User).AddToCart`; `u.cart[i].Quantity += quantity` is the wrapping sum of the
64-bit `int`. -/
def User.AddToCart (u : User) (productID : String) (quantity : Int) (now : Time) :
    User × Option Error :=
  if quantity ≤ 0 then (u, some (.New "quantity must be greater than zero"))
  else
    match Go.rangeFind (fun item => item.ProductID == productID) u.cart with
    | some (i, item) =>
      ({ u with cart := u.cart.set i { item with Quantity := Go.wrapInt64 (item.Quantity + quantity) },
                updatedAt := now }, none)
    | none =>
      ({ u with cart := u.cart ++ [{ ProductID := productID, Quantity := quantity }],
                updatedAt := now }, none)

/-- Go `(*User).RemoveFromCart`. -/
def User.RemoveFromCart (u : User) (productID : String) (now : Time) : User × Option Error :=
  match Go.rangeFind (fun item => item.ProductID == productID) u.cart with
  | some (i, _) =>
    ({ u with cart := u.cart.take i ++ u.cart.drop (i + 1), updatedAt := now }, none)
  | none => (u, some (.New "product not found in cart"))

/-- Go `(*User).UpdateCartItemQuantity`. -/
def User.UpdateCartItemQuantity (u : User) (productID : String) (quantity : Int) (now : Time) :
    User × Option Error :=
  if quantity ≤ 0 then (u, some (.New "quantity must be greater than zero"))
  else
    match Go.rangeFind (fun item => item.ProductID == productID) u.cart with
    | some (i, item) =>
      ({ u with cart := u.cart.set i { item with Quantity := quantity }, updatedAt := now }, none)
    | none => (u, some (.New "product not found in cart"))

/-- Go `(*User).ClearCart`. -/
def User.ClearCart (u : User) (now : Time) : User :=
  { u with cart := [], updatedAt := now }

end user

/-! ## package cart -/

namespace cart

/-- Errors of package cart: the five package-level values, and `New msg` for an error made
in place by `errors.New(msg)`, of which the model keeps the message only. -/
inductive Error where
  | ErrInvalidID
  | ErrInvalidUserID
  | ErrInvalidProductID
  | ErrInvalidQuantity
  | ErrProductNotFound
  | New (msg : String)
deriving DecidableEq

/-- The type `cart.ID`, a string. -/
abbrev ID := String

/-- Go `cart.NewID`. -/
def NewID (id : String) : Except Error ID :=
  if strings.TrimSpace id = "" then .error (.New "cart ID cannot be empty") else .ok id

/-- Go struct `CartItem`. -/
structure CartItem where
  id : ID
  productID : product.ID
  quantity : Int
  createdAt : Time
  updatedAt : Time
deriving DecidableEq

/-- Go `NewCartItem`. -/
def NewCartItem (productID : String) (quantity : Int) (u : uuid.UUID) (now : Time) :
    Except Error CartItem :=
  match NewID u.str with
  | .error err => .error err
  | .ok id =>
    match product.NewID productID with
    | .error _ => .error .ErrInvalidProductID
    | .ok productIDVO =>
      if quantity ≤ 0 then .error .ErrInvalidQuantity
      else .ok { id := id, productID := productIDVO, quantity := quantity,
                 createdAt := now, updatedAt := now }

/-- Go `(*CartItem).UpdateQuantity`. -/
def CartItem.UpdateQuantity (ci : CartItem) (quantity : Int) (now : Time) :
    CartItem × Option Error :=
  if quantity ≤ 0 then (ci, some .ErrInvalidQuantity)
  else ({ ci with quantity := quantity, updatedAt := now }, none)

/-- Go `(*CartItem).IncreaseQuantity`. -/
def CartItem.IncreaseQuantity (ci : CartItem) (amount : Int) (now : Time) :
    CartItem × Option Error :=
  if amount ≤ 0 then (ci, some .ErrInvalidQuantity)
  else ({ ci with quantity := Go.wrapInt64 (ci.quantity + amount), updatedAt := now }, none)

/-- Go struct `Cart`. -/
structure Cart where
  id : ID
  userID : user.ID
  items : List CartItem
  createdAt : Time
  updatedAt : Time
deriving DecidableEq

/-- Go `NewCart`. -/
def NewCart (userID : String) (u : uuid.UUID) (now : Time) : Except Error Cart :=
  match NewID u.str with
  | .error err => .error err
  | .ok id =>
    match user.NewID userID with
    | .error _ => .error .ErrInvalidUserID
    | .ok userIDVO =>
      .ok { id := id, userID := userIDVO, items := [], createdAt := now, updatedAt := now }

/-- Go `(*Cart).AddItem`. -/
def Cart.AddItem (c : Cart) (productID : String) (quantity : Int) (u : uuid.UUID) (now : Time) :
    Cart × Option Error :=
  if quantity ≤ 0 then (c, some .ErrInvalidQuantity)
  else
    match Go.rangeFind (fun item => item.productID == productID) c.items with
    | some (i, item) =>
      let r := item.IncreaseQuantity quantity now
      ({ c with items := c.items.set i r.1 }, r.2)
    | none =>
      match NewCartItem productID quantity u now with
      | .error err => (c, some err)
      | .ok item => ({ c with items := c.items ++ [item], updatedAt := now }, none)

/-- Go `(*Cart).RemoveItem`. -/
def Cart.RemoveItem (c : Cart) (productID : String) (now : Time) : Cart × Option Error :=
  match Go.rangeFind (fun item => item.productID == productID) c.items with
  | some (i, _) =>
    ({ c with items := c.items.take i ++ c.items.drop (i + 1), updatedAt := now }, none)
  | none => (c, some .ErrProductNotFound)

/-- Go `(*Cart).UpdateItemQuantity`. -/
def Cart.UpdateItemQuantity (c : Cart) (productID : String) (quantity : Int) (now : Time) :
    Cart × Option Error :=
  if quantity ≤ 0 then (c, some .ErrInvalidQuantity)
  else
    match Go.rangeFind (fun item => item.productID == productID) c.items with
    | some (i, item) =>
      let r := item.UpdateQuantity quantity now
      ({ c with items := c.items.set i r.1 }, r.2)
    | none => (c, some .ErrProductNotFound)

/-- Go `(*Cart).Clear`. -/
def Cart.Clear (c : Cart) (now : Time) : Cart :=
  { c with items := [], updatedAt := now }

/-- Go `(*Cart).ItemCount`. -/
def Cart.ItemCount (c : Cart) : Int := c.items.length

/-- Go `(*Cart).HasItem`. -/
def Cart.HasItem (c : Cart) (productID : String) : Bool :=
  (Go.rangeFind (fun item => item.productID == productID) c.items).isSome

/-- Go `(*Cart).GetItem`. -/
def Cart.GetItem (c : Cart) (productID : String) : Except Error CartItem :=
  match Go.rangeFind (fun item => item.productID == productID) c.items with
  | some (_, item) => .ok item
  | none => .error .ErrProductNotFound

/-- Go `(*Cart).TotalItems`: `total := 0`, then `total += item.quantity` for each line,
in the wrapping arithmetic of the 64-bit `int`. -/
def Cart.TotalItems (c : Cart) : Int :=
  c.items.foldl (fun total item => Go.wrapInt64 (total + item.quantity)) 0

/-- The addition `quantity += q` that `AddItem p q` performs on the line for `p`, if it
gets that far (`q > 0` and a line for `p` exists), does not overflow the 64-bit `int`. -/
def NoOverflow (c : Cart) (p : String) (q : Int) : Prop :=
  ∀ it, 0 < q → c.GetItem p = .ok it → Go.InInt64 (it.quantity + q)

/-- A cart that `NewCart` returned, after any number of calls of `AddItem`, `RemoveItem`,
`UpdateItemQuantity` and `Clear` with arbitrary arguments, whether the call returned an
error or not, none of the additions of `AddItem` overflowing. -/
inductive Reachable : Cart → Prop where
  | newCart (userID : String) (u : uuid.UUID) (now : Time) (c : Cart)
      (h : NewCart userID u now = .ok c) : Reachable c
  | addItem (c : Cart) (productID : String) (quantity : Int) (u : uuid.UUID) (now : Time)
      (h : Reachable c) (hov : NoOverflow c productID quantity) :
      Reachable (c.AddItem productID quantity u now).1
  | removeItem (c : Cart) (productID : String) (now : Time) (h : Reachable c) :
      Reachable (c.RemoveItem productID now).1
  | updateItemQuantity (c : Cart) (productID : String) (quantity : Int) (now : Time)
      (h : Reachable c) : Reachable (c.UpdateItemQuantity productID quantity now).1
  | clear (c : Cart) (now : Time) (h : Reachable c) : Reachable (c.Clear now)

end cart

/-! ## Sequences of cart calls, on the Cart aggregate and on the cart of a User -/

/-- One call on a shopping cart: add, remove, update the quantity, or clear. -/
inductive CartCall where
  | add (productID : String) (quantity : Int)
  | remove (productID : String)
  | update (productID : String) (quantity : Int)
  | clear
deriving DecidableEq

/-- The product id that the call passes, if it passes one, is not empty. -/
def CartCall.ProductIDNonEmpty : CartCall → Prop
  | .add productID _ => productID ≠ ""
  | .remove productID => productID ≠ ""
  | .update productID _ => productID ≠ ""
  | .clear => True

/-- The call made on a `Cart`: the cart after the call and the returned error (`Clear`
returns none). -/
def cart.Cart.call (c : cart.Cart) (call : CartCall) (u : uuid.UUID) (now : Time) :
    cart.Cart × Option cart.Error :=
  match call with
  | .add productID quantity => c.AddItem productID quantity u now
  | .remove productID => c.RemoveItem productID now
  | .update productID quantity => c.UpdateItemQuantity productID quantity now
  | .clear => (c.Clear now, none)

/-- The call made on the cart of a `User`: the user after the call and the returned error
(`ClearCart` returns none). -/
def user.User.call (usr : user.User) (call : CartCall) (now : Time) :
    user.User × Option user.Error :=
  match call with
  | .add productID quantity => usr.AddToCart productID quantity now
  | .remove productID => usr.RemoveFromCart productID now
  | .update productID quantity => usr.UpdateCartItemQuantity productID quantity now
  | .clear => (usr.ClearCart now, none)

/-- A sequence of calls on a `Cart`, each with the uuid and the clock reading it gets: the
final cart, and for every call in turn whether it succeeded. -/
def cart.Cart.run (c : cart.Cart) : List (CartCall × uuid.UUID × Time) → cart.Cart × List Bool
  | [] => (c, [])
  | step :: rest =>
    let r := c.call step.1 step.2.1 step.2.2
    let rr := cart.Cart.run r.1 rest
    (rr.1, r.2.isNone :: rr.2)

/-- The same sequence of calls on the cart of a `User`. -/
def user.User.run (usr : user.User) : List (CartCall × uuid.UUID × Time) → user.User × List Bool
  | [] => (usr, [])
  | step :: rest =>
    let r := usr.call step.1 step.2.2
    let rr := user.User.run r.1 rest
    (rr.1, r.2.isNone :: rr.2)

/-! ## package order -/

namespace order

/-- Errors of package order: the eleven package-level values, and `New msg` for an error
made in place by `errors.New(msg)`, of which the model keeps the message only (the code has
no package-level value for the error of a non-pending order). -/
inductive Error where
  | ErrInvalidID
  | ErrInvalidUserID
  | ErrInvalidStatus
  | ErrInvalidTotalAmount
  | ErrInvalidShippingAddress
  | ErrInvalidBillingAddress
  | ErrInvalidPaymentMethod
  | ErrInvalidProductID
  | ErrInvalidQuantity
  | ErrInvalidPrice
  | ErrItemNotFound
  | New (msg : String)
deriving DecidableEq

/-- The type `order.ID`, a string. -/
abbrev ID := String

/-- Go `order.NewID`. -/
def NewID (id : String) : Except Error ID :=
  if strings.TrimSpace id = "" then .error (.New "order ID cannot be empty") else .ok id

/-- The type `order.Status`, a string. -/
abbrev Status := String

/-- Constant `StatusPending`. -/
def StatusPending : Status := "pending"

/-- Constant `StatusPaid`. -/
def StatusPaid : Status := "paid"

/-- Constant `StatusShipped`. -/
def StatusShipped : Status := "shipped"

/-- Constant `StatusDelivered`. -/
def StatusDelivered : Status := "delivered"

/-- Constant `StatusCancelled`. -/
def StatusCancelled : Status := "cancelled"

/-- Go struct `OrderItem`. -/
structure OrderItem where
  id : ID
  productID : product.ID
  quantity : Int
  price : Float64
  createdAt : Time
  updatedAt : Time
deriving DecidableEq

/-- Go `NewOrderItem`. -/
def NewOrderItem (productID : String) (quantity : Int) (price : Float64) (u : uuid.UUID)
    (now : Time) : Except Error OrderItem :=
  match NewID u.str with
  | .error err => .error err
  | .ok id =>
    match product.NewID productID with
    | .error _ => .error .ErrInvalidProductID
    | .ok productIDVO =>
      if quantity ≤ 0 then .error .ErrInvalidQuantity
      else if Float64.le price Float64.zero then .error .ErrInvalidPrice
      else .ok { id := id, productID := productIDVO, quantity := quantity, price := price,
                 createdAt := now, updatedAt := now }

/-- Go `(*OrderItem).Subtotal`. -/
def OrderItem.Subtotal (oi : OrderItem) : Float64 :=
  Float64.mul (Float64.ofInt oi.quantity) oi.price

/-- Go struct `Order`. -/
structure Order where
  id : ID
  userID : user.ID
  status : Status
  totalAmount : Float64
  shippingAddress : String
  billingAddress : String
  paymentMethod : String
  items : List OrderItem
  createdAt : Time
  updatedAt : Time
deriving DecidableEq

/-- Go `NewOrder`. -/
def NewOrder (userID shippingAddress billingAddress paymentMethod : String) (u : uuid.UUID)
    (now : Time) : Except Error Order :=
  match NewID u.str with
  | .error err => .error err
  | .ok id =>
    match user.NewID userID with
    | .error _ => .error .ErrInvalidUserID
    | .ok userIDVO =>
      if shippingAddress = "" then .error .ErrInvalidShippingAddress
      else if billingAddress = "" then .error .ErrInvalidBillingAddress
      else if paymentMethod = "" then .error .ErrInvalidPaymentMethod
      else .ok { id := id, userID := userIDVO, status := StatusPending,
                 totalAmount := Float64.zero, shippingAddress := shippingAddress,
                 billingAddress := billingAddress, paymentMethod := paymentMethod,
                 items := [], createdAt := now, updatedAt := now }

/-- Go `(*Order).recalculateTotalAmount`: `total := 0.0`, then `total += item.Subtotal()`
for each line in order. -/
def Order.recalculateTotalAmount (o : Order) : Order :=
  { o with totalAmount :=
      o.items.foldl (fun total item => Float64.add total item.Subtotal) Float64.zero }

/-- Go `(*Order).AddItem`. -/
def Order.AddItem (o : Order) (productID : String) (quantity : Int) (price : Float64)
    (u : uuid.UUID) (now : Time) : Order × Option Error :=
  if o.status != StatusPending then (o, some (.New "cannot modify a non-pending order"))
  else
    match NewOrderItem productID quantity price u now with
    | .error err => (o, some err)
    | .ok item =>
      let o1 := { o with items := o.items ++ [item] }
      let o2 := o1.recalculateTotalAmount
      ({ o2 with updatedAt := now }, none)

/-- Go `(*Order).RemoveItem`. -/
def Order.RemoveItem (o : Order) (itemID : String) (now : Time) : Order × Option Error :=
  if o.status != StatusPending then (o, some (.New "cannot modify a non-pending order"))
  else
    match Go.rangeFind (fun item => item.id == itemID) o.items with
    | some (i, _) =>
      let o1 := { o with items := o.items.take i ++ o.items.drop (i + 1) }
      let o2 := o1.recalculateTotalAmount
      ({ o2 with updatedAt := now }, none)
    | none => (o, some .ErrItemNotFound)

/-- The map literal `validStatuses` of `ChangeStatus`. -/
def validStatuses : List (Status × Bool) :=
  [(StatusPending, true), (StatusPaid, true), (StatusShipped, true),
   (StatusDelivered, true), (StatusCancelled, true)]

/-- Go `(*Order).ChangeStatus`; indexing the map at a missing key gives `false`. -/
def Order.ChangeStatus (o : Order) (status : Status) (now : Time) : Order × Option Error :=
  if !((validStatuses.lookup status).getD false) then (o, some .ErrInvalidStatus)
  else ({ o with status := status, updatedAt := now }, none)

/-- Go `(*Order).ChangeShippingAddress`. -/
def Order.ChangeShippingAddress (o : Order) (address : String) (now : Time) :
    Order × Option Error :=
  if address = "" then (o, some .ErrInvalidShippingAddress)
  else ({ o with shippingAddress := address, updatedAt := now }, none)

/-- Go `(*Order).ChangeBillingAddress`. -/
def Order.ChangeBillingAddress (o : Order) (address : String) (now : Time) :
    Order × Option Error :=
  if address = "" then (o, some .ErrInvalidBillingAddress)
  else ({ o with billingAddress := address, updatedAt := now }, none)

/-- Go `(*Order).ChangePaymentMethod`. -/
def Order.ChangePaymentMethod (o : Order) (method : String) (now : Time) :
    Order × Option Error :=
  if method = "" then (o, some .ErrInvalidPaymentMethod)
  else ({ o with paymentMethod := method, updatedAt := now }, none)

/-- Go `(*Order).ItemCount`. -/
def Order.ItemCount (o : Order) : Int := o.items.length

/-- Go `(*Order).TotalItems`: `total := 0`, then `total += item.quantity` for each line,
in the wrapping arithmetic of the 64-bit `int`. -/
def Order.TotalItems (o : Order) : Int :=
  o.items.foldl (fun total item => Go.wrapInt64 (total + item.quantity)) 0

/-- Go `(*Order).IsPending`. -/
def Order.IsPending (o : Order) : Bool := o.status == StatusPending

/-- Go `(*Order).IsPaid`. -/
def Order.IsPaid (o : Order) : Bool := o.status == StatusPaid

/-- Go `(*Order).IsShipped`. -/
def Order.IsShipped (o : Order) : Bool := o.status == StatusShipped

/-- Go `(*Order).IsDelivered`. -/
def Order.IsDelivered (o : Order) : Bool := o.status == StatusDelivered

/-- Go `(*Order).IsCancelled`. -/
def Order.IsCancelled (o : Order) : Bool := o.status == StatusCancelled

/-- A sequence of `ChangeStatus` calls, one per listed argument and clock reading, each on
the order the previous call left: the final order and the error of every call in turn. -/
def Order.ChangeStatusAll (o : Order) : List (Status × Time) → Order × List (Option Error)
  | [] => (o, [])
  | call :: rest =>
    let r := o.ChangeStatus call.1 call.2
    let rr := Order.ChangeStatusAll r.1 rest
    (rr.1, r.2 :: rr.2)

/-- An order that `NewOrder` returned, after any number of calls of its mutating methods
with arbitrary arguments, whether the call returned an error or not. -/
inductive Reachable : Order → Prop where
  | newOrder (userID shippingAddress billingAddress paymentMethod : String) (u : uuid.UUID)
      (now : Time) (o : Order)
      (h : NewOrder userID shippingAddress billingAddress paymentMethod u now = .ok o) :
      Reachable o
  | addItem (o : Order) (productID : String) (quantity : Int) (price : Float64)
      (u : uuid.UUID) (now : Time) (h : Reachable o) :
      Reachable (o.AddItem productID quantity price u now).1
  | removeItem (o : Order) (itemID : String) (now : Time) (h : Reachable o) :
      Reachable (o.RemoveItem itemID now).1
  | changeStatus (o : Order) (status : Status) (now : Time) (h : Reachable o) :
      Reachable (o.ChangeStatus status now).1
  | changeShippingAddress (o : Order) (address : String) (now : Time) (h : Reachable o) :
      Reachable (o.ChangeShippingAddress address now).1
  | changeBillingAddress (o : Order) (address : String) (now : Time) (h : Reachable o) :
      Reachable (o.ChangeBillingAddress address now).1
  | changePaymentMethod (o : Order) (method : String) (now : Time) (h : Reachable o) :
      Reachable (o.ChangePaymentMethod method now).1

/-- The total of the lines as the code computes it: the float64 sum, accumulated from `0.0`
in line order, of the float64 products `float64(quantity) * price`. -/
def floatTotal (items : List OrderItem) : Float64 :=
  items.foldl (fun total item => Float64.add total (Float64.mul (Float64.ofInt item.quantity) item.price))
    Float64.zero

/-- The exact (unrounded) sum of `quantity * price` over the lines, in units of `2^(-1074)`,
when every price is finite; `none` when some price is NaN or infinite. -/
def exactTotalUnits : List OrderItem → Option Int
  | [] => some 0
  | item :: rest =>
    match item.price, exactTotalUnits rest with
    | Float64.fin k, some t => some (item.quantity * k + t)
    | _, _ => none

end order

/-! ## Concrete values used in examples -/

/-- A value `uuid.New().String()` can return. -/
def uuid1 : uuid.UUID := ⟨"123e4567-e89b-42d3-a456-426614174001", by decide⟩

/-- A second value `uuid.New().String()` can return. -/
def uuid2 : uuid.UUID := ⟨"123e4567-e89b-42d3-a456-426614174002", by decide⟩

/-- A third value `uuid.New().String()` can return. -/
def uuid3 : uuid.UUID := ⟨"123e4567-e89b-42d3-a456-426614174003", by decide⟩

/-- The cart that `NewCart "U1"` returns when the generated id is `uuid1` and the clock
reads 0. -/
def exampleCart : cart.Cart :=
  { id := uuid1.str, userID := "U1", items := [], createdAt := 0, updatedAt := 0 }

/-- A user with an empty cart and no order. -/
def exampleUser : user.User :=
  { id := "U1", email := "u1@example.com", password := "Secret123", name := "Ann",
    cart := [], orders := [], createdAt := 0, updatedAt := 0 }

/-- The order that `NewOrder "U1" "1 Main St" "1 Main St" "card"` returns when the
generated id is `uuid1` and the clock reads 0. -/
def exampleOrder : order.Order :=
  { id := uuid1.str, userID := "U1", status := order.StatusPending,
    totalAmount := Float64.zero, shippingAddress := "1 Main St",
    billingAddress := "1 Main St", paymentMethod := "card", items := [],
    createdAt := 0, updatedAt := 0 }

/-! ## Lemmas on the Go runtime model -/

namespace Go

theorem wrapInt64_of_inInt64 {x : Int} (h : InInt64 x) : wrapInt64 x = x := by
  unfold InInt64 minInt64 maxInt64 at h
  unfold wrapInt64
  omega

theorem rangeFind_eq_none_iff {α : Type} (pred : α → Bool) (xs : List α) :
    rangeFind pred xs = none ↔ ∀ x ∈ xs, pred x = false := by
  induction xs with
  | nil => simp [rangeFind]
  | cons x xs ih =>
    by_cases hx : pred x = true
    · simp [rangeFind, hx]
    · simp [rangeFind, hx, ih]

theorem rangeFind_eq_some {α : Type} (pred : α → Bool) (xs : List α) (i : Nat) (x : α)
    (h : rangeFind pred xs = some (i, x)) :
    ∃ pre post, xs = pre ++ x :: post ∧ pre.length = i ∧ pred x = true ∧
      ∀ y ∈ pre, pred y = false := by
  induction xs generalizing i with
  | nil => simp [rangeFind] at h
  | cons a as ih =>
    by_cases ha : pred a = true
    · simp [rangeFind, ha] at h
      obtain ⟨rfl, rfl⟩ := h
      exact ⟨[], as, rfl, rfl, ha, by simp⟩
    · simp only [rangeFind, ha, Bool.false_eq_true, if_false, Option.map_eq_some'] at h
      obtain ⟨⟨j, y⟩, hj, hjy⟩ := h
      simp only [Prod.mk.injEq] at hjy
      obtain ⟨rfl, rfl⟩ := hjy
      obtain ⟨pre, post, hxs, hlen, hp, hpre⟩ := ih j hj
      refine ⟨a :: pre, post, by simp [hxs], by simp [hlen], hp, ?_⟩
      intro z hz
      rcases List.mem_cons.mp hz with rfl | hz
      · simpa using ha
      · exact hpre z hz

theorem rangeFind_append_cons {α : Type} (pred : α → Bool) (pre post : List α) (x : α)
    (hpre : ∀ y ∈ pre, pred y = false) (hx : pred x = true) :
    rangeFind pred (pre ++ x :: post) = some (pre.length, x) := by
  induction pre with
  | nil => simp [rangeFind, hx]
  | cons a as ih =>
    have ha : pred a = false := hpre a (List.mem_cons_self _ _)
    have has : ∀ y ∈ as, pred y = false := fun y hy => hpre y (List.mem_cons_of_mem _ hy)
    simp [rangeFind, ha, ih has]

theorem rangeFind_of_mem {α : Type} (pred : α → Bool) (xs : List α) (x : α)
    (hx : x ∈ xs) (hp : pred x = true) : ∃ r, rangeFind pred xs = some r := by
  cases h : rangeFind pred xs with
  | some r => exact ⟨r, rfl⟩
  | none =>
    have := (rangeFind_eq_none_iff pred xs).mp h x hx
    simp [hp] at this

end Go

theorem List.set_length_append_cons {α : Type} (pre post : List α) (x y : α) :
    (pre ++ x :: post).set pre.length y = pre ++ y :: post := by
  induction pre with
  | nil => rfl
  | cons a as ih => simp [ih]

theorem List.take_drop_length_append_cons {α : Type} (pre post : List α) (x : α) :
    (pre ++ x :: post).take pre.length ++ (pre ++ x :: post).drop (pre.length + 1) = pre ++ post := by
  induction pre with
  | nil => simp
  | cons a as ih => simp [ih]

/-! ## Lemmas on package cart -/

namespace cart

theorem Cart.AddItem_merge (c : Cart) (p : String) (q : Int) (u : uuid.UUID) (now : Time)
    (pre post : List CartItem) (it : CartItem)
    (hc : c.items = pre ++ it :: post) (hpre : ∀ y ∈ pre, y.productID ≠ p)
    (hit : it.productID = p) (hq : 0 < q) :
    c.AddItem p q u now =
      ({ c with items := pre ++ { it with quantity := Go.wrapInt64 (it.quantity + q),
                                          updatedAt := now } :: post }, none) := by
  have hfind : Go.rangeFind (fun item : CartItem => item.productID == p) c.items
      = some (pre.length, it) := by
    rw [hc]
    apply Go.rangeFind_append_cons
    · intro y hy; simpa using hpre y hy
    · simpa using hit
  have hq' : ¬ q ≤ 0 := by omega
  simp only [Cart.AddItem, hq', if_false, hfind, CartItem.IncreaseQuantity]
  rw [hc, List.set_length_append_cons]

theorem Cart.AddItem_new (c : Cart) (p : String) (q : Int) (u : uuid.UUID) (now : Time)
    (habs : ∀ y ∈ c.items, y.productID ≠ p) (hp : p ≠ "") (hq : 0 < q) :
    c.AddItem p q u now =
      ({ c with items := c.items ++ [{ id := u.str, productID := p, quantity := q,
                                       createdAt := now, updatedAt := now }],
                updatedAt := now }, none) := by
  have hfind : Go.rangeFind (fun item : CartItem => item.productID == p) c.items = none := by
    rw [Go.rangeFind_eq_none_iff]
    intro y hy; simpa using habs y hy
  have hq' : ¬ q ≤ 0 := by omega
  simp [Cart.AddItem, hq', hfind, NewCartItem, NewID, u.nonblank, product.NewID, hp]

theorem Cart.UpdateItemQuantity_found (c : Cart) (p : String) (q : Int) (now : Time)
    (pre post : List CartItem) (it : CartItem)
    (hc : c.items = pre ++ it :: post) (hpre : ∀ y ∈ pre, y.productID ≠ p)
    (hit : it.productID = p) (hq : 0 < q) :
    c.UpdateItemQuantity p q now =
      ({ c with items := pre ++ { it with quantity := q, updatedAt := now } :: post }, none) := by
  have hfind : Go.rangeFind (fun item : CartItem => item.productID == p) c.items
      = some (pre.length, it) := by
    rw [hc]
    apply Go.rangeFind_append_cons
    · intro y hy; simpa using hpre y hy
    · simpa using hit
  have hq' : ¬ q ≤ 0 := by omega
  simp only [Cart.UpdateItemQuantity, hq', if_false, hfind, CartItem.UpdateQuantity]
  rw [hc, List.set_length_append_cons]

/-- A line for `p` exists exactly when the list splits at the first such line. -/
theorem exists_first_line (items : List CartItem) (p : String)
    (h : ∃ x ∈ items, x.productID = p) :
    ∃ pre it post, items = pre ++ it :: post ∧ (∀ y ∈ pre, y.productID ≠ p) ∧
      it.productID = p := by
  obtain ⟨x, hx, hxp⟩ := h
  obtain ⟨⟨i, it⟩, hr⟩ := Go.rangeFind_of_mem (fun item : CartItem => item.productID == p)
    items x hx (by simpa using hxp)
  obtain ⟨pre, post, hxs, -, hp, hpre⟩ := Go.rangeFind_eq_some _ _ _ _ hr
  exact ⟨pre, it, post, hxs, fun y hy => by simpa using hpre y hy, by simpa using hp⟩

theorem Cart.GetItem_eq_ok (c : Cart) (p : String) (it : CartItem) (h : c.GetItem p = .ok it) :
    ∃ pre post, c.items = pre ++ it :: post ∧ (∀ y ∈ pre, y.productID ≠ p) ∧
      it.productID = p := by
  unfold Cart.GetItem at h
  cases hr : Go.rangeFind (fun item : CartItem => item.productID == p) c.items with
  | none => simp [hr] at h
  | some r =>
    obtain ⟨i, x⟩ := r
    simp only [hr, Except.ok.injEq] at h
    subst h
    obtain ⟨pre, post, hxs, -, hp, hpre⟩ := Go.rangeFind_eq_some _ _ _ _ hr
    exact ⟨pre, post, hxs, fun y hy => by simpa using hpre y hy, by simpa using hp⟩

theorem Cart.GetItem_first (c : Cart) (p : String) (pre post : List CartItem) (it : CartItem)
    (hc : c.items = pre ++ it :: post) (hpre : ∀ y ∈ pre, y.productID ≠ p)
    (hit : it.productID = p) : c.GetItem p = .ok it := by
  have hfind : Go.rangeFind (fun item : CartItem => item.productID == p) c.items
      = some (pre.length, it) := by
    rw [hc]
    apply Go.rangeFind_append_cons
    · intro y hy; simpa using hpre y hy
    · simpa using hit
  simp [Cart.GetItem, hfind]

end cart

/-! ## Lemmas on float64 -/

namespace Float64

/-- A positive float64 (this includes positive infinity) is not `<= 0`. -/
theorem le_zero_eq_false_of_pos (x : Float64) (h : lt zero x = true) : le x zero = false := by
  cases x with
  | nan => simp [lt, zero] at h
  | inf s => cases s <;> simp_all [lt, le, zero]
  | fin k =>
    simp only [lt, zero, decide_eq_true_eq] at h
    simp only [le, zero, decide_eq_false_iff_not]
    omega

/-- The model agrees with Go on the constant `0.1`, which is `0x1.999999999999ap-4`. -/
theorem ofFraction_one_tenth : ofFraction 1 10 = fin (7205759403792794 <<< 1018) := by
  decide

end Float64

/-! ## Lemmas on package order -/

namespace order

theorem floatTotal_eq_recalculate (o : Order) :
    o.recalculateTotalAmount.totalAmount = floatTotal o.items := rfl

theorem NewOrderItem_valid (p : String) (q : Int) (price : Float64) (u : uuid.UUID) (now : Time)
    (hp : p ≠ "") (hq : 0 < q) (hprice : Float64.le price Float64.zero = false) :
    NewOrderItem p q price u now =
      .ok { id := u.str, productID := p, quantity := q, price := price,
            createdAt := now, updatedAt := now } := by
  have hq' : ¬ q ≤ 0 := by omega
  simp [NewOrderItem, NewID, u.nonblank, product.NewID, hp, hq', hprice]

theorem Order.AddItem_not_pending (o : Order) (p : String) (q : Int) (price : Float64)
    (u : uuid.UUID) (now : Time) (hs : o.status ≠ StatusPending) :
    o.AddItem p q price u now = (o, some (Error.New "cannot modify a non-pending order")) := by
  simp [Order.AddItem, hs]

theorem Order.RemoveItem_not_pending (o : Order) (itemID : String) (now : Time)
    (hs : o.status ≠ StatusPending) :
    o.RemoveItem itemID now = (o, some (Error.New "cannot modify a non-pending order")) := by
  simp [Order.RemoveItem, hs]

theorem Order.AddItem_ok (o : Order) (p : String) (q : Int) (price : Float64)
    (u : uuid.UUID) (now : Time) (item : OrderItem) (hs : o.status = StatusPending)
    (hitem : NewOrderItem p q price u now = .ok item) :
    o.AddItem p q price u now =
      ({ o with items := o.items ++ [item], totalAmount := floatTotal (o.items ++ [item]),
                updatedAt := now }, none) := by
  simp [Order.AddItem, hs, hitem, Order.recalculateTotalAmount, floatTotal, OrderItem.Subtotal]

theorem Order.AddItem_error (o : Order) (p : String) (q : Int) (price : Float64)
    (u : uuid.UUID) (now : Time) (err : Error) (hs : o.status = StatusPending)
    (hitem : NewOrderItem p q price u now = .error err) :
    o.AddItem p q price u now = (o, some err) := by
  simp [Order.AddItem, hs, hitem]

/-- Whatever the arguments, `AddItem` either returns an error and the order as it was, or
returns no error, appends one line and recomputes the total. -/
theorem Order.AddItem_cases (o : Order) (p : String) (q : Int) (price : Float64)
    (u : uuid.UUID) (now : Time) :
    (∃ err, o.AddItem p q price u now = (o, some err)) ∨
    (∃ item, o.AddItem p q price u now =
      ({ o with items := o.items ++ [item], totalAmount := floatTotal (o.items ++ [item]),
                updatedAt := now }, none)) := by
  by_cases hs : o.status = StatusPending
  · cases hn : NewOrderItem p q price u now with
    | error err => exact Or.inl ⟨err, Order.AddItem_error o p q price u now err hs hn⟩
    | ok item => exact Or.inr ⟨item, Order.AddItem_ok o p q price u now item hs hn⟩
  · exact Or.inl ⟨_, Order.AddItem_not_pending o p q price u now hs⟩

theorem Order.RemoveItem_found (o : Order) (itemID : String) (now : Time)
    (pre post : List OrderItem) (it : OrderItem) (hs : o.status = StatusPending)
    (ho : o.items = pre ++ it :: post) (hpre : ∀ y ∈ pre, y.id ≠ itemID) (hit : it.id = itemID) :
    o.RemoveItem itemID now =
      ({ o with items := pre ++ post, totalAmount := floatTotal (pre ++ post),
                updatedAt := now }, none) := by
  have hfind : Go.rangeFind (fun item : OrderItem => item.id == itemID) o.items
      = some (pre.length, it) := by
    rw [ho]
    apply Go.rangeFind_append_cons
    · intro y hy; simpa using hpre y hy
    · simpa using hit
  simp only [Order.RemoveItem, hs, bne_self_eq_false, Bool.false_eq_true, if_false, hfind,
    Order.recalculateTotalAmount]
  rw [ho, List.take_drop_length_append_cons]
  rfl

theorem Order.RemoveItem_absent (o : Order) (itemID : String) (now : Time)
    (hs : o.status = StatusPending) (habs : ∀ y ∈ o.items, y.id ≠ itemID) :
    o.RemoveItem itemID now = (o, some Error.ErrItemNotFound) := by
  have hfind : Go.rangeFind (fun item : OrderItem => item.id == itemID) o.items = none := by
    rw [Go.rangeFind_eq_none_iff]
    intro y hy; simpa using habs y hy
  simp [Order.RemoveItem, hs, hfind]

/-- A line with the given id exists exactly when the list splits at the first such line. -/
theorem exists_first_id (items : List OrderItem) (itemID : String)
    (h : ∃ x ∈ items, x.id = itemID) :
    ∃ pre it post, items = pre ++ it :: post ∧ (∀ y ∈ pre, y.id ≠ itemID) ∧
      it.id = itemID := by
  obtain ⟨x, hx, hxp⟩ := h
  obtain ⟨⟨i, it⟩, hr⟩ := Go.rangeFind_of_mem (fun item : OrderItem => item.id == itemID)
    items x hx (by simpa using hxp)
  obtain ⟨pre, post, hxs, -, hp, hpre⟩ := Go.rangeFind_eq_some _ _ _ _ hr
  exact ⟨pre, it, post, hxs, fun y hy => by simpa using hpre y hy, by simpa using hp⟩

/-- Whatever the arguments, `RemoveItem` either returns an error and the order as it was,
or returns no error and recomputes the total over the lines it leaves. -/
theorem Order.RemoveItem_cases (o : Order) (itemID : String) (now : Time) :
    (∃ err, o.RemoveItem itemID now = (o, some err)) ∨
    (∃ items, o.RemoveItem itemID now =
      ({ o with items := items, totalAmount := floatTotal items, updatedAt := now }, none)) := by
  by_cases hs : o.status = StatusPending
  · by_cases hex : ∃ x ∈ o.items, x.id = itemID
    · obtain ⟨pre, it, post, ho, hpre, hit⟩ := exists_first_id o.items itemID hex
      right
      exact ⟨pre ++ post, Order.RemoveItem_found o itemID now pre post it hs ho hpre hit⟩
    · left
      exact ⟨_, Order.RemoveItem_absent o itemID now hs (fun y hy h => hex ⟨y, hy, h⟩)⟩
  · left; exact ⟨_, Order.RemoveItem_not_pending o itemID now hs⟩

/-- The recognized statuses are exactly the keys of the map in `ChangeStatus`. -/
theorem validStatuses_lookup (s : Status) :
    (validStatuses.lookup s).getD false = true ↔
      s ∈ [StatusPending, StatusPaid, StatusShipped, StatusDelivered, StatusCancelled] := by
  by_cases h1 : s = StatusPending
  · subst h1; decide
  by_cases h2 : s = StatusPaid
  · subst h2; decide
  by_cases h3 : s = StatusShipped
  · subst h3; decide
  by_cases h4 : s = StatusDelivered
  · subst h4; decide
  by_cases h5 : s = StatusCancelled
  · subst h5; decide
  have e1 : (s == StatusPending) = false := by simpa using h1
  have e2 : (s == StatusPaid) = false := by simpa using h2
  have e3 : (s == StatusShipped) = false := by simpa using h3
  have e4 : (s == StatusDelivered) = false := by simpa using h4
  have e5 : (s == StatusCancelled) = false := by simpa using h5
  simp [validStatuses, List.lookup, e1, e2, e3, e4, e5, h1, h2, h3, h4, h5]

end order

/-! ## More lemmas on the Go runtime model -/

namespace Go

theorem wrapInt64_add_wrapInt64 (a b : Int) :
    wrapInt64 (wrapInt64 a + b) = wrapInt64 (a + b) := by
  unfold wrapInt64
  omega

theorem wrapInt64_idem (a : Int) : wrapInt64 (wrapInt64 a) = wrapInt64 a := by
  unfold wrapInt64
  omega

theorem wrapInt64_sub_wrapInt64 (a b : Int) :
    wrapInt64 (wrapInt64 a - b) = wrapInt64 (a - b) := by
  unfold wrapInt64
  omega

end Go

/-! ## More lemmas on package cart -/

namespace cart

/-- The wrapping sum of `TotalItems` is the exact sum of the quantities, wrapped once. -/
theorem foldl_total_eq (items : List CartItem) (init : Int) :
    Go.wrapInt64 (items.foldl (fun total item => Go.wrapInt64 (total + item.quantity)) init) =
      Go.wrapInt64 (init + (items.map (fun item => item.quantity)).sum) := by
  induction items generalizing init with
  | nil => simp
  | cons x xs ih =>
    simp only [List.foldl_cons, List.map_cons, List.sum_cons]
    rw [ih, Go.wrapInt64_add_wrapInt64]
    congr 1
    omega

theorem foldl_total_wrapped (items : List CartItem) (init : Int)
    (h : Go.wrapInt64 init = init) :
    Go.wrapInt64 (items.foldl (fun total item => Go.wrapInt64 (total + item.quantity)) init) =
      items.foldl (fun total item => Go.wrapInt64 (total + item.quantity)) init := by
  induction items generalizing init with
  | nil => simpa using h
  | cons x xs ih =>
    simp only [List.foldl_cons]
    exact ih _ (Go.wrapInt64_idem _)

theorem Cart.TotalItems_eq (c : Cart) :
    c.TotalItems = Go.wrapInt64 ((c.items.map (fun item => item.quantity)).sum) := by
  unfold Cart.TotalItems
  rw [← foldl_total_wrapped c.items 0 (by decide), foldl_total_eq]
  simp

theorem Cart.RemoveItem_first_line (c : Cart) (p : String) (now : Time)
    (pre post : List CartItem) (it : CartItem)
    (hc : c.items = pre ++ it :: post) (hpre : ∀ y ∈ pre, y.productID ≠ p)
    (hit : it.productID = p) :
    c.RemoveItem p now = ({ c with items := pre ++ post, updatedAt := now }, none) := by
  have hfind : Go.rangeFind (fun item : CartItem => item.productID == p) c.items
      = some (pre.length, it) := by
    rw [hc]
    apply Go.rangeFind_append_cons
    · intro y hy; simpa using hpre y hy
    · simpa using hit
  simp only [Cart.RemoveItem, hfind]
  rw [hc, List.take_drop_length_append_cons]

theorem Cart.RemoveItem_no_line (c : Cart) (p : String) (now : Time)
    (habs : ∀ y ∈ c.items, y.productID ≠ p) :
    c.RemoveItem p now = (c, some Error.ErrProductNotFound) := by
  have hfind : Go.rangeFind (fun item : CartItem => item.productID == p) c.items = none := by
    rw [Go.rangeFind_eq_none_iff]
    intro y hy; simpa using habs y hy
  simp [Cart.RemoveItem, hfind]

theorem Cart.HasItem_eq_false (c : Cart) (p : String) (habs : ∀ y ∈ c.items, y.productID ≠ p) :
    c.HasItem p = false := by
  have hfind : Go.rangeFind (fun item : CartItem => item.productID == p) c.items = none := by
    rw [Go.rangeFind_eq_none_iff]
    intro y hy; simpa using habs y hy
  simp [Cart.HasItem, hfind]

theorem Cart.AddItem_invalid_quantity (c : Cart) (p : String) (q : Int) (u : uuid.UUID)
    (now : Time) (hq : q ≤ 0) : c.AddItem p q u now = (c, some Error.ErrInvalidQuantity) := by
  simp [Cart.AddItem, hq]

theorem Cart.AddItem_invalid_product (c : Cart) (q : Int) (u : uuid.UUID) (now : Time)
    (hq : 0 < q) (habs : ∀ y ∈ c.items, y.productID ≠ "") :
    c.AddItem "" q u now = (c, some Error.ErrInvalidProductID) := by
  have hfind : Go.rangeFind (fun item : CartItem => item.productID == "") c.items = none := by
    rw [Go.rangeFind_eq_none_iff]
    intro y hy; simpa using habs y hy
  have hq' : ¬ q ≤ 0 := by omega
  simp [Cart.AddItem, hq', hfind, NewCartItem, NewID, u.nonblank, product.NewID]

/-- The three outcomes of `AddItem`: an error and the cart as it was; the merge into the
first line for `p`; a new last line. -/
theorem Cart.AddItem_outcomes (c : Cart) (p : String) (q : Int) (u : uuid.UUID) (now : Time) :
    (∃ err, c.AddItem p q u now = (c, some err)) ∨
    (0 < q ∧ ∃ pre it post, c.items = pre ++ it :: post ∧ (∀ y ∈ pre, y.productID ≠ p) ∧
      it.productID = p ∧
      c.AddItem p q u now =
        ({ c with items := pre ++ { it with quantity := Go.wrapInt64 (it.quantity + q),
                                            updatedAt := now } :: post }, none)) ∨
    (0 < q ∧ p ≠ "" ∧ (∀ y ∈ c.items, y.productID ≠ p) ∧
      c.AddItem p q u now =
        ({ c with items := c.items ++ [{ id := u.str, productID := p, quantity := q,
                                         createdAt := now, updatedAt := now }],
                  updatedAt := now }, none)) := by
  by_cases hq : q ≤ 0
  · exact Or.inl ⟨_, Cart.AddItem_invalid_quantity c p q u now hq⟩
  · have hq' : 0 < q := by omega
    by_cases hex : ∃ x ∈ c.items, x.productID = p
    · obtain ⟨pre, it, post, hc, hpre, hit⟩ := exists_first_line c.items p hex
      exact Or.inr (Or.inl ⟨hq', pre, it, post, hc, hpre, hit,
        Cart.AddItem_merge c p q u now pre post it hc hpre hit hq'⟩)
    · have habs : ∀ y ∈ c.items, y.productID ≠ p := fun y hy h => hex ⟨y, hy, h⟩
      by_cases hp : p = ""
      · subst hp
        exact Or.inl ⟨_, Cart.AddItem_invalid_product c q u now hq' habs⟩
      · exact Or.inr (Or.inr ⟨hq', hp, habs, Cart.AddItem_new c p q u now habs hp hq'⟩)

/-- The two outcomes of `RemoveItem`. -/
theorem Cart.RemoveItem_outcomes (c : Cart) (p : String) (now : Time) :
    c.RemoveItem p now = (c, some Error.ErrProductNotFound) ∨
    (∃ pre it post, c.items = pre ++ it :: post ∧ (∀ y ∈ pre, y.productID ≠ p) ∧
      it.productID = p ∧
      c.RemoveItem p now = ({ c with items := pre ++ post, updatedAt := now }, none)) := by
  by_cases hex : ∃ x ∈ c.items, x.productID = p
  · obtain ⟨pre, it, post, hc, hpre, hit⟩ := exists_first_line c.items p hex
    exact Or.inr ⟨pre, it, post, hc, hpre, hit, Cart.RemoveItem_first_line c p now pre post it hc hpre hit⟩
  · exact Or.inl (Cart.RemoveItem_no_line c p now (fun y hy h => hex ⟨y, hy, h⟩))

/-- The two outcomes of `UpdateItemQuantity`. -/
theorem Cart.UpdateItemQuantity_outcomes (c : Cart) (p : String) (q : Int) (now : Time) :
    (∃ err, c.UpdateItemQuantity p q now = (c, some err)) ∨
    (0 < q ∧ ∃ pre it post, c.items = pre ++ it :: post ∧ (∀ y ∈ pre, y.productID ≠ p) ∧
      it.productID = p ∧
      c.UpdateItemQuantity p q now =
        ({ c with items := pre ++ { it with quantity := q, updatedAt := now } :: post }, none)) := by
  by_cases hq : q ≤ 0
  · exact Or.inl ⟨Error.ErrInvalidQuantity, by simp [Cart.UpdateItemQuantity, hq]⟩
  · have hq' : 0 < q := by omega
    by_cases hex : ∃ x ∈ c.items, x.productID = p
    · obtain ⟨pre, it, post, hc, hpre, hit⟩ := exists_first_line c.items p hex
      exact Or.inr ⟨hq', pre, it, post, hc, hpre, hit,
        Cart.UpdateItemQuantity_found c p q now pre post it hc hpre hit hq'⟩
    · have hfind : Go.rangeFind (fun item : CartItem => item.productID == p) c.items = none := by
        rw [Go.rangeFind_eq_none_iff]
        intro y hy
        simpa using fun h => hex ⟨y, hy, h⟩
      exact Or.inl ⟨Error.ErrProductNotFound, by simp [Cart.UpdateItemQuantity, hq, hfind]⟩

theorem NewCart_ok (userID : String) (u : uuid.UUID) (now : Time) (hu : userID ≠ "") :
    NewCart userID u now =
      .ok { id := u.str, userID := userID, items := [], createdAt := now, updatedAt := now } := by
  simp [NewCart, NewID, u.nonblank, user.NewID, hu]

theorem NewCart_items (userID : String) (u : uuid.UUID) (now : Time) (c : Cart)
    (h : NewCart userID u now = .ok c) : c.items = [] := by
  by_cases hu : userID = ""
  · simp [NewCart, NewID, u.nonblank, user.NewID, hu] at h
  · rw [NewCart_ok userID u now hu] at h
    simp only [Except.ok.injEq] at h
    subst h
    rfl

end cart

/-! ## The cart invariant, step by step -/

namespace cart

/-- Replacing a line by one for the same product with a positive quantity keeps the
product ids distinct and the quantities positive. -/
theorem inv_replace (pre post : List CartItem) (it new : CartItem)
    (hid : new.productID = it.productID) (hq : 0 < new.quantity)
    (h : ((pre ++ it :: post).map (fun x => x.productID)).Nodup ∧
      ∀ x ∈ pre ++ it :: post, 0 < x.quantity) :
    ((pre ++ new :: post).map (fun x => x.productID)).Nodup ∧
      ∀ x ∈ pre ++ new :: post, 0 < x.quantity := by
  obtain ⟨hn, hpos⟩ := h
  constructor
  · simpa [hid] using hn
  · intro x hx
    rcases List.mem_append.mp hx with hx | hx
    · exact hpos x (List.mem_append_left _ hx)
    · rcases List.mem_cons.mp hx with rfl | hx
      · exact hq
      · exact hpos x (List.mem_append_right _ (List.mem_cons_of_mem _ hx))

/-- Removing a line keeps the product ids distinct and the quantities positive. -/
theorem inv_remove (pre post : List CartItem) (it : CartItem)
    (h : ((pre ++ it :: post).map (fun x => x.productID)).Nodup ∧
      ∀ x ∈ pre ++ it :: post, 0 < x.quantity) :
    ((pre ++ post).map (fun x => x.productID)).Nodup ∧ ∀ x ∈ pre ++ post, 0 < x.quantity := by
  obtain ⟨hn, hpos⟩ := h
  constructor
  · have hsub : List.Sublist ((pre ++ post).map (fun x => x.productID))
        ((pre ++ it :: post).map (fun x => x.productID)) :=
      List.Sublist.map _ (List.Sublist.append_left (List.sublist_cons_self it post) pre)
    exact hn.sublist hsub
  · intro x hx
    rcases List.mem_append.mp hx with hx | hx
    · exact hpos x (List.mem_append_left _ hx)
    · exact hpos x (List.mem_append_right _ (List.mem_cons_of_mem _ hx))

/-- Appending a line for a product not yet present, with a positive quantity, keeps the
product ids distinct and the quantities positive. -/
theorem inv_append (items : List CartItem) (new : CartItem)
    (habs : ∀ y ∈ items, y.productID ≠ new.productID) (hq : 0 < new.quantity)
    (h : (items.map (fun x => x.productID)).Nodup ∧ ∀ x ∈ items, 0 < x.quantity) :
    ((items ++ [new]).map (fun x => x.productID)).Nodup ∧
      ∀ x ∈ items ++ [new], 0 < x.quantity := by
  obtain ⟨hn, hpos⟩ := h
  constructor
  · rw [List.map_append, List.nodup_append]
    refine ⟨hn, by simp, ?_⟩
    intro a ha hb
    simp only [List.map_cons, List.map_nil, List.mem_singleton] at hb
    obtain ⟨y, hy, hya⟩ := List.mem_map.mp ha
    exact habs y hy (hya.trans hb)
  · intro x hx
    rcases List.mem_append.mp hx with hx | hx
    · exact hpos x hx
    · simp only [List.mem_singleton] at hx
      subst hx
      exact hq

end cart

namespace cart

/-- No line of a reachable cart carries the empty product id: `NewCartItem` refuses it. -/
theorem reachable_productID_ne_empty (c : Cart) (h : Reachable c) :
    ∀ x ∈ c.items, x.productID ≠ "" := by
  induction h with
  | newCart userID u now c h =>
    rw [NewCart_items userID u now c h]
    simp
  | addItem c p q u now _ _ ih =>
    rcases Cart.AddItem_outcomes c p q u now with
      ⟨err, he⟩ | ⟨_, pre, it, post, hc, _, _, he⟩ | ⟨_, hp, _, he⟩
    · rw [he]; exact ih
    · rw [he]
      rw [hc] at ih
      intro x hx
      rcases List.mem_append.mp hx with hx | hx
      · exact ih x (List.mem_append_left _ hx)
      · rcases List.mem_cons.mp hx with rfl | hx
        · exact ih it (by simp)
        · exact ih x (List.mem_append_right _ (List.mem_cons_of_mem _ hx))
    · rw [he]
      intro x hx
      rcases List.mem_append.mp hx with hx | hx
      · exact ih x hx
      · simp only [List.mem_singleton] at hx
        subst hx
        exact hp
  | removeItem c p now _ ih =>
    rcases Cart.RemoveItem_outcomes c p now with he | ⟨pre, it, post, hc, _, _, he⟩
    · rw [he]; exact ih
    · rw [he]
      rw [hc] at ih
      intro x hx
      rcases List.mem_append.mp hx with hx | hx
      · exact ih x (List.mem_append_left _ hx)
      · exact ih x (List.mem_append_right _ (List.mem_cons_of_mem _ hx))
  | updateItemQuantity c p q now _ ih =>
    rcases Cart.UpdateItemQuantity_outcomes c p q now with
      ⟨err, he⟩ | ⟨_, pre, it, post, hc, _, _, he⟩
    · rw [he]; exact ih
    · rw [he]
      rw [hc] at ih
      intro x hx
      rcases List.mem_append.mp hx with hx | hx
      · exact ih x (List.mem_append_left _ hx)
      · rcases List.mem_cons.mp hx with rfl | hx
        · exact ih it (by simp)
        · exact ih x (List.mem_append_right _ (List.mem_cons_of_mem _ hx))
  | clear c now _ _ =>
    simp [Cart.Clear]

end cart

/-! ## Prices and lines that the constructors accept -/

namespace Float64

/-- The float64 values that are not `<= 0`: NaN, positive infinity and the positive finite
values. -/
theorem le_zero_eq_false_iff (x : Float64) :
    le x zero = false ↔ x = nan ∨ x = inf false ∨ ∃ k, 0 < k ∧ x = fin k := by
  cases x with
  | nan => simp [le, zero]
  | inf s => cases s <;> simp [le, zero]
  | fin k =>
    simp only [le, zero, decide_eq_false_iff_not, not_le, reduceCtorEq, false_or, fin.injEq,
      exists_eq_right']

end Float64

namespace order

/-- What `NewOrderItem` returns, when it returns a line: the arguments, which passed the
three checks. -/
theorem NewOrderItem_eq_ok (p : String) (q : Int) (price : Float64) (u : uuid.UUID) (now : Time)
    (item : OrderItem) (h : NewOrderItem p q price u now = .ok item) :
    p ≠ "" ∧ 0 < q ∧ Float64.le price Float64.zero = false ∧
      item = { id := u.str, productID := p, quantity := q, price := price,
               createdAt := now, updatedAt := now } := by
  by_cases hp : p = ""
  · simp [NewOrderItem, NewID, u.nonblank, product.NewID, hp] at h
  · by_cases hq : q ≤ 0
    · simp [NewOrderItem, NewID, u.nonblank, product.NewID, hp, hq] at h
    · cases hprice : Float64.le price Float64.zero with
      | true => simp [NewOrderItem, NewID, u.nonblank, product.NewID, hp, hq, hprice] at h
      | false =>
        simp [NewOrderItem, NewID, u.nonblank, product.NewID, hp, hq, hprice] at h
        exact ⟨hp, by omega, rfl, h.symm⟩

/-- The outcomes of `AddItem`, with the new line spelled out. -/
theorem Order.AddItem_results (o : Order) (p : String) (q : Int) (price : Float64)
    (u : uuid.UUID) (now : Time) :
    (∃ err, o.AddItem p q price u now = (o, some err)) ∨
    (o.status = StatusPending ∧ p ≠ "" ∧ 0 < q ∧ Float64.le price Float64.zero = false ∧
      ∃ item, item = { id := u.str, productID := p, quantity := q, price := price,
                       createdAt := now, updatedAt := now } ∧
        o.AddItem p q price u now =
          ({ o with items := o.items ++ [item], totalAmount := floatTotal (o.items ++ [item]),
                    updatedAt := now }, none)) := by
  by_cases hs : o.status = StatusPending
  · cases hn : NewOrderItem p q price u now with
    | error err => exact Or.inl ⟨err, Order.AddItem_error o p q price u now err hs hn⟩
    | ok item =>
      obtain ⟨hp, hq, hprice, hitem⟩ := NewOrderItem_eq_ok p q price u now item hn
      exact Or.inr ⟨hs, hp, hq, hprice, item, hitem,
        Order.AddItem_ok o p q price u now item hs hn⟩
  · exact Or.inl ⟨_, Order.AddItem_not_pending o p q price u now hs⟩

/-- The outcomes of `RemoveItem`, with the removed line spelled out. -/
theorem Order.RemoveItem_results (o : Order) (itemID : String) (now : Time) :
    (∃ err, o.RemoveItem itemID now = (o, some err)) ∨
    (∃ pre it post, o.items = pre ++ it :: post ∧ (∀ y ∈ pre, y.id ≠ itemID) ∧
      it.id = itemID ∧
      o.RemoveItem itemID now =
        ({ o with items := pre ++ post, totalAmount := floatTotal (pre ++ post),
                  updatedAt := now }, none)) := by
  by_cases hs : o.status = StatusPending
  · by_cases hex : ∃ x ∈ o.items, x.id = itemID
    · obtain ⟨pre, it, post, ho, hpre, hit⟩ := exists_first_id o.items itemID hex
      exact Or.inr ⟨pre, it, post, ho, hpre, hit,
        Order.RemoveItem_found o itemID now pre post it hs ho hpre hit⟩
    · exact Or.inl
        ⟨_, Order.RemoveItem_absent o itemID now hs (fun y hy h => hex ⟨y, hy, h⟩)⟩
  · exact Or.inl ⟨_, Order.RemoveItem_not_pending o itemID now hs⟩

theorem NewOrder_items (userID shippingAddress billingAddress paymentMethod : String)
    (u : uuid.UUID) (now : Time) (o : Order)
    (h : NewOrder userID shippingAddress billingAddress paymentMethod u now = .ok o) :
    o.items = [] ∧ o.totalAmount = Float64.zero ∧ o.status = StatusPending := by
  unfold NewOrder at h
  split at h
  · exact absurd h (by simp)
  · split at h
    · exact absurd h (by simp)
    · split_ifs at h
      simp only [Except.ok.injEq] at h
      subst h
      exact ⟨rfl, rfl, rfl⟩

/-- Every line of a reachable order passed the checks of `NewOrderItem`: its product id is
not empty, its quantity is positive and its price is not `<= 0`. -/
theorem reachable_lines_checked (o : Order) (h : Reachable o) :
    ∀ line ∈ o.items, line.productID ≠ "" ∧ 0 < line.quantity ∧
      Float64.le line.price Float64.zero = false := by
  induction h with
  | newOrder userID shippingAddress billingAddress paymentMethod u now o h =>
    rw [(NewOrder_items _ _ _ _ u now o h).1]
    simp
  | addItem o p q price u now _ ih =>
    rcases Order.AddItem_results o p q price u now with
      ⟨err, he⟩ | ⟨_, hp, hq, hprice, item, hitem, he⟩
    · rw [he]; exact ih
    · rw [he]
      intro line hline
      rcases List.mem_append.mp hline with hl | hl
      · exact ih line hl
      · simp only [List.mem_singleton] at hl
        subst hl
        subst hitem
        exact ⟨hp, hq, hprice⟩
  | removeItem o itemID now _ ih =>
    rcases Order.RemoveItem_results o itemID now with
      ⟨err, he⟩ | ⟨pre, it, post, ho, _, _, he⟩
    · rw [he]; exact ih
    · rw [he]
      rw [ho] at ih
      intro line hline
      rcases List.mem_append.mp hline with hl | hl
      · exact ih line (List.mem_append_left _ hl)
      · exact ih line (List.mem_append_right _ (List.mem_cons_of_mem _ hl))
  | changeStatus o s now _ ih =>
    unfold Order.ChangeStatus
    split_ifs <;> exact ih
  | changeShippingAddress o a now _ ih =>
    unfold Order.ChangeShippingAddress
    split_ifs <;> exact ih
  | changeBillingAddress o a now _ ih =>
    unfold Order.ChangeBillingAddress
    split_ifs <;> exact ih
  | changePaymentMethod o m now _ ih =>
    unfold Order.ChangePaymentMethod
    split_ifs <;> exact ih

end order

namespace Float64

/-- The model agrees with Go on the constants of the scenario: `9.99` is
`0x1.3fae147ae147bp+3`, `19.98` is `0x1.3fae147ae147bp+4` and `29.97` is
`0x1.df851eb851eb8p+4`. -/
theorem ofFraction_scenario_constants :
    ofFraction 999 100 = fin (5623870034678907 <<< 1025) ∧
    ofFraction 1998 100 = fin (5623870034678907 <<< 1026) ∧
    ofFraction 2997 100 = fin (8435805052018360 <<< 1026) := by
  decide

end Float64

/-! ## Lemmas on package product -/

namespace product

theorem NewID_uuid (u : uuid.UUID) : NewID u.str = .ok u.str := by
  have h : u.str ≠ "" := by
    intro h
    have hb := u.nonblank
    rw [h] at hb
    exact hb (by decide)
  simp [NewID, h]

/-- A product that `NewProduct` returns carries the given price and stock, which passed
`NewPrice` and `NewStock`. -/
theorem NewProduct_eq_ok (name description : String) (price : Float64) (stock : Int)
    (u : uuid.UUID) (now : Time) (p : Product)
    (h : NewProduct name description price stock u now = .ok p) :
    Float64.le price Float64.zero = false ∧ 0 ≤ stock ∧ p.price = price ∧ p.stock = stock := by
  unfold NewProduct at h
  rw [NewID_uuid u] at h
  simp only at h
  split at h
  · exact absurd h (by simp)
  · split at h
    · exact absurd h (by simp)
    · split at h
      · exact absurd h (by simp)
      · rename_i priceVO hprice
        split at h
        · exact absurd h (by simp)
        · rename_i stockVO hstock
          simp only [Except.ok.injEq] at h
          subst h
          unfold NewPrice at hprice
          unfold NewStock at hstock
          split_ifs at hprice with hle
          split_ifs at hstock with hneg
          simp only [Except.ok.injEq] at hprice hstock
          subst hprice
          subst hstock
          refine ⟨by simpa using hle, by omega, rfl, rfl⟩

/-- The outcomes of `ChangeStock`. -/
theorem Product.ChangeStock_outcomes (p : Product) (stock : Int) (now : Time) :
    (stock < 0 ∧ p.ChangeStock stock now = (p, some Error.ErrInvalidStock)) ∨
    (0 ≤ stock ∧ p.ChangeStock stock now = ({ p with stock := stock, updatedAt := now }, none)) := by
  by_cases hs : stock < 0
  · exact Or.inl ⟨hs, by simp [Product.ChangeStock, NewStock, hs]⟩
  · exact Or.inr ⟨by omega, by simp [Product.ChangeStock, NewStock, hs]⟩

/-- The outcomes of `ChangePrice`. -/
theorem Product.ChangePrice_outcomes (p : Product) (price : Float64) (now : Time) :
    (Float64.le price Float64.zero = true ∧
      p.ChangePrice price now = (p, some Error.ErrInvalidPrice)) ∨
    (Float64.le price Float64.zero = false ∧
      p.ChangePrice price now = ({ p with price := price, updatedAt := now }, none)) := by
  cases hle : Float64.le price Float64.zero with
  | true => exact Or.inl ⟨rfl, by simp [Product.ChangePrice, NewPrice, hle]⟩
  | false => exact Or.inr ⟨rfl, by simp [Product.ChangePrice, NewPrice, hle]⟩

/-- The outcomes of `IncreaseStock`. -/
theorem Product.IncreaseStock_outcomes (p : Product) (quantity : Int) (now : Time) :
    (quantity ≤ 0 ∧ p.IncreaseStock quantity now = (p, some Error.ErrInvalidStock)) ∨
    (0 < quantity ∧
      p.IncreaseStock quantity now = p.ChangeStock (Go.wrapInt64 (p.stock + quantity)) now) := by
  by_cases hq : quantity ≤ 0
  · exact Or.inl ⟨hq, by simp [Product.IncreaseStock, hq]⟩
  · exact Or.inr ⟨by omega, by simp [Product.IncreaseStock, hq]⟩

/-- The outcomes of `DecreaseStock`. -/
theorem Product.DecreaseStock_outcomes (p : Product) (quantity : Int) (now : Time) :
    (quantity ≤ 0 ∧ p.DecreaseStock quantity now = (p, some Error.ErrInvalidStock)) ∨
    (0 < quantity ∧ Go.wrapInt64 (p.stock - quantity) < 0 ∧
      p.DecreaseStock quantity now = (p, some Error.ErrInvalidStock)) ∨
    (0 < quantity ∧ 0 ≤ Go.wrapInt64 (p.stock - quantity) ∧
      p.DecreaseStock quantity now =
        ({ p with stock := Go.wrapInt64 (p.stock - quantity), updatedAt := now }, none)) := by
  by_cases hq : quantity ≤ 0
  · exact Or.inl ⟨hq, by simp [Product.DecreaseStock, hq]⟩
  · by_cases hn : Go.wrapInt64 (p.stock - quantity) < 0
    · exact Or.inr (Or.inl ⟨by omega, hn, by simp [Product.DecreaseStock, hq, hn]⟩)
    · exact Or.inr (Or.inr ⟨by omega, by omega,
        by simp [Product.DecreaseStock, hq, hn, Product.ChangeStock, NewStock]⟩)

/-- The price of a reachable product is not `<= 0`. -/
theorem reachable_price_checked (p : Product) (h : Reachable p) :
    Float64.le p.price Float64.zero = false := by
  induction h with
  | newProduct name description price stock u now p h =>
    obtain ⟨hle, _, hp, _⟩ := NewProduct_eq_ok name description price stock u now p h
    rw [hp]; exact hle
  | changeName p name now _ ih =>
    unfold Product.ChangeName
    split <;> exact ih
  | changeDescription p description now _ ih =>
    unfold Product.ChangeDescription
    split <;> exact ih
  | changePrice p price now _ ih =>
    rcases Product.ChangePrice_outcomes p price now with ⟨_, he⟩ | ⟨hle, he⟩
    · rw [he]; exact ih
    · rw [he]; exact hle
  | changeStock p stock now _ ih =>
    rcases Product.ChangeStock_outcomes p stock now with ⟨_, he⟩ | ⟨_, he⟩
    · rw [he]; exact ih
    · rw [he]; exact ih
  | increaseStock p quantity now _ ih =>
    rcases Product.IncreaseStock_outcomes p quantity now with ⟨_, he⟩ | ⟨_, he⟩
    · rw [he]; exact ih
    · rw [he]
      rcases Product.ChangeStock_outcomes p (Go.wrapInt64 (p.stock + quantity)) now with
        ⟨_, he2⟩ | ⟨_, he2⟩
      · rw [he2]; exact ih
      · rw [he2]; exact ih
  | decreaseStock p quantity now _ ih =>
    rcases Product.DecreaseStock_outcomes p quantity now with
      ⟨_, he⟩ | ⟨_, _, he⟩ | ⟨_, _, he⟩
    · rw [he]; exact ih
    · rw [he]; exact ih
    · rw [he]; exact ih

end product

/-! ## Wrapping sums of quantities -/

namespace Go

/-- A wrapping sum started at `init` is the exact sum wrapped once. -/
theorem wrapInt64_foldl {α : Type} (f : α → Int) (xs : List α) (init : Int) :
    wrapInt64 (xs.foldl (fun total x => wrapInt64 (total + f x)) init) =
      wrapInt64 (init + (xs.map f).sum) := by
  induction xs generalizing init with
  | nil => simp
  | cons x xs ih =>
    simp only [List.foldl_cons, List.map_cons, List.sum_cons]
    rw [ih, wrapInt64_add_wrapInt64]
    congr 1
    omega

theorem wrapInt64_foldl_wrapped {α : Type} (f : α → Int) (xs : List α) (init : Int)
    (h : wrapInt64 init = init) :
    wrapInt64 (xs.foldl (fun total x => wrapInt64 (total + f x)) init) =
      xs.foldl (fun total x => wrapInt64 (total + f x)) init := by
  induction xs generalizing init with
  | nil => simpa using h
  | cons x xs ih =>
    simp only [List.foldl_cons]
    exact ih _ (wrapInt64_idem _)

end Go

namespace order

theorem Order.TotalItems_eq_wrapped_sum (o : Order) :
    o.TotalItems = Go.wrapInt64 ((o.items.map (fun item => item.quantity)).sum) := by
  unfold Order.TotalItems
  rw [← Go.wrapInt64_foldl_wrapped (fun item : OrderItem => item.quantity) o.items 0 (by decide),
    Go.wrapInt64_foldl]
  simp

/-- One `ChangeStatus` call with a recognized argument. -/
theorem Order.ChangeStatus_recognized (o : Order) (s : Status) (now : Time)
    (hs : s ∈ [StatusPending, StatusPaid, StatusShipped, StatusDelivered, StatusCancelled]) :
    o.ChangeStatus s now = ({ o with status := s, updatedAt := now }, none) := by
  have hv := (validStatuses_lookup s).mpr hs
  simp [Order.ChangeStatus, hv]

end order

/-! ## The cart of a User and the Cart aggregate, side by side -/

/-- The two loops find the same position, and lines with the same product id and
quantity, when the two carts list the same (product id, quantity) pairs. -/
theorem rangeFind_user_cart (p : String) (us : List user.CartItem) (cs : List cart.CartItem)
    (h : us.map (fun x => (x.ProductID, x.Quantity)) = cs.map (fun y => (y.productID, y.quantity))) :
    (Go.rangeFind (fun x : user.CartItem => x.ProductID == p) us = none ∧
      Go.rangeFind (fun y : cart.CartItem => y.productID == p) cs = none) ∨
    (∃ i x y, Go.rangeFind (fun x : user.CartItem => x.ProductID == p) us = some (i, x) ∧
      Go.rangeFind (fun y : cart.CartItem => y.productID == p) cs = some (i, y) ∧
      x.ProductID = y.productID ∧ x.Quantity = y.quantity) := by
  induction us generalizing cs with
  | nil =>
    cases cs with
    | nil => exact Or.inl ⟨rfl, rfl⟩
    | cons y ys => simp at h
  | cons x xs ih =>
    cases cs with
    | nil => simp at h
    | cons y ys =>
      simp only [List.map_cons, List.cons.injEq, Prod.mk.injEq] at h
      obtain ⟨⟨hid, hqty⟩, htail⟩ := h
      by_cases hx : x.ProductID = p
      · have hy : y.productID = p := by rw [← hid]; exact hx
        exact Or.inr ⟨0, x, y, by simp [Go.rangeFind, hx], by simp [Go.rangeFind, hy], hid, hqty⟩
      · have hy : ¬ y.productID = p := by rw [← hid]; exact hx
        rcases ih ys htail with ⟨h1, h2⟩ | ⟨i, a, b, h1, h2, h3, h4⟩
        · exact Or.inl ⟨by simp [Go.rangeFind, hx, h1], by simp [Go.rangeFind, hy, h2]⟩
        · exact Or.inr ⟨i + 1, a, b, by simp [Go.rangeFind, hx, h1],
            by simp [Go.rangeFind, hy, h2], h3, h4⟩

/-- One call keeps the two carts in step: same outcome, same (product id, quantity) pairs
afterwards. -/
theorem call_user_cart (usr : user.User) (c : cart.Cart) (call : CartCall) (u : uuid.UUID)
    (now : Time) (hcall : call.ProductIDNonEmpty)
    (h : usr.cart.map (fun x => (x.ProductID, x.Quantity)) =
      c.items.map (fun y => (y.productID, y.quantity))) :
    (usr.call call now).2.isNone = (c.call call u now).2.isNone ∧
    (usr.call call now).1.cart.map (fun x => (x.ProductID, x.Quantity)) =
      (c.call call u now).1.items.map (fun y => (y.productID, y.quantity)) := by
  cases call with
  | add p q =>
    simp only [CartCall.ProductIDNonEmpty] at hcall
    simp only [user.User.call, cart.Cart.call, user.User.AddToCart, cart.Cart.AddItem]
    by_cases hq : q ≤ 0
    · simp [hq, h]
    · simp only [hq, if_false]
      rcases rangeFind_user_cart p usr.cart c.items h with ⟨h1, h2⟩ | ⟨i, x, y, h1, h2, h3, h4⟩
      · simp [h1, h2, cart.NewCartItem, cart.NewID, u.nonblank, product.NewID, hcall, hq, h]
      · simp [h1, h2, cart.CartItem.IncreaseQuantity, hq, h, h3, h4]
  | remove p =>
    simp only [user.User.call, cart.Cart.call, user.User.RemoveFromCart, cart.Cart.RemoveItem]
    rcases rangeFind_user_cart p usr.cart c.items h with ⟨h1, h2⟩ | ⟨i, x, y, h1, h2, h3, h4⟩
    · simp [h1, h2, h]
    · simp [h1, h2, h]
  | update p q =>
    simp only [user.User.call, cart.Cart.call, user.User.UpdateCartItemQuantity,
      cart.Cart.UpdateItemQuantity]
    by_cases hq : q ≤ 0
    · simp [hq, h]
    · simp only [hq, if_false]
      rcases rangeFind_user_cart p usr.cart c.items h with ⟨h1, h2⟩ | ⟨i, x, y, h1, h2, h3, h4⟩
      · simp [h1, h2, h]
      · simp [h1, h2, cart.CartItem.UpdateQuantity, hq, h, h3]
  | clear =>
    simp [user.User.call, cart.Cart.call, user.User.ClearCart, cart.Cart.Clear]

/-! ## Rounding keeps positive values positive -/

namespace Float64

theorem bitsGo_spec (es : List Nat) : ∀ (a acc : Nat), a ≠ 0 →
    ∃ j, bitsGo es a acc = acc + j + 1 ∧ 2 ^ j ≤ a := by
  induction es with
  | nil =>
    intro a acc ha
    exact ⟨0, by simp [bitsGo, ha], by simpa using Nat.pos_of_ne_zero ha⟩
  | cons e es ih =>
    intro a acc ha
    by_cases h0 : a >>> e = 0
    · obtain ⟨j, hj, hle⟩ := ih a acc ha
      exact ⟨j, by simp [bitsGo, h0, hj], hle⟩
    · obtain ⟨j, hj, hle⟩ := ih (a >>> e) (acc + e) h0
      refine ⟨e + j, by simp [bitsGo, h0, hj]; omega, ?_⟩
      rw [Nat.shiftRight_eq_div_pow] at hle
      have := (Nat.le_div_iff_mul_le (Nat.two_pow_pos e)).mp hle
      rw [Nat.pow_add, Nat.mul_comm]
      exact this

theorem bitLen_spec (a : Nat) (ha : a ≠ 0) : ∃ j, bitLen a = j + 1 ∧ 2 ^ j ≤ a := by
  unfold bitLen
  split_ifs
  · obtain ⟨j, hj, hle⟩ := bitsGo_spec
      [4096, 2048, 1024, 512, 256, 128, 64, 32, 16, 8, 4, 2, 1] a 0 ha
    exact ⟨j, by omega, hle⟩
  · exact ⟨Nat.log2 a, rfl, Nat.log2_self_le ha⟩

/-- A pure fact of arithmetic behind `roundNat_ge`. -/
theorem round_arith (a s t shift r1 : Nat) (hst : s ≤ t) (hs : s ≤ shift)
    (hat : 2 ^ t ≤ a) (hshift : 2 ^ shift ≤ a) (hr : a / 2 ^ shift ≤ r1) :
    2 ^ (t - s) ≤ r1 * 2 ^ (shift - s) := by
  by_cases hcase : shift ≤ t
  · have h1 : 2 ^ (t - shift) ≤ a / 2 ^ shift := by
      rw [Nat.le_div_iff_mul_le (Nat.two_pow_pos shift), ← Nat.pow_add]
      have : t - shift + shift = t := by omega
      rw [this]; exact hat
    have h2 : 2 ^ (t - s) = 2 ^ (t - shift) * 2 ^ (shift - s) := by
      rw [← Nat.pow_add]; congr 1; omega
    rw [h2]
    exact Nat.mul_le_mul_right _ (Nat.le_trans h1 hr)
  · have h1 : 1 ≤ a / 2 ^ shift := by
      rw [Nat.le_div_iff_mul_le (Nat.two_pow_pos shift)]
      simpa using hshift
    have h2 : 2 ^ (t - s) ≤ 2 ^ (shift - s) := Nat.pow_le_pow_right (by decide) (by omega)
    calc 2 ^ (t - s) ≤ 1 * 2 ^ (shift - s) := by simpa using h2
      _ ≤ r1 * 2 ^ (shift - s) := Nat.mul_le_mul_right _ (Nat.le_trans h1 hr)

/-- Rounding does not fall below a power of two that the exact value reaches. -/
theorem roundNat_ge (a s t : Nat) (hst : s ≤ t) (hat : 2 ^ t ≤ a) :
    2 ^ (t - s) ≤ roundNat a s := by
  have ha : a ≠ 0 := by
    have := Nat.two_pow_pos t
    omega
  obtain ⟨j, hj, hja⟩ := bitLen_spec a ha
  have hs : s ≤ max (bitLen a - 53) s := Nat.le_max_right _ _
  have hshift : 2 ^ max (bitLen a - 53) s ≤ a := by
    rcases Nat.le_total (bitLen a - 53) s with hle | hle
    · rw [Nat.max_eq_right hle]
      exact Nat.le_trans (Nat.pow_le_pow_right (by decide) hst) hat
    · rw [Nat.max_eq_left hle]
      exact Nat.le_trans (Nat.pow_le_pow_right (by decide) (by omega)) hja
  simp only [roundNat, Nat.shiftRight_eq_div_pow, Nat.shiftLeft_eq]
  apply round_arith a s t _ _ hst hs hat hshift
  split_ifs
  · exact Nat.le_succ _
  · exact Nat.le_refl _

/-- Rounding a positive exact value that reaches `2^t` gives positive infinity or a finite
value of at least `2^(t - s)` units. -/
theorem round_of_pos (n : Int) (s t : Nat) (hn : 0 < n) (hst : s ≤ t)
    (hat : 2 ^ t ≤ n.natAbs) :
    round n s = inf false ∨ ∃ k : Nat, 2 ^ (t - s) ≤ k ∧ round n s = fin (k : Int) := by
  have hneg : ¬ n < 0 := by omega
  unfold round
  simp only [hneg, decide_False, if_false]
  split_ifs
  · exact Or.inl rfl
  · exact Or.inr ⟨roundNat n.natAbs s, roundNat_ge n.natAbs s t hst hat, rfl⟩

theorem lt_zero_iff (x : Float64) :
    lt zero x = true ↔ x = inf false ∨ ∃ k, 0 < k ∧ x = fin k := by
  cases x with
  | nan => simp [lt, zero]
  | inf s => cases s <;> simp [lt, zero]
  | fin k => simp [lt, zero]

theorem le_zero_left_iff (x : Float64) :
    le zero x = true ↔ x = inf false ∨ ∃ k, 0 ≤ k ∧ x = fin k := by
  cases x with
  | nan => simp [le, zero]
  | inf s => cases s <;> simp [le, zero]
  | fin k => simp [le, zero]

theorem one_shiftLeft_eq (e : Nat) : (1 <<< e : Nat) = 2 ^ e := by
  rw [Nat.shiftLeft_eq, Nat.one_mul]

theorem pos_of_two_pow_le (e m : Nat) (h : 2 ^ e ≤ m) : 0 < m :=
  Nat.lt_of_lt_of_le (Nat.two_pow_pos e) h

/-- The conversion of a positive `int` is at least `1.0`. -/
theorem ofInt_of_pos (q : Int) (hq : 0 < q) :
    ofInt q = inf false ∨ ∃ k : Nat, 2 ^ 1074 ≤ k ∧ ofInt q = fin (k : Int) := by
  unfold ofInt
  have hpow := one_shiftLeft_eq 1074
  have hpos : (0 : Int) < ((1 <<< 1074 : Nat) : Int) := by
    rw [hpow]; exact_mod_cast Nat.two_pow_pos _
  have hn : 0 < q * ((1 <<< 1074 : Nat) : Int) := Int.mul_pos hq hpos
  have hat : 2 ^ 1074 ≤ (q * ((1 <<< 1074 : Nat) : Int)).natAbs := by
    rw [Int.natAbs_mul, Int.natAbs_ofNat, hpow]
    have h1 : 1 ≤ q.natAbs := by omega
    calc 2 ^ 1074 = 1 * 2 ^ 1074 := by rw [Nat.one_mul]
      _ ≤ q.natAbs * 2 ^ 1074 := Nat.mul_le_mul_right _ h1
  rcases round_of_pos _ 0 1074 hn (Nat.zero_le _) hat with h | ⟨k, hk, h⟩
  · exact Or.inl h
  · rw [Nat.sub_zero] at hk
    exact Or.inr ⟨k, hk, h⟩

/-- The subtotal of a line with a positive quantity and a positive price is positive. -/
theorem mul_ofInt_pos (q : Int) (x : Float64) (hq : 0 < q) (hx : lt zero x = true) :
    lt zero (mul (ofInt q) x) = true := by
  rw [lt_zero_iff] at hx ⊢
  rcases ofInt_of_pos q hq with hinf | ⟨m, hm, hfin⟩
  · rw [hinf]
    rcases hx with rfl | ⟨k, hk, rfl⟩
    · exact Or.inl rfl
    · have h0 : k ≠ 0 := by omega
      have h1 : ¬ k < 0 := by omega
      exact Or.inl (by simp [mul, h0, h1])
  · rw [hfin]
    have hmpos : 0 < m := pos_of_two_pow_le _ _ hm
    rcases hx with rfl | ⟨k, hk, rfl⟩
    · have h0 : (m : Int) ≠ 0 := by omega
      have h1 : ¬ (m : Int) < 0 := by omega
      exact Or.inl (by simp [mul, h0, h1])
    · have hn : 0 < (m : Int) * k := Int.mul_pos (by omega) hk
      have hat : 2 ^ 1074 ≤ ((m : Int) * k).natAbs := by
        rw [Int.natAbs_mul, Int.natAbs_ofNat]
        have h1 : 1 ≤ k.natAbs := by omega
        calc 2 ^ 1074 ≤ m := hm
          _ = m * 1 := by rw [Nat.mul_one]
          _ ≤ m * k.natAbs := Nat.mul_le_mul_left _ h1
      rcases round_of_pos _ 1074 1074 hn (Nat.le_refl _) hat with h | ⟨r, hr, h⟩
      · exact Or.inl (by simp [mul, h])
      · refine Or.inr ⟨r, ?_, by simp [mul, h]⟩
        simp only [Nat.sub_self, Nat.pow_zero] at hr
        omega

/-- Adding a positive value to a value that is `>= 0` gives a positive value. -/
theorem add_pos_of_nonneg (x y : Float64) (hx : le zero x = true) (hy : lt zero y = true) :
    lt zero (add x y) = true := by
  rw [le_zero_left_iff] at hx
  rw [lt_zero_iff] at hy ⊢
  rcases hx with rfl | ⟨a, ha, rfl⟩
  · rcases hy with rfl | ⟨b, hb, rfl⟩
    · exact Or.inl (by simp [add])
    · exact Or.inl (by simp [add])
  · rcases hy with rfl | ⟨b, hb, rfl⟩
    · exact Or.inl (by simp [add])
    · have hn : 0 < a + b := by omega
      have hat : 2 ^ 0 ≤ (a + b).natAbs := by
        simp only [Nat.pow_zero]; omega
      rcases round_of_pos _ 0 0 hn (Nat.le_refl _) hat with h | ⟨r, hr, h⟩
      · exact Or.inl (by simp [add, h])
      · refine Or.inr ⟨r, ?_, by simp [add, h]⟩
        simp only [Nat.sub_self, Nat.pow_zero] at hr
        omega

theorem le_zero_left_of_lt (x : Float64) (hx : lt zero x = true) : le zero x = true := by
  rw [lt_zero_iff] at hx
  rw [le_zero_left_iff]
  rcases hx with rfl | ⟨k, hk, rfl⟩
  · exact Or.inl rfl
  · exact Or.inr ⟨k, by omega, rfl⟩

/-- A value that is neither `<= 0` nor NaN is positive. -/
theorem lt_zero_of_not_le (x : Float64) (hle : le x zero = false) (hnan : x ≠ nan) :
    lt zero x = true := by
  cases x with
  | nan => exact absurd rfl hnan
  | inf s => cases s <;> simp_all [lt, le, zero]
  | fin k =>
    simp only [le, zero, decide_eq_false_iff_not] at hle
    simp only [lt, zero, decide_eq_true_eq]
    omega

end Float64

namespace order

/-- The running total stays positive once a line with a positive quantity and a positive
price has been added to a total that is `>= 0`. -/
theorem foldl_subtotals_pos (items : List OrderItem) :
    ∀ (acc : Float64),
      (∀ line ∈ items, 0 < line.quantity ∧ Float64.lt Float64.zero line.price = true) →
      Float64.le Float64.zero acc = true → items ≠ [] →
      Float64.lt Float64.zero
        (items.foldl (fun total item =>
          Float64.add total (Float64.mul (Float64.ofInt item.quantity) item.price)) acc) = true := by
  induction items with
  | nil => intro acc _ _ h; exact absurd rfl h
  | cons x xs ih =>
    intro acc hlines hacc _
    have hx := hlines x (List.mem_cons_self _ _)
    have hstep : Float64.lt Float64.zero
        (Float64.add acc (Float64.mul (Float64.ofInt x.quantity) x.price)) = true :=
      Float64.add_pos_of_nonneg _ _ hacc (Float64.mul_ofInt_pos _ _ hx.1 hx.2)
    simp only [List.foldl_cons]
    cases xs with
    | nil => simpa using hstep
    | cons y ys =>
      exact ih _ (fun line hline => hlines line (List.mem_cons_of_mem _ hline))
        (Float64.le_zero_left_of_lt _ hstep) (by simp)

/-- The stored total of a reachable order is the total recomputed over its lines. -/
theorem reachable_total_recomputed (o : Order) (h : Reachable o) :
    o.totalAmount = floatTotal o.items := by
  induction h with
  | newOrder userID shippingAddress billingAddress paymentMethod u now o h =>
    obtain ⟨hi, ht, _⟩ := NewOrder_items _ _ _ _ u now o h
    rw [hi, ht]; rfl
  | addItem o p q price u now _ ih =>
    rcases Order.AddItem_cases o p q price u now with ⟨err, he⟩ | ⟨item, he⟩
    · rw [he]; exact ih
    · rw [he]
  | removeItem o itemID now _ ih =>
    rcases Order.RemoveItem_cases o itemID now with ⟨err, he⟩ | ⟨items, he⟩
    · rw [he]; exact ih
    · rw [he]
  | changeStatus o s now _ ih =>
    unfold Order.ChangeStatus
    split_ifs <;> exact ih
  | changeShippingAddress o a now _ ih =>
    unfold Order.ChangeShippingAddress
    split_ifs <;> exact ih
  | changeBillingAddress o a now _ ih =>
    unfold Order.ChangeBillingAddress
    split_ifs <;> exact ih
  | changePaymentMethod o m now _ ih =>
    unfold Order.ChangePaymentMethod
    split_ifs <;> exact ih

end order

/-! ## The claims -/

/-- C1. Merge-add on a cart.  First part: when the cart holds a line for product `p`
(`GetItem p` returns the line `it`), the added quantity `q2` is positive and
`it.quantity + q2` does not overflow the 64-bit `int`, then `AddItem p q2` returns no
error, the number of lines is unchanged, and the line for `p` has quantity
`it.quantity + q2`.  Second part: from a cart without lines, `AddItem p q1` followed by
`AddItem p q2` (`p` a valid product id, `q1` and `q2` positive, no overflow) both return
no error and leave exactly one line, for product `p`, with quantity `q1 + q2`. -/
theorem C1_cart_AddItem_merges :
    (∀ (c : cart.Cart) (p : String) (q2 : Int) (it : cart.CartItem) (u : uuid.UUID) (now : Time),
      c.GetItem p = .ok it → 0 < q2 → Go.InInt64 (it.quantity + q2) →
      (c.AddItem p q2 u now).2 = none ∧
      (c.AddItem p q2 u now).1.items.length = c.items.length ∧
      (c.AddItem p q2 u now).1.GetItem p =
        .ok { it with quantity := it.quantity + q2, updatedAt := now }) ∧
    (∀ (c : cart.Cart) (p : String) (q1 q2 : Int) (u1 u2 : uuid.UUID) (t1 t2 : Time),
      c.items = [] → p ≠ "" → 0 < q1 → 0 < q2 → Go.InInt64 (q1 + q2) →
      (c.AddItem p q1 u1 t1).2 = none ∧
      ((c.AddItem p q1 u1 t1).1.AddItem p q2 u2 t2).2 = none ∧
      ∃ line, ((c.AddItem p q1 u1 t1).1.AddItem p q2 u2 t2).1.items = [line] ∧
        line.productID = p ∧ line.quantity = q1 + q2) := by
  constructor
  · intro c p q2 it u now hget hq hov
    obtain ⟨pre, post, hc, hpre, hit⟩ := cart.Cart.GetItem_eq_ok c p it hget
    rw [cart.Cart.AddItem_merge c p q2 u now pre post it hc hpre hit hq,
      Go.wrapInt64_of_inInt64 hov]
    refine ⟨rfl, by simp [hc], ?_⟩
    exact cart.Cart.GetItem_first _ p pre post _ rfl hpre hit
  · intro c p q1 q2 u1 u2 t1 t2 hc hp hq1 hq2 hov
    have h1 := cart.Cart.AddItem_new c p q1 u1 t1 (by simp [hc]) hp hq1
    rw [h1, hc]
    have h2 := cart.Cart.AddItem_merge
      { c with items := [] ++ [{ id := u1.str, productID := p, quantity := q1,
                                 createdAt := t1, updatedAt := t1 }], updatedAt := t1 }
      p q2 u2 t2 [] [] { id := u1.str, productID := p, quantity := q1,
                         createdAt := t1, updatedAt := t1 } rfl (by simp) rfl hq2
    rw [h2, Go.wrapInt64_of_inInt64 hov]
    exact ⟨rfl, rfl, _, rfl, rfl, rfl⟩

/-- Witness of C1 on the cart holding 3 of "P1" (and 1 of "P0" before it), adding 2, and on
the empty cart adding 3 then 2 of "P1". -/
theorem C1_cart_AddItem_merges_witness :
    ((cart.Cart.AddItem ⟨"c1", "u1", [⟨"i0", "P0", 1, 0, 0⟩, ⟨"i1", "P1", 3, 0, 0⟩], 0, 0⟩
        "P1" 2 uuid1 7).2 = none ∧
      (cart.Cart.AddItem ⟨"c1", "u1", [⟨"i0", "P0", 1, 0, 0⟩, ⟨"i1", "P1", 3, 0, 0⟩], 0, 0⟩
        "P1" 2 uuid1 7).1.items.length = 2 ∧
      (cart.Cart.AddItem ⟨"c1", "u1", [⟨"i0", "P0", 1, 0, 0⟩, ⟨"i1", "P1", 3, 0, 0⟩], 0, 0⟩
        "P1" 2 uuid1 7).1.GetItem "P1" = .ok ⟨"i1", "P1", 5, 0, 7⟩) ∧
    ∃ line, ((cart.Cart.AddItem ⟨"c1", "u1", [], 0, 0⟩ "P1" 3 uuid1 1).1.AddItem
        "P1" 2 uuid2 2).1.items = [line] ∧ line.productID = "P1" ∧ line.quantity = 5 :=
  ⟨C1_cart_AddItem_merges.1 ⟨"c1", "u1", [⟨"i0", "P0", 1, 0, 0⟩, ⟨"i1", "P1", 3, 0, 0⟩], 0, 0⟩
      "P1" 2 ⟨"i1", "P1", 3, 0, 0⟩ uuid1 7 rfl (by decide) (by decide),
   (C1_cart_AddItem_merges.2 ⟨"c1", "u1", [], 0, 0⟩ "P1" 3 2 uuid1 uuid2 1 2 rfl (by decide)
      (by decide) (by decide) (by decide)).2.2⟩

/-- C2. `Cart.UpdateItemQuantity p q`: with `q <= 0` it returns `ErrInvalidQuantity`
(whatever the lines are); with `q > 0` and no line for `p` it returns `ErrProductNotFound`;
with `q > 0` and a line for `p` it returns no error, and the lines are the old ones with
the quantity of the first line for `p` replaced by exactly `q` (and its `updatedAt`
refreshed): the other lines and the number of lines are unchanged.  On the two error paths
the cart is returned as it was.  Scenario: on any cart, after `AddItem "P1" 3`, the call
`UpdateItemQuantity "P1" 1` returns no error and the line for "P1" has quantity 1. -/
theorem C2_cart_UpdateItemQuantity_replaces (c : cart.Cart) (p : String) (q : Int) (now : Time) :
    (q ≤ 0 → c.UpdateItemQuantity p q now = (c, some cart.Error.ErrInvalidQuantity)) ∧
    (0 < q → (∀ x ∈ c.items, x.productID ≠ p) →
      c.UpdateItemQuantity p q now = (c, some cart.Error.ErrProductNotFound)) ∧
    (0 < q → (∃ x ∈ c.items, x.productID = p) →
      (c.UpdateItemQuantity p q now).2 = none ∧
      (c.UpdateItemQuantity p q now).1.items.length = c.items.length ∧
      ∃ pre it post, c.items = pre ++ it :: post ∧ (∀ y ∈ pre, y.productID ≠ p) ∧
        it.productID = p ∧
        (c.UpdateItemQuantity p q now).1.items =
          pre ++ { it with quantity := q, updatedAt := now } :: post) ∧
    (∀ (u : uuid.UUID) (t1 : Time),
      ((c.AddItem "P1" 3 u t1).1.UpdateItemQuantity "P1" 1 now).2 = none ∧
      ∃ line, ((c.AddItem "P1" 3 u t1).1.UpdateItemQuantity "P1" 1 now).1.GetItem "P1" = .ok line ∧
        line.quantity = 1) := by
  refine ⟨?_, ?_, ?_, ?_⟩
  · intro hq
    simp [cart.Cart.UpdateItemQuantity, hq]
  · intro hq habs
    have hfind : Go.rangeFind (fun item : cart.CartItem => item.productID == p) c.items = none := by
      rw [Go.rangeFind_eq_none_iff]
      intro y hy; simpa using habs y hy
    have hq' : ¬ q ≤ 0 := by omega
    simp [cart.Cart.UpdateItemQuantity, hq', hfind]
  · intro hq hex
    obtain ⟨pre, it, post, hc, hpre, hit⟩ := cart.exists_first_line c.items p hex
    rw [cart.Cart.UpdateItemQuantity_found c p q now pre post it hc hpre hit hq]
    exact ⟨rfl, by simp [hc], pre, it, post, hc, hpre, hit, rfl⟩
  · intro u t1
    by_cases hex : ∃ x ∈ c.items, x.productID = "P1"
    · obtain ⟨pre, it, post, hc, hpre, hit⟩ := cart.exists_first_line c.items "P1" hex
      rw [cart.Cart.AddItem_merge c "P1" 3 u t1 pre post it hc hpre hit (by decide)]
      rw [cart.Cart.UpdateItemQuantity_found _ "P1" 1 now pre post
        { it with quantity := Go.wrapInt64 (it.quantity + 3), updatedAt := t1 } rfl hpre hit
        (by decide)]
      exact ⟨rfl, _, cart.Cart.GetItem_first _ "P1" pre post _ rfl hpre hit, rfl⟩
    · have habs : ∀ y ∈ c.items, y.productID ≠ "P1" := fun y hy h => hex ⟨y, hy, h⟩
      rw [cart.Cart.AddItem_new c "P1" 3 u t1 habs (by decide) (by decide)]
      rw [cart.Cart.UpdateItemQuantity_found _ "P1" 1 now c.items []
        { id := u.str, productID := "P1", quantity := 3, createdAt := t1, updatedAt := t1 }
        rfl habs rfl (by decide)]
      exact ⟨rfl, _, cart.Cart.GetItem_first _ "P1" c.items [] _ rfl habs rfl, rfl⟩

/-- Witness of C2: on the cart holding 3 of "P1", updating to 0 fails with
`ErrInvalidQuantity`, updating "P9" to 1 fails with `ErrProductNotFound`, and updating "P1"
to 1 leaves the single line with quantity 1. -/
theorem C2_cart_UpdateItemQuantity_replaces_witness :
    cart.Cart.UpdateItemQuantity ⟨"c1", "u1", [⟨"i1", "P1", 3, 0, 0⟩], 0, 0⟩ "P1" 0 9 =
      (⟨"c1", "u1", [⟨"i1", "P1", 3, 0, 0⟩], 0, 0⟩, some cart.Error.ErrInvalidQuantity) ∧
    cart.Cart.UpdateItemQuantity ⟨"c1", "u1", [⟨"i1", "P1", 3, 0, 0⟩], 0, 0⟩ "P9" 1 9 =
      (⟨"c1", "u1", [⟨"i1", "P1", 3, 0, 0⟩], 0, 0⟩, some cart.Error.ErrProductNotFound) ∧
    (cart.Cart.UpdateItemQuantity ⟨"c1", "u1", [⟨"i1", "P1", 3, 0, 0⟩], 0, 0⟩ "P1" 1 9).2 = none ∧
    (cart.Cart.UpdateItemQuantity ⟨"c1", "u1", [⟨"i1", "P1", 3, 0, 0⟩], 0, 0⟩ "P1" 1 9).1.items.length
      = 1 :=
  ⟨(C2_cart_UpdateItemQuantity_replaces ⟨"c1", "u1", [⟨"i1", "P1", 3, 0, 0⟩], 0, 0⟩ "P1" 0 9).1
      (by decide),
   (C2_cart_UpdateItemQuantity_replaces ⟨"c1", "u1", [⟨"i1", "P1", 3, 0, 0⟩], 0, 0⟩ "P9" 1 9).2.1
      (by decide) (by decide),
   ((C2_cart_UpdateItemQuantity_replaces ⟨"c1", "u1", [⟨"i1", "P1", 3, 0, 0⟩], 0, 0⟩ "P1" 1 9).2.2.1
      (by decide) (by decide)).1,
   ((C2_cart_UpdateItemQuantity_replaces ⟨"c1", "u1", [⟨"i1", "P1", 3, 0, 0⟩], 0, 0⟩ "P1" 1 9).2.2.1
      (by decide) (by decide)).2.1⟩

/-- C3. `Cart.RemoveItem p` on a cart none of whose lines carries product `p` returns
`ErrProductNotFound` and the cart is exactly as before: same lines in the same order, same
`updatedAt`, and every other field. -/
theorem C3_cart_RemoveItem_absent (c : cart.Cart) (p : String) (now : Time)
    (habs : ∀ x ∈ c.items, x.productID ≠ p) :
    c.RemoveItem p now = (c, some cart.Error.ErrProductNotFound) := by
  have hfind : Go.rangeFind (fun item : cart.CartItem => item.productID == p) c.items = none := by
    rw [Go.rangeFind_eq_none_iff]
    intro y hy; simpa using habs y hy
  simp [cart.Cart.RemoveItem, hfind]

/-- Witness of C3: removing "P9" from the cart holding "P0" and "P1". -/
theorem C3_cart_RemoveItem_absent_witness :
    cart.Cart.RemoveItem ⟨"c1", "u1", [⟨"i0", "P0", 1, 0, 0⟩, ⟨"i1", "P1", 3, 0, 0⟩], 0, 0⟩ "P9" 5 =
      (⟨"c1", "u1", [⟨"i0", "P0", 1, 0, 0⟩, ⟨"i1", "P1", 3, 0, 0⟩], 0, 0⟩,
        some cart.Error.ErrProductNotFound) :=
  C3_cart_RemoveItem_absent ⟨"c1", "u1", [⟨"i0", "P0", 1, 0, 0⟩, ⟨"i1", "P1", 3, 0, 0⟩], 0, 0⟩
    "P9" 5 (by decide)

/-- C4, as stated, fails.  The order created by `NewOrder` and given one line by
`AddItem "P1" 3 0.1` is reachable; the exact sum of quantity times unit price over its
lines is `3 * 0x1.999999999999ap-4`, whereas its `totalAmount` is the float64
`0x1.3333333333334p-2` (printed 0.30000000000000004), a different number: the float64
product was rounded. -/
theorem C4_order_total_not_exact :
    order.NewOrder "U1" "1 Main St" "1 Main St" "card" uuid1 0 = .ok exampleOrder ∧
    order.Reachable (exampleOrder.AddItem "P1" 3 (Float64.ofFraction 1 10) uuid2 1).1 ∧
    (exampleOrder.AddItem "P1" 3 (Float64.ofFraction 1 10) uuid2 1).2 = none ∧
    order.exactTotalUnits (exampleOrder.AddItem "P1" 3 (Float64.ofFraction 1 10) uuid2 1).1.items
      = some (3 * (7205759403792794 <<< 1018)) ∧
    (exampleOrder.AddItem "P1" 3 (Float64.ofFraction 1 10) uuid2 1).1.totalAmount
      = Float64.fin (5404319552844596 <<< 1020) ∧
    (exampleOrder.AddItem "P1" 3 (Float64.ofFraction 1 10) uuid2 1).1.totalAmount
      ≠ Float64.fin (3 * (7205759403792794 <<< 1018)) := by
  refine ⟨rfl, ?_, by decide, by decide, by decide, by decide⟩
  exact order.Reachable.addItem _ _ _ _ _ _
    (order.Reachable.newOrder "U1" "1 Main St" "1 Main St" "card" uuid1 0 exampleOrder rfl)

/-- C4, amended.  For every order reachable from `NewOrder` by any sequence of `AddItem`,
`RemoveItem`, `ChangeStatus`, `ChangeShippingAddress`, `ChangeBillingAddress` and
`ChangePaymentMethod` calls with arbitrary arguments (calls that return an error
included), `totalAmount` equals the float64 sum, accumulated from `0.0` in line order, of
the float64 products `float64(quantity) * unitPrice` over the lines currently in the
order: the stored total is never stale. -/
theorem C4_order_total_is_float_sum (o : order.Order) (h : order.Reachable o) :
    o.totalAmount = order.floatTotal o.items := by
  induction h with
  | newOrder userID shippingAddress billingAddress paymentMethod u now o h =>
    unfold order.NewOrder at h
    split at h
    · exact absurd h (by simp)
    · split at h
      · exact absurd h (by simp)
      · split_ifs at h
        simp only [Except.ok.injEq] at h
        subst h
        rfl
  | addItem o p q price u now _ ih =>
    rcases order.Order.AddItem_cases o p q price u now with ⟨err, he⟩ | ⟨item, he⟩
    · rw [he]; exact ih
    · rw [he]
  | removeItem o itemID now _ ih =>
    rcases order.Order.RemoveItem_cases o itemID now with ⟨err, he⟩ | ⟨items, he⟩
    · rw [he]; exact ih
    · rw [he]
  | changeStatus o s now _ ih =>
    unfold order.Order.ChangeStatus
    split_ifs <;> exact ih
  | changeShippingAddress o a now _ ih =>
    unfold order.Order.ChangeShippingAddress
    split_ifs <;> exact ih
  | changeBillingAddress o a now _ ih =>
    unfold order.Order.ChangeBillingAddress
    split_ifs <;> exact ih
  | changePaymentMethod o m now _ ih =>
    unfold order.Order.ChangePaymentMethod
    split_ifs <;> exact ih

/-- Witness of C4 (amended) on the order with the single line `("P1", 3, 0.1)`. -/
theorem C4_order_total_is_float_sum_witness :
    order.Reachable (exampleOrder.AddItem "P1" 3 (Float64.ofFraction 1 10) uuid2 1).1 ∧
    (exampleOrder.AddItem "P1" 3 (Float64.ofFraction 1 10) uuid2 1).1.totalAmount =
      order.floatTotal (exampleOrder.AddItem "P1" 3 (Float64.ofFraction 1 10) uuid2 1).1.items :=
  ⟨order.Reachable.addItem _ _ _ _ _ _
    (order.Reachable.newOrder "U1" "1 Main St" "1 Main St" "card" uuid1 0 exampleOrder rfl),
   C4_order_total_is_float_sum _ (order.Reachable.addItem _ _ _ _ _ _
    (order.Reachable.newOrder "U1" "1 Main St" "1 Main St" "card" uuid1 0 exampleOrder rfl))⟩

/-- C5. On an order whose status is not `pending`, `AddItem` and `RemoveItem` called with
any arguments whatever return the error made by `errors.New("cannot modify a non-pending
order")`, the same for both methods and different from every package-level error of
package order (the validation errors and `ErrItemNotFound`), and the order, in particular
its items and `totalAmount`, is as before. -/
theorem C5_order_not_pending_not_modifiable (o : order.Order) (hs : o.status ≠ order.StatusPending)
    (productID : String) (quantity : Int) (price : Float64) (u : uuid.UUID) (itemID : String)
    (now : Time) :
    o.AddItem productID quantity price u now =
      (o, some (order.Error.New "cannot modify a non-pending order")) ∧
    o.RemoveItem itemID now =
      (o, some (order.Error.New "cannot modify a non-pending order")) ∧
    (o.AddItem productID quantity price u now).1.items = o.items ∧
    (o.AddItem productID quantity price u now).1.totalAmount = o.totalAmount ∧
    (o.RemoveItem itemID now).1.items = o.items ∧
    (o.RemoveItem itemID now).1.totalAmount = o.totalAmount ∧
    order.Error.New "cannot modify a non-pending order" ∉
      [order.Error.ErrInvalidID, order.Error.ErrInvalidUserID, order.Error.ErrInvalidStatus,
       order.Error.ErrInvalidTotalAmount, order.Error.ErrInvalidShippingAddress,
       order.Error.ErrInvalidBillingAddress, order.Error.ErrInvalidPaymentMethod,
       order.Error.ErrInvalidProductID, order.Error.ErrInvalidQuantity,
       order.Error.ErrInvalidPrice, order.Error.ErrItemNotFound] := by
  have ha := order.Order.AddItem_not_pending o productID quantity price u now hs
  have hr := order.Order.RemoveItem_not_pending o itemID now hs
  refine ⟨ha, hr, by rw [ha], by rw [ha], by rw [hr], by rw [hr], by decide⟩

/-- Witness of C5 on a paid order with one line: adding a valid line and removing the
existing line both fail and change nothing. -/
theorem C5_order_not_pending_not_modifiable_witness :
    order.Order.AddItem
        ⟨"o1", "U1", "paid", Float64.ofInt 5, "a", "b", "card",
          [⟨"l1", "P1", 1, Float64.ofInt 5, 0, 0⟩], 0, 0⟩ "P2" 1 (Float64.ofInt 1) uuid1 3 =
      (⟨"o1", "U1", "paid", Float64.ofInt 5, "a", "b", "card",
          [⟨"l1", "P1", 1, Float64.ofInt 5, 0, 0⟩], 0, 0⟩,
        some (order.Error.New "cannot modify a non-pending order")) ∧
    order.Order.RemoveItem
        ⟨"o1", "U1", "paid", Float64.ofInt 5, "a", "b", "card",
          [⟨"l1", "P1", 1, Float64.ofInt 5, 0, 0⟩], 0, 0⟩ "l1" 3 =
      (⟨"o1", "U1", "paid", Float64.ofInt 5, "a", "b", "card",
          [⟨"l1", "P1", 1, Float64.ofInt 5, 0, 0⟩], 0, 0⟩,
        some (order.Error.New "cannot modify a non-pending order")) :=
  ⟨(C5_order_not_pending_not_modifiable
      ⟨"o1", "U1", "paid", Float64.ofInt 5, "a", "b", "card",
        [⟨"l1", "P1", 1, Float64.ofInt 5, 0, 0⟩], 0, 0⟩ (by decide)
      "P2" 1 (Float64.ofInt 1) uuid1 "l1" 3).1,
   (C5_order_not_pending_not_modifiable
      ⟨"o1", "U1", "paid", Float64.ofInt 5, "a", "b", "card",
        [⟨"l1", "P1", 1, Float64.ofInt 5, 0, 0⟩], 0, 0⟩ (by decide)
      "P2" 1 (Float64.ofInt 1) uuid1 "l1" 3).2.1⟩

/-- C6. `Order.ChangeStatus s` returns an error if and only if `s` is none of `pending`,
`paid`, `shipped`, `delivered`, `cancelled`; when it returns an error, the error is
`ErrInvalidStatus` and the order (its status and every other field) is as before.  This
is the case of `s = "shipped_wrong"`. -/
theorem C6_order_ChangeStatus_rejects_unrecognized (o : order.Order) (s : order.Status)
    (now : Time) :
    ((o.ChangeStatus s now).2 ≠ none ↔
      s ∉ [order.StatusPending, order.StatusPaid, order.StatusShipped, order.StatusDelivered,
           order.StatusCancelled]) ∧
    ((o.ChangeStatus s now).2 ≠ none →
      o.ChangeStatus s now = (o, some order.Error.ErrInvalidStatus)) ∧
    o.ChangeStatus "shipped_wrong" now = (o, some order.Error.ErrInvalidStatus) := by
  have key := order.validStatuses_lookup s
  refine ⟨?_, ?_, ?_⟩
  · unfold order.Order.ChangeStatus
    by_cases hv : (order.validStatuses.lookup s).getD false = true
    · simp only [hv, Bool.not_true, Bool.false_eq_true, if_false, ne_eq, not_true_eq_false,
        false_iff, not_not]
      exact key.mp hv
    · have hn : s ∉ [order.StatusPending, order.StatusPaid, order.StatusShipped,
          order.StatusDelivered, order.StatusCancelled] := fun h => hv (key.mpr h)
      simp only [Bool.not_eq_true] at hv
      simp only [hv, Bool.not_false, if_true, ne_eq, reduceCtorEq, not_false_eq_true, true_iff]
      exact hn
  · unfold order.Order.ChangeStatus
    split_ifs with hv
    · intro _; rfl
    · intro h; exact absurd rfl h
  · have hv : (order.validStatuses.lookup "shipped_wrong").getD false = false := by decide
    simp [order.Order.ChangeStatus, hv]

/-- Witness of C6: on a shipped order, `ChangeStatus "shipped_wrong"` returns
`ErrInvalidStatus` and the order as it was. -/
theorem C6_order_ChangeStatus_rejects_unrecognized_witness :
    order.Order.ChangeStatus ⟨"o1", "U1", "shipped", Float64.zero, "a", "b", "card", [], 0, 0⟩
        "shipped_wrong" 4 =
      (⟨"o1", "U1", "shipped", Float64.zero, "a", "b", "card", [], 0, 0⟩,
        some order.Error.ErrInvalidStatus) :=
  (C6_order_ChangeStatus_rejects_unrecognized
      ⟨"o1", "U1", "shipped", Float64.zero, "a", "b", "card", [], 0, 0⟩ "shipped_wrong" 4).2.1
    (((C6_order_ChangeStatus_rejects_unrecognized
      ⟨"o1", "U1", "shipped", Float64.zero, "a", "b", "card", [], 0, 0⟩ "shipped_wrong" 4).1).mpr
      (by decide))

/-- C7. From every current status, `Order.ChangeStatus t` with `t` one of the five
recognized values returns no error and sets the status to `t` (there is no guard on the
current status: `delivered` to `pending` and `t` equal to the current status included),
leaving items, `totalAmount`, both addresses, the payment method, `id` and `userID`
unchanged. -/
theorem C7_order_ChangeStatus_any_transition (o : order.Order) (t : order.Status) (now : Time)
    (ht : t ∈ [order.StatusPending, order.StatusPaid, order.StatusShipped,
               order.StatusDelivered, order.StatusCancelled]) :
    (o.ChangeStatus t now).2 = none ∧
    (o.ChangeStatus t now).1.status = t ∧
    (o.ChangeStatus t now).1.items = o.items ∧
    (o.ChangeStatus t now).1.totalAmount = o.totalAmount ∧
    (o.ChangeStatus t now).1.shippingAddress = o.shippingAddress ∧
    (o.ChangeStatus t now).1.billingAddress = o.billingAddress ∧
    (o.ChangeStatus t now).1.paymentMethod = o.paymentMethod ∧
    (o.ChangeStatus t now).1.id = o.id ∧
    (o.ChangeStatus t now).1.userID = o.userID := by
  have hv := (order.validStatuses_lookup t).mpr ht
  simp [order.Order.ChangeStatus, hv]

/-- Witness of C7: a delivered order goes back to `pending`. -/
theorem C7_order_ChangeStatus_any_transition_witness :
    (order.Order.ChangeStatus
        ⟨"o1", "U1", "delivered", Float64.zero, "a", "b", "card", [], 0, 0⟩ "pending" 4).2 = none ∧
    (order.Order.ChangeStatus
        ⟨"o1", "U1", "delivered", Float64.zero, "a", "b", "card", [], 0, 0⟩ "pending" 4).1.status
      = "pending" :=
  ⟨(C7_order_ChangeStatus_any_transition
      ⟨"o1", "U1", "delivered", Float64.zero, "a", "b", "card", [], 0, 0⟩ "pending" 4
      (by decide)).1,
   (C7_order_ChangeStatus_any_transition
      ⟨"o1", "U1", "delivered", Float64.zero, "a", "b", "card", [], 0, 0⟩ "pending" 4
      (by decide)).2.1⟩

/-- C8. Order lines are never merged by product.  On a pending order, `AddItem` with a
valid product id (not empty), a positive quantity and a positive unit price returns no
error; and whenever `AddItem` returns no error, the lines afterwards are the lines before,
unchanged and in the same order, followed by exactly one new line, so the line count grows
by exactly one, also when a line for the same product id is already there. -/
theorem C8_order_AddItem_never_merges (o : order.Order) (p : String) (q : Int) (price : Float64)
    (u : uuid.UUID) (now : Time) (hs : o.status = order.StatusPending) :
    (p ≠ "" → 0 < q → Float64.lt Float64.zero price = true →
      (o.AddItem p q price u now).2 = none) ∧
    ((o.AddItem p q price u now).2 = none →
      (o.AddItem p q price u now).1.items.length = o.items.length + 1 ∧
      ∃ line, (o.AddItem p q price u now).1.items = o.items ++ [line]) := by
  constructor
  · intro hp hq hprice
    rw [order.Order.AddItem_ok o p q price u now _ hs
      (order.NewOrderItem_valid p q price u now hp hq
        (Float64.le_zero_eq_false_of_pos price hprice))]
  · intro hok
    rcases order.Order.AddItem_cases o p q price u now with ⟨err, he⟩ | ⟨item, he⟩
    · rw [he] at hok; simp at hok
    · rw [he]
      exact ⟨by simp, item, rfl⟩

/-- Witness of C8: a pending order already holding 2 of "P1" is given 1 more of "P1": the
call returns no error and there are two lines. -/
theorem C8_order_AddItem_never_merges_witness :
    (order.Order.AddItem
        ⟨"o1", "U1", "pending", Float64.ofInt 4, "a", "b", "card",
          [⟨"l1", "P1", 2, Float64.ofInt 2, 0, 0⟩], 0, 0⟩ "P1" 1 (Float64.ofInt 2) uuid1 3).2
      = none ∧
    (order.Order.AddItem
        ⟨"o1", "U1", "pending", Float64.ofInt 4, "a", "b", "card",
          [⟨"l1", "P1", 2, Float64.ofInt 2, 0, 0⟩], 0, 0⟩ "P1" 1 (Float64.ofInt 2) uuid1 3).1.items.length
      = 2 :=
  ⟨(C8_order_AddItem_never_merges
      ⟨"o1", "U1", "pending", Float64.ofInt 4, "a", "b", "card",
        [⟨"l1", "P1", 2, Float64.ofInt 2, 0, 0⟩], 0, 0⟩ "P1" 1 (Float64.ofInt 2) uuid1 3 rfl).1
      (by decide) (by decide) (by decide),
   ((C8_order_AddItem_never_merges
      ⟨"o1", "U1", "pending", Float64.ofInt 4, "a", "b", "card",
        [⟨"l1", "P1", 2, Float64.ofInt 2, 0, 0⟩], 0, 0⟩ "P1" 1 (Float64.ofInt 2) uuid1 3 rfl).2
      (by decide)).1⟩

/-- C9. `Order.AddItem` on a pending order with a valid (non-empty) product id: with
`quantity <= 0` it returns `ErrInvalidQuantity`; with `quantity > 0` and `unitPrice <= 0`
it returns `ErrInvalidPrice` (in both cases the order is as before); otherwise it returns
no error and the lines are the old lines followed by one new last line carrying exactly the
given product id, quantity and unit price.  The test `unitPrice <= 0` is the float64
comparison of Go. -/
theorem C9_order_AddItem_validation (o : order.Order) (p : String) (q : Int) (price : Float64)
    (u : uuid.UUID) (now : Time) (hs : o.status = order.StatusPending) (hp : p ≠ "") :
    (q ≤ 0 → o.AddItem p q price u now = (o, some order.Error.ErrInvalidQuantity)) ∧
    (0 < q → Float64.le price Float64.zero = true →
      o.AddItem p q price u now = (o, some order.Error.ErrInvalidPrice)) ∧
    (0 < q → Float64.le price Float64.zero = false →
      (o.AddItem p q price u now).2 = none ∧
      ∃ line, (o.AddItem p q price u now).1.items = o.items ++ [line] ∧
        line.productID = p ∧ line.quantity = q ∧ line.price = price) := by
  refine ⟨?_, ?_, ?_⟩
  · intro hq
    apply order.Order.AddItem_error o p q price u now _ hs
    simp [order.NewOrderItem, order.NewID, u.nonblank, product.NewID, hp, hq]
  · intro hq hprice
    have hq' : ¬ q ≤ 0 := by omega
    apply order.Order.AddItem_error o p q price u now _ hs
    simp [order.NewOrderItem, order.NewID, u.nonblank, product.NewID, hp, hq', hprice]
  · intro hq hprice
    rw [order.Order.AddItem_ok o p q price u now _ hs
      (order.NewOrderItem_valid p q price u now hp hq hprice)]
    exact ⟨rfl, _, rfl, rfl, rfl, rfl⟩

/-- Witness of C9 on the empty pending order: quantity 0, then unit price 0, then the valid
line `("P1", 2, 9.99)`. -/
theorem C9_order_AddItem_validation_witness :
    exampleOrder.AddItem "P1" 0 (Float64.ofFraction 999 100) uuid2 1 =
      (exampleOrder, some order.Error.ErrInvalidQuantity) ∧
    exampleOrder.AddItem "P1" 2 Float64.zero uuid2 1 =
      (exampleOrder, some order.Error.ErrInvalidPrice) ∧
    (exampleOrder.AddItem "P1" 2 (Float64.ofFraction 999 100) uuid2 1).2 = none :=
  ⟨(C9_order_AddItem_validation exampleOrder "P1" 0 (Float64.ofFraction 999 100) uuid2 1 rfl
      (by decide)).1 (by decide),
   (C9_order_AddItem_validation exampleOrder "P1" 2 Float64.zero uuid2 1 rfl
      (by decide)).2.1 (by decide) (by decide),
   ((C9_order_AddItem_validation exampleOrder "P1" 2 (Float64.ofFraction 999 100) uuid2 1 rfl
      (by decide)).2.2 (by decide) (by decide)).1⟩

/-- C10. `Order.RemoveItem lineId` on a pending order: when no line has that id it returns
`ErrItemNotFound` and the order is as before; when some line has it, the call returns no
error, exactly one line is removed, namely the first whose id is `lineId`, the other lines
keep their relative order, and `totalAmount` becomes the sum of quantity times unit price
over the remaining lines, computed in float64 from `0.0` in line order. -/
theorem C10_order_RemoveItem (o : order.Order) (itemID : String) (now : Time)
    (hs : o.status = order.StatusPending) :
    ((∀ x ∈ o.items, x.id ≠ itemID) →
      o.RemoveItem itemID now = (o, some order.Error.ErrItemNotFound)) ∧
    ((∃ x ∈ o.items, x.id = itemID) →
      (o.RemoveItem itemID now).2 = none ∧
      (o.RemoveItem itemID now).1.items.length + 1 = o.items.length ∧
      ∃ pre it post, o.items = pre ++ it :: post ∧ (∀ y ∈ pre, y.id ≠ itemID) ∧
        it.id = itemID ∧
        (o.RemoveItem itemID now).1.items = pre ++ post ∧
        (o.RemoveItem itemID now).1.totalAmount = order.floatTotal (pre ++ post)) := by
  constructor
  · intro habs
    exact order.Order.RemoveItem_absent o itemID now hs habs
  · intro hex
    obtain ⟨pre, it, post, ho, hpre, hit⟩ := order.exists_first_id o.items itemID hex
    rw [order.Order.RemoveItem_found o itemID now pre post it hs ho hpre hit]
    exact ⟨rfl, by simp [ho]; omega, pre, it, post, ho, hpre, hit, rfl, rfl⟩

/-- Witness of C10 on a pending order with the lines "l1" and "l2": removing "l9" fails
with `ErrItemNotFound`, removing "l1" returns no error and leaves one line. -/
theorem C10_order_RemoveItem_witness :
    order.Order.RemoveItem
        ⟨"o1", "U1", "pending", Float64.ofInt 7, "a", "b", "card",
          [⟨"l1", "P1", 2, Float64.ofInt 2, 0, 0⟩, ⟨"l2", "P2", 1, Float64.ofInt 3, 0, 0⟩], 0, 0⟩
        "l9" 5 =
      (⟨"o1", "U1", "pending", Float64.ofInt 7, "a", "b", "card",
          [⟨"l1", "P1", 2, Float64.ofInt 2, 0, 0⟩, ⟨"l2", "P2", 1, Float64.ofInt 3, 0, 0⟩], 0, 0⟩,
        some order.Error.ErrItemNotFound) ∧
    (order.Order.RemoveItem
        ⟨"o1", "U1", "pending", Float64.ofInt 7, "a", "b", "card",
          [⟨"l1", "P1", 2, Float64.ofInt 2, 0, 0⟩, ⟨"l2", "P2", 1, Float64.ofInt 3, 0, 0⟩], 0, 0⟩
        "l1" 5).2 = none ∧
    (order.Order.RemoveItem
        ⟨"o1", "U1", "pending", Float64.ofInt 7, "a", "b", "card",
          [⟨"l1", "P1", 2, Float64.ofInt 2, 0, 0⟩, ⟨"l2", "P2", 1, Float64.ofInt 3, 0, 0⟩], 0, 0⟩
        "l1" 5).1.items.length + 1 = 2 :=
  ⟨(C10_order_RemoveItem
      ⟨"o1", "U1", "pending", Float64.ofInt 7, "a", "b", "card",
        [⟨"l1", "P1", 2, Float64.ofInt 2, 0, 0⟩, ⟨"l2", "P2", 1, Float64.ofInt 3, 0, 0⟩], 0, 0⟩
      "l9" 5 rfl).1 (by decide),
   ((C10_order_RemoveItem
      ⟨"o1", "U1", "pending", Float64.ofInt 7, "a", "b", "card",
        [⟨"l1", "P1", 2, Float64.ofInt 2, 0, 0⟩, ⟨"l2", "P2", 1, Float64.ofInt 3, 0, 0⟩], 0, 0⟩
      "l1" 5 rfl).2 (by decide)).1,
   ((C10_order_RemoveItem
      ⟨"o1", "U1", "pending", Float64.ofInt 7, "a", "b", "card",
        [⟨"l1", "P1", 2, Float64.ofInt 2, 0, 0⟩, ⟨"l2", "P2", 1, Float64.ofInt 3, 0, 0⟩], 0, 0⟩
      "l1" 5 rfl).2 (by decide)).2.1⟩

/-- C11. Order creation with a valid (non-empty) user id.  When one of the shipping
address, the billing address and the payment method is empty, `NewOrder` fails, with the
error of the first empty one in that order: `ErrInvalidShippingAddress`, then
`ErrInvalidBillingAddress`, then `ErrInvalidPaymentMethod`.  When all three are non-empty
it succeeds, and the order has status `pending`, no line, `totalAmount` 0, and stores
exactly the given user id, addresses and payment method. -/
theorem C11_order_NewOrder (userID shippingAddress billingAddress paymentMethod : String)
    (u : uuid.UUID) (now : Time) (hu : userID ≠ "") :
    (shippingAddress = "" →
      order.NewOrder userID shippingAddress billingAddress paymentMethod u now =
        .error order.Error.ErrInvalidShippingAddress) ∧
    (shippingAddress ≠ "" → billingAddress = "" →
      order.NewOrder userID shippingAddress billingAddress paymentMethod u now =
        .error order.Error.ErrInvalidBillingAddress) ∧
    (shippingAddress ≠ "" → billingAddress ≠ "" → paymentMethod = "" →
      order.NewOrder userID shippingAddress billingAddress paymentMethod u now =
        .error order.Error.ErrInvalidPaymentMethod) ∧
    (shippingAddress = "" ∨ billingAddress = "" ∨ paymentMethod = "" →
      ∃ err, order.NewOrder userID shippingAddress billingAddress paymentMethod u now =
          .error err ∧
        ((err = order.Error.ErrInvalidShippingAddress ∧ shippingAddress = "") ∨
         (err = order.Error.ErrInvalidBillingAddress ∧ billingAddress = "") ∨
         (err = order.Error.ErrInvalidPaymentMethod ∧ paymentMethod = ""))) ∧
    (shippingAddress ≠ "" → billingAddress ≠ "" → paymentMethod ≠ "" →
      ∃ o, order.NewOrder userID shippingAddress billingAddress paymentMethod u now = .ok o ∧
        o.status = order.StatusPending ∧ o.items = [] ∧ o.totalAmount = Float64.zero ∧
        o.userID = userID ∧ o.shippingAddress = shippingAddress ∧
        o.billingAddress = billingAddress ∧ o.paymentMethod = paymentMethod) := by
  have h1 : shippingAddress = "" →
      order.NewOrder userID shippingAddress billingAddress paymentMethod u now =
        .error order.Error.ErrInvalidShippingAddress := by
    intro hs
    simp [order.NewOrder, order.NewID, u.nonblank, user.NewID, hu, hs]
  have h2 : shippingAddress ≠ "" → billingAddress = "" →
      order.NewOrder userID shippingAddress billingAddress paymentMethod u now =
        .error order.Error.ErrInvalidBillingAddress := by
    intro hs hb
    simp [order.NewOrder, order.NewID, u.nonblank, user.NewID, hu, hs, hb]
  have h3 : shippingAddress ≠ "" → billingAddress ≠ "" → paymentMethod = "" →
      order.NewOrder userID shippingAddress billingAddress paymentMethod u now =
        .error order.Error.ErrInvalidPaymentMethod := by
    intro hs hb hp
    simp [order.NewOrder, order.NewID, u.nonblank, user.NewID, hu, hs, hb, hp]
  refine ⟨h1, h2, h3, ?_, ?_⟩
  · intro hempty
    by_cases hs : shippingAddress = ""
    · exact ⟨_, h1 hs, Or.inl ⟨rfl, hs⟩⟩
    · by_cases hb : billingAddress = ""
      · exact ⟨_, h2 hs hb, Or.inr (Or.inl ⟨rfl, hb⟩)⟩
      · have hp : paymentMethod = "" := by
          rcases hempty with h | h | h
          · exact absurd h hs
          · exact absurd h hb
          · exact h
        exact ⟨_, h3 hs hb hp, Or.inr (Or.inr ⟨rfl, hp⟩)⟩
  · intro hs hb hp
    refine ⟨{ id := u.str, userID := userID, status := order.StatusPending,
              totalAmount := Float64.zero, shippingAddress := shippingAddress,
              billingAddress := billingAddress, paymentMethod := paymentMethod,
              items := [], createdAt := now, updatedAt := now }, ?_,
            rfl, rfl, rfl, rfl, rfl, rfl, rfl⟩
    simp [order.NewOrder, order.NewID, u.nonblank, user.NewID, hu, hs, hb, hp]

/-- Witness of C11: for user "U1", an empty shipping address, an empty billing address, an
empty payment method, and the valid creation that returns `exampleOrder`. -/
theorem C11_order_NewOrder_witness :
    order.NewOrder "U1" "" "1 Main St" "card" uuid1 0 =
      .error order.Error.ErrInvalidShippingAddress ∧
    order.NewOrder "U1" "1 Main St" "" "card" uuid1 0 =
      .error order.Error.ErrInvalidBillingAddress ∧
    order.NewOrder "U1" "1 Main St" "1 Main St" "" uuid1 0 =
      .error order.Error.ErrInvalidPaymentMethod ∧
    ∃ o, order.NewOrder "U1" "1 Main St" "1 Main St" "card" uuid1 0 = .ok o ∧
      o.status = order.StatusPending ∧ o.items = [] ∧ o.totalAmount = Float64.zero ∧
      o.userID = "U1" ∧ o.shippingAddress = "1 Main St" ∧
      o.billingAddress = "1 Main St" ∧ o.paymentMethod = "card" :=
  ⟨(C11_order_NewOrder "U1" "" "1 Main St" "card" uuid1 0 (by decide)).1 rfl,
   (C11_order_NewOrder "U1" "1 Main St" "" "card" uuid1 0 (by decide)).2.1 (by decide) rfl,
   (C11_order_NewOrder "U1" "1 Main St" "1 Main St" "" uuid1 0 (by decide)).2.2.1
      (by decide) (by decide) rfl,
   (C11_order_NewOrder "U1" "1 Main St" "1 Main St" "card" uuid1 0 (by decide)).2.2.2.2
      (by decide) (by decide) (by decide)⟩

/-- C12. On every order, whatever its status, `ChangeShippingAddress`,
`ChangeBillingAddress` and `ChangePaymentMethod` return an error exactly when the argument
is the empty string, the error being `ErrInvalidShippingAddress`,
`ErrInvalidBillingAddress`, `ErrInvalidPaymentMethod` respectively; otherwise they return
no error and set their own field to the argument.  In every case the other two of the
three fields, the status, the items and `totalAmount` are unchanged. -/
theorem C12_order_change_address_payment (o : order.Order) (a : String) (now : Time) :
    (((o.ChangeShippingAddress a now).2 ≠ none ↔ a = "") ∧
      (a = "" → (o.ChangeShippingAddress a now).2 = some order.Error.ErrInvalidShippingAddress) ∧
      (a ≠ "" → (o.ChangeShippingAddress a now).1.shippingAddress = a) ∧
      (o.ChangeShippingAddress a now).1.billingAddress = o.billingAddress ∧
      (o.ChangeShippingAddress a now).1.paymentMethod = o.paymentMethod ∧
      (o.ChangeShippingAddress a now).1.status = o.status ∧
      (o.ChangeShippingAddress a now).1.items = o.items ∧
      (o.ChangeShippingAddress a now).1.totalAmount = o.totalAmount) ∧
    (((o.ChangeBillingAddress a now).2 ≠ none ↔ a = "") ∧
      (a = "" → (o.ChangeBillingAddress a now).2 = some order.Error.ErrInvalidBillingAddress) ∧
      (a ≠ "" → (o.ChangeBillingAddress a now).1.billingAddress = a) ∧
      (o.ChangeBillingAddress a now).1.shippingAddress = o.shippingAddress ∧
      (o.ChangeBillingAddress a now).1.paymentMethod = o.paymentMethod ∧
      (o.ChangeBillingAddress a now).1.status = o.status ∧
      (o.ChangeBillingAddress a now).1.items = o.items ∧
      (o.ChangeBillingAddress a now).1.totalAmount = o.totalAmount) ∧
    (((o.ChangePaymentMethod a now).2 ≠ none ↔ a = "") ∧
      (a = "" → (o.ChangePaymentMethod a now).2 = some order.Error.ErrInvalidPaymentMethod) ∧
      (a ≠ "" → (o.ChangePaymentMethod a now).1.paymentMethod = a) ∧
      (o.ChangePaymentMethod a now).1.shippingAddress = o.shippingAddress ∧
      (o.ChangePaymentMethod a now).1.billingAddress = o.billingAddress ∧
      (o.ChangePaymentMethod a now).1.status = o.status ∧
      (o.ChangePaymentMethod a now).1.items = o.items ∧
      (o.ChangePaymentMethod a now).1.totalAmount = o.totalAmount) := by
  by_cases ha : a = ""
  · simp [order.Order.ChangeShippingAddress, order.Order.ChangeBillingAddress,
      order.Order.ChangePaymentMethod, ha]
  · simp [order.Order.ChangeShippingAddress, order.Order.ChangeBillingAddress,
      order.Order.ChangePaymentMethod, ha]

/-- Witness of C12 on a delivered order: the empty shipping address is refused, the
billing address "9 Elm St" is stored. -/
theorem C12_order_change_address_payment_witness :
    (order.Order.ChangeShippingAddress
        ⟨"o1", "U1", "delivered", Float64.zero, "a", "b", "card", [], 0, 0⟩ "" 4).2
      = some order.Error.ErrInvalidShippingAddress ∧
    (order.Order.ChangeBillingAddress
        ⟨"o1", "U1", "delivered", Float64.zero, "a", "b", "card", [], 0, 0⟩ "9 Elm St" 4).1.billingAddress
      = "9 Elm St" :=
  ⟨(C12_order_change_address_payment
      ⟨"o1", "U1", "delivered", Float64.zero, "a", "b", "card", [], 0, 0⟩ "" 4).1.2.1 rfl,
   (C12_order_change_address_payment
      ⟨"o1", "U1", "delivered", Float64.zero, "a", "b", "card", [], 0, 0⟩ "9 Elm St" 4).2.1.2.2.1
      (by decide)⟩

/-- C13, as stated, fails.  On a paid order (status not `pending`) with addresses "a", "b"
and payment method "card", `ChangeShippingAddress "9 Elm St"`, `ChangeBillingAddress
"9 Elm St"` and `ChangePaymentMethod "cash"` return no error and do change the shipping
address, the billing address and the payment method. -/
theorem C13_order_address_changes_when_not_pending :
    (⟨"o1", "U1", "paid", Float64.zero, "a", "b", "card", [], 0, 0⟩ : order.Order).status
      ≠ order.StatusPending ∧
    order.Order.ChangeShippingAddress
        ⟨"o1", "U1", "paid", Float64.zero, "a", "b", "card", [], 0, 0⟩ "9 Elm St" 4 =
      (⟨"o1", "U1", "paid", Float64.zero, "9 Elm St", "b", "card", [], 0, 4⟩, none) ∧
    order.Order.ChangeBillingAddress
        ⟨"o1", "U1", "paid", Float64.zero, "a", "b", "card", [], 0, 0⟩ "9 Elm St" 4 =
      (⟨"o1", "U1", "paid", Float64.zero, "a", "9 Elm St", "card", [], 0, 4⟩, none) ∧
    order.Order.ChangePaymentMethod
        ⟨"o1", "U1", "paid", Float64.zero, "a", "b", "card", [], 0, 0⟩ "cash" 4 =
      (⟨"o1", "U1", "paid", Float64.zero, "a", "b", "cash", [], 0, 4⟩, none) ∧
    (order.Order.ChangeShippingAddress
        ⟨"o1", "U1", "paid", Float64.zero, "a", "b", "card", [], 0, 0⟩ "9 Elm St" 4).1.shippingAddress
      ≠ "a" := by
  decide

/-- C13, amended.  There is no status guard on the addresses and the payment method: for
every order whose status is not `pending` and every argument, `ChangeShippingAddress`,
`ChangeBillingAddress` and `ChangePaymentMethod` leave the three fields unchanged when the
argument is the empty string, and otherwise set their own field to the argument and leave
the other two unchanged; the status stays what it was (not `pending`). -/
theorem C13_order_address_no_status_guard (o : order.Order) (a : String) (now : Time)
    (hs : o.status ≠ order.StatusPending) :
    ((o.ChangeShippingAddress a now).1.shippingAddress = (if a = "" then o.shippingAddress else a) ∧
      (o.ChangeShippingAddress a now).1.billingAddress = o.billingAddress ∧
      (o.ChangeShippingAddress a now).1.paymentMethod = o.paymentMethod ∧
      (o.ChangeShippingAddress a now).1.status ≠ order.StatusPending) ∧
    ((o.ChangeBillingAddress a now).1.billingAddress = (if a = "" then o.billingAddress else a) ∧
      (o.ChangeBillingAddress a now).1.shippingAddress = o.shippingAddress ∧
      (o.ChangeBillingAddress a now).1.paymentMethod = o.paymentMethod ∧
      (o.ChangeBillingAddress a now).1.status ≠ order.StatusPending) ∧
    ((o.ChangePaymentMethod a now).1.paymentMethod = (if a = "" then o.paymentMethod else a) ∧
      (o.ChangePaymentMethod a now).1.shippingAddress = o.shippingAddress ∧
      (o.ChangePaymentMethod a now).1.billingAddress = o.billingAddress ∧
      (o.ChangePaymentMethod a now).1.status ≠ order.StatusPending) := by
  by_cases ha : a = ""
  · simp [order.Order.ChangeShippingAddress, order.Order.ChangeBillingAddress,
      order.Order.ChangePaymentMethod, ha, hs]
  · simp [order.Order.ChangeShippingAddress, order.Order.ChangeBillingAddress,
      order.Order.ChangePaymentMethod, ha, hs]

/-- Witness of C13 (amended) on a shipped order: the payment method becomes "cash", the
addresses stay. -/
theorem C13_order_address_no_status_guard_witness :
    (order.Order.ChangePaymentMethod
        ⟨"o1", "U1", "shipped", Float64.zero, "a", "b", "card", [], 0, 0⟩ "cash" 4).1.paymentMethod
      = "cash" ∧
    (order.Order.ChangePaymentMethod
        ⟨"o1", "U1", "shipped", Float64.zero, "a", "b", "card", [], 0, 0⟩ "cash" 4).1.shippingAddress
      = "a" :=
  ⟨(C13_order_address_no_status_guard
      ⟨"o1", "U1", "shipped", Float64.zero, "a", "b", "card", [], 0, 0⟩ "cash" 4
      (by decide)).2.2.1,
   (C13_order_address_no_status_guard
      ⟨"o1", "U1", "shipped", Float64.zero, "a", "b", "card", [], 0, 0⟩ "cash" 4
      (by decide)).2.2.2.1⟩

/-- C14. Cart invariant.  For every cart reachable from `NewCart` by any sequence of
`AddItem`, `RemoveItem`, `UpdateItemQuantity` and `Clear` calls with arbitrary arguments
(calls that return an error included), no addition of `AddItem` overflowing the 64-bit
`int`: no two lines carry the same product id, and every line has a quantity `> 0`. -/
theorem C14_cart_invariant (c : cart.Cart) (h : cart.Reachable c) :
    (c.items.map (fun x => x.productID)).Nodup ∧ ∀ x ∈ c.items, 0 < x.quantity := by
  induction h with
  | newCart userID u now c h =>
    rw [cart.NewCart_items userID u now c h]
    exact ⟨List.nodup_nil, by simp⟩
  | addItem c p q u now _ hov ih =>
    rcases cart.Cart.AddItem_outcomes c p q u now with
      ⟨err, he⟩ | ⟨hq, pre, it, post, hc, hpre, hit, he⟩ | ⟨hq, _, habs, he⟩
    · rw [he]; exact ih
    · rw [he]
      have hin : Go.InInt64 (it.quantity + q) :=
        hov it hq (cart.Cart.GetItem_first c p pre post it hc hpre hit)
      have hpos : 0 < it.quantity := ih.2 it (by rw [hc]; simp)
      rw [hc] at ih
      refine cart.inv_replace pre post it _ rfl ?_ ih
      show 0 < Go.wrapInt64 (it.quantity + q)
      rw [Go.wrapInt64_of_inInt64 hin]
      omega
    · rw [he]
      exact cart.inv_append c.items _ habs hq ih
  | removeItem c p now _ ih =>
    rcases cart.Cart.RemoveItem_outcomes c p now with he | ⟨pre, it, post, hc, _, _, he⟩
    · rw [he]; exact ih
    · rw [he]
      rw [hc] at ih
      exact cart.inv_remove pre post it ih
  | updateItemQuantity c p q now _ ih =>
    rcases cart.Cart.UpdateItemQuantity_outcomes c p q now with
      ⟨err, he⟩ | ⟨hq, pre, it, post, hc, _, _, he⟩
    · rw [he]; exact ih
    · rw [he]
      rw [hc] at ih
      exact cart.inv_replace pre post it _ rfl hq ih
  | clear c now _ _ =>
    exact ⟨List.nodup_nil, by simp [cart.Cart.Clear]⟩

/-- Witness of C14 on the cart obtained from `NewCart "U1"` by `AddItem "P1" 3` and then
`AddItem "P1" 2`. -/
theorem C14_cart_invariant_witness :
    cart.Reachable ((exampleCart.AddItem "P1" 3 uuid2 1).1.AddItem "P1" 2 uuid3 2).1 ∧
    ((((exampleCart.AddItem "P1" 3 uuid2 1).1.AddItem "P1" 2 uuid3 2).1.items.map
        (fun x => x.productID)).Nodup ∧
      ∀ x ∈ ((exampleCart.AddItem "P1" 3 uuid2 1).1.AddItem "P1" 2 uuid3 2).1.items,
        0 < x.quantity) :=
  ⟨cart.Reachable.addItem _ "P1" 2 uuid3 2
      (cart.Reachable.addItem exampleCart "P1" 3 uuid2 1
        (cart.Reachable.newCart "U1" uuid1 0 exampleCart rfl)
        (fun it _ hget => by cases hget))
      (fun it _ hget => by cases hget; decide),
   C14_cart_invariant _
    (cart.Reachable.addItem _ "P1" 2 uuid3 2
      (cart.Reachable.addItem exampleCart "P1" 3 uuid2 1
        (cart.Reachable.newCart "U1" uuid1 0 exampleCart rfl)
        (fun it _ hget => by cases hget))
      (fun it _ hget => by cases hget; decide))⟩

/-- C15. `Cart.AddItem p q` with `q <= 0` returns `ErrInvalidQuantity` whatever `p` is (the
empty, invalid product id included).  With `q > 0` and the product id that fails
validation, the empty string (the only one `product.NewID` refuses), it returns
`ErrInvalidProductID`, on every cart none of whose lines carries the empty product id, in
particular on every reachable cart.  In both cases the cart is returned exactly as it
was. -/
theorem C15_cart_AddItem_rejects (c : cart.Cart) (q : Int) (u : uuid.UUID) (now : Time) :
    (∀ p, q ≤ 0 → c.AddItem p q u now = (c, some cart.Error.ErrInvalidQuantity)) ∧
    (0 < q → (∀ y ∈ c.items, y.productID ≠ "") →
      c.AddItem "" q u now = (c, some cart.Error.ErrInvalidProductID)) ∧
    (0 < q → cart.Reachable c →
      c.AddItem "" q u now = (c, some cart.Error.ErrInvalidProductID)) ∧
    (∀ p, (∃ err, product.NewID p = .error err) ↔ p = "") := by
  refine ⟨?_, ?_, ?_, ?_⟩
  · intro p hq
    exact cart.Cart.AddItem_invalid_quantity c p q u now hq
  · intro hq habs
    exact cart.Cart.AddItem_invalid_product c q u now hq habs
  · intro hq hr
    exact cart.Cart.AddItem_invalid_product c q u now hq
      (cart.reachable_productID_ne_empty c hr)
  · intro p
    by_cases hp : p = ""
    · simp [product.NewID, hp]
    · simp [product.NewID, hp]

/-- Witness of C15 on the cart holding 3 of "P1": quantity 0 with the empty product id
gives `ErrInvalidQuantity`, quantity 2 with the empty product id gives
`ErrInvalidProductID`. -/
theorem C15_cart_AddItem_rejects_witness :
    cart.Cart.AddItem ⟨"c1", "U1", [⟨"i1", "P1", 3, 0, 0⟩], 0, 0⟩ "" 0 uuid1 7 =
      (⟨"c1", "U1", [⟨"i1", "P1", 3, 0, 0⟩], 0, 0⟩, some cart.Error.ErrInvalidQuantity) ∧
    cart.Cart.AddItem ⟨"c1", "U1", [⟨"i1", "P1", 3, 0, 0⟩], 0, 0⟩ "" 2 uuid1 7 =
      (⟨"c1", "U1", [⟨"i1", "P1", 3, 0, 0⟩], 0, 0⟩, some cart.Error.ErrInvalidProductID) :=
  ⟨(C15_cart_AddItem_rejects ⟨"c1", "U1", [⟨"i1", "P1", 3, 0, 0⟩], 0, 0⟩ 0 uuid1 7).1 ""
      (by decide),
   (C15_cart_AddItem_rejects ⟨"c1", "U1", [⟨"i1", "P1", 3, 0, 0⟩], 0, 0⟩ 2 uuid1 7).2.1
      (by decide) (by decide)⟩

/-- C16. On every cart, `AddItem p q` with a valid (non-empty) product id `p` that no line
carries and `q > 0` returns no error, and the lines afterwards are the lines before,
unchanged and in the same order, followed by exactly one new last line, with product id
`p` and quantity `q`. -/
theorem C16_cart_AddItem_appends (c : cart.Cart) (p : String) (q : Int) (u : uuid.UUID)
    (now : Time) (hp : p ≠ "") (habs : ∀ y ∈ c.items, y.productID ≠ p) (hq : 0 < q) :
    (c.AddItem p q u now).2 = none ∧
    (c.AddItem p q u now).1.items.length = c.items.length + 1 ∧
    ∃ line, (c.AddItem p q u now).1.items = c.items ++ [line] ∧
      line.productID = p ∧ line.quantity = q := by
  rw [cart.Cart.AddItem_new c p q u now habs hp hq]
  exact ⟨rfl, by simp, _, rfl, rfl, rfl⟩

/-- Witness of C16: adding 4 of "P2" to the cart holding 3 of "P1". -/
theorem C16_cart_AddItem_appends_witness :
    (cart.Cart.AddItem ⟨"c1", "U1", [⟨"i1", "P1", 3, 0, 0⟩], 0, 0⟩ "P2" 4 uuid1 7).2 = none ∧
    (cart.Cart.AddItem ⟨"c1", "U1", [⟨"i1", "P1", 3, 0, 0⟩], 0, 0⟩ "P2" 4 uuid1 7).1.items.length
      = 2 ∧
    ∃ line, (cart.Cart.AddItem ⟨"c1", "U1", [⟨"i1", "P1", 3, 0, 0⟩], 0, 0⟩ "P2" 4 uuid1 7).1.items
        = [⟨"i1", "P1", 3, 0, 0⟩] ++ [line] ∧ line.productID = "P2" ∧ line.quantity = 4 :=
  C16_cart_AddItem_appends ⟨"c1", "U1", [⟨"i1", "P1", 3, 0, 0⟩], 0, 0⟩ "P2" 4 uuid1 7
    (by decide) (by decide) (by decide)

/-- C17, what the code does.  On the merge path (`q > 0` and a line for `p` exists)
`Cart.AddItem` returns no error and leaves `updatedAt` of the cart as it was: the call
returns through `item.IncreaseQuantity`, which stamps the line only.  On the new-line path
(`q > 0`, `p` valid and absent) it returns no error and `updatedAt` of the cart is the time
of the call. -/
theorem C17_cart_AddItem_merge_keeps_updatedAt (c : cart.Cart) (p : String) (q : Int)
    (u : uuid.UUID) (now : Time) (hq : 0 < q) :
    ((∃ x ∈ c.items, x.productID = p) →
      (c.AddItem p q u now).2 = none ∧ (c.AddItem p q u now).1.updatedAt = c.updatedAt) ∧
    ((∀ y ∈ c.items, y.productID ≠ p) → p ≠ "" →
      (c.AddItem p q u now).2 = none ∧ (c.AddItem p q u now).1.updatedAt = now) := by
  constructor
  · intro hex
    obtain ⟨pre, it, post, hc, hpre, hit⟩ := cart.exists_first_line c.items p hex
    rw [cart.Cart.AddItem_merge c p q u now pre post it hc hpre hit hq]
    exact ⟨rfl, rfl⟩
  · intro habs hp
    rw [cart.Cart.AddItem_new c p q u now habs hp hq]
    exact ⟨rfl, rfl⟩

/-- Witness of C17, the failing input: the cart created at time 0 and given 3 of "P1" at
time 1 is given 2 more of "P1" at time 7; the call returns no error, the line holds 5 and
is stamped 7, and `updatedAt` of the cart is still 1. -/
theorem C17_cart_AddItem_merge_keeps_updatedAt_witness :
    (exampleCart.AddItem "P1" 3 uuid2 1).1 =
      ⟨uuid1.str, "U1", [⟨uuid2.str, "P1", 3, 1, 1⟩], 0, 1⟩ ∧
    (cart.Cart.AddItem ⟨uuid1.str, "U1", [⟨uuid2.str, "P1", 3, 1, 1⟩], 0, 1⟩ "P1" 2 uuid3 7) =
      (⟨uuid1.str, "U1", [⟨uuid2.str, "P1", 5, 1, 7⟩], 0, 1⟩, none) ∧
    ((cart.Cart.AddItem ⟨uuid1.str, "U1", [⟨uuid2.str, "P1", 3, 1, 1⟩], 0, 1⟩ "P1" 2 uuid3 7).2
        = none ∧
      (cart.Cart.AddItem ⟨uuid1.str, "U1", [⟨uuid2.str, "P1", 3, 1, 1⟩], 0, 1⟩ "P1" 2 uuid3 7).1.updatedAt
        = 1) :=
  ⟨by decide, by decide,
   (C17_cart_AddItem_merge_keeps_updatedAt
      ⟨uuid1.str, "U1", [⟨uuid2.str, "P1", 3, 1, 1⟩], 0, 1⟩ "P1" 2 uuid3 7 (by decide)).1
      (by decide)⟩

/-- C18, as stated, fails.  The cart obtained from `NewCart "U1"` by
`AddItem "A" 9223372036854775807` and `AddItem "B" 1` is reachable and has one line per
product; its `TotalItems`, a sum in the 64-bit `int`, is `-9223372036854775808`.
`RemoveItem "B"` returns no error and removes the line of quantity 1, and `TotalItems` is
then `9223372036854775807`: it did not decrease by 1, it went up. -/
theorem C18_cart_TotalItems_not_decreased :
    cart.Reachable ((exampleCart.AddItem "A" 9223372036854775807 uuid2 1).1.AddItem
      "B" 1 uuid3 2).1 ∧
    ((exampleCart.AddItem "A" 9223372036854775807 uuid2 1).1.AddItem "B" 1 uuid3 2).1.items =
      [⟨uuid2.str, "A", 9223372036854775807, 1, 1⟩, ⟨uuid3.str, "B", 1, 2, 2⟩] ∧
    (((exampleCart.AddItem "A" 9223372036854775807 uuid2 1).1.AddItem "B" 1 uuid3 2).1.items.map
      (fun x => x.productID)).Nodup ∧
    ((exampleCart.AddItem "A" 9223372036854775807 uuid2 1).1.AddItem "B" 1 uuid3 2).1.TotalItems
      = -9223372036854775808 ∧
    ((((exampleCart.AddItem "A" 9223372036854775807 uuid2 1).1.AddItem "B" 1 uuid3 2).1.RemoveItem
      "B" 3).2 = none) ∧
    ((((exampleCart.AddItem "A" 9223372036854775807 uuid2 1).1.AddItem "B" 1 uuid3 2).1.RemoveItem
      "B" 3).1.TotalItems = 9223372036854775807) ∧
    ((((exampleCart.AddItem "A" 9223372036854775807 uuid2 1).1.AddItem "B" 1 uuid3 2).1.RemoveItem
      "B" 3).1.TotalItems ≠
      ((exampleCart.AddItem "A" 9223372036854775807 uuid2 1).1.AddItem "B" 1 uuid3 2).1.TotalItems
        - 1) := by
  refine ⟨?_, by decide, by decide, by decide, by decide, by decide, by decide⟩
  exact cart.Reachable.addItem _ "B" 1 uuid3 2
    (cart.Reachable.addItem exampleCart "A" 9223372036854775807 uuid2 1
      (cart.Reachable.newCart "U1" uuid1 0 exampleCart rfl)
      (fun it _ hget => by cases hget))
    (fun it _ hget => by cases hget)

/-- C18, amended.  On a cart with at most one line per product, `RemoveItem p` for a
product `p` that has a line returns no error; the line count decreases by exactly one;
`HasItem p` is false afterwards; the lines are the old ones without the line for `p`, the
others unchanged and in their relative order; and `TotalItems` afterwards is `TotalItems`
before minus the quantity of the removed line, wrapped into the 64-bit `int` in which
`TotalItems` sums: it decreases by exactly that quantity whenever the difference is
representable. -/
theorem C18_cart_RemoveItem_present (c : cart.Cart) (p : String) (now : Time)
    (hnodup : (c.items.map (fun x => x.productID)).Nodup)
    (hex : ∃ x ∈ c.items, x.productID = p) :
    (c.RemoveItem p now).2 = none ∧
    (c.RemoveItem p now).1.items.length + 1 = c.items.length ∧
    (c.RemoveItem p now).1.HasItem p = false ∧
    ∃ pre it post, c.items = pre ++ it :: post ∧ it.productID = p ∧
      (c.RemoveItem p now).1.items = pre ++ post ∧
      (c.RemoveItem p now).1.TotalItems = Go.wrapInt64 (c.TotalItems - it.quantity) ∧
      (Go.InInt64 (c.TotalItems - it.quantity) →
        (c.RemoveItem p now).1.TotalItems = c.TotalItems - it.quantity) := by
  obtain ⟨pre, it, post, hc, hpre, hit⟩ := cart.exists_first_line c.items p hex
  have hrem := cart.Cart.RemoveItem_first_line c p now pre post it hc hpre hit
  have hpost : ∀ y ∈ post, y.productID ≠ p := by
    rw [hc] at hnodup
    simp only [List.map_append, List.map_cons, List.nodup_append, List.nodup_cons] at hnodup
    intro y hy hyp
    exact hnodup.2.1.1 (List.mem_map.mpr ⟨y, hy, hyp.trans hit.symm⟩)
  have htotal : (c.RemoveItem p now).1.TotalItems = Go.wrapInt64 (c.TotalItems - it.quantity) := by
    rw [hrem, cart.Cart.TotalItems_eq, cart.Cart.TotalItems_eq c, hc,
      Go.wrapInt64_sub_wrapInt64]
    simp only [List.map_append, List.map_cons, List.sum_append, List.sum_cons]
    congr 1
    omega
  refine ⟨by rw [hrem], by rw [hrem]; simp [hc]; omega, ?_, pre, it, post, hc, hit,
    by rw [hrem], htotal, ?_⟩
  · rw [hrem]
    apply cart.Cart.HasItem_eq_false
    intro y hy
    rcases List.mem_append.mp hy with hy | hy
    · exact hpre y hy
    · exact hpost y hy
  · intro hin
    rw [htotal, Go.wrapInt64_of_inInt64 hin]

/-- Witness of C18 (amended): removing "P1" from the cart holding 1 of "P0", 3 of "P1" and 2 of
"P2". -/
theorem C18_cart_RemoveItem_present_witness :
    (cart.Cart.RemoveItem
        ⟨"c1", "U1", [⟨"i0", "P0", 1, 0, 0⟩, ⟨"i1", "P1", 3, 0, 0⟩, ⟨"i2", "P2", 2, 0, 0⟩], 0, 0⟩
        "P1" 5).2 = none ∧
    (cart.Cart.RemoveItem
        ⟨"c1", "U1", [⟨"i0", "P0", 1, 0, 0⟩, ⟨"i1", "P1", 3, 0, 0⟩, ⟨"i2", "P2", 2, 0, 0⟩], 0, 0⟩
        "P1" 5).1.items.length + 1 = 3 ∧
    (cart.Cart.RemoveItem
        ⟨"c1", "U1", [⟨"i0", "P0", 1, 0, 0⟩, ⟨"i1", "P1", 3, 0, 0⟩, ⟨"i2", "P2", 2, 0, 0⟩], 0, 0⟩
        "P1" 5).1.HasItem "P1" = false :=
  ⟨(C18_cart_RemoveItem_present
      ⟨"c1", "U1", [⟨"i0", "P0", 1, 0, 0⟩, ⟨"i1", "P1", 3, 0, 0⟩, ⟨"i2", "P2", 2, 0, 0⟩], 0, 0⟩
      "P1" 5 (by decide) (by decide)).1,
   (C18_cart_RemoveItem_present
      ⟨"c1", "U1", [⟨"i0", "P0", 1, 0, 0⟩, ⟨"i1", "P1", 3, 0, 0⟩, ⟨"i2", "P2", 2, 0, 0⟩], 0, 0⟩
      "P1" 5 (by decide) (by decide)).2.1,
   (C18_cart_RemoveItem_present
      ⟨"c1", "U1", [⟨"i0", "P0", 1, 0, 0⟩, ⟨"i1", "P1", 3, 0, 0⟩, ⟨"i2", "P2", 2, 0, 0⟩], 0, 0⟩
      "P1" 5 (by decide) (by decide)).2.2.1⟩

/-- C19. Cart creation.  `NewCart userID` fails with `ErrInvalidUserID` exactly when
`user.NewID` refuses `userID`, that is exactly when `userID` is the empty string, and it
fails with no other error; otherwise it succeeds and returns a cart with no line that
stores `userID` unchanged. -/
theorem C19_cart_NewCart (userID : String) (u : uuid.UUID) (now : Time) :
    (cart.NewCart userID u now = .error cart.Error.ErrInvalidUserID ↔ userID = "") ∧
    ((∃ err, user.NewID userID = .error err) ↔ userID = "") ∧
    (∀ err, cart.NewCart userID u now = .error err → err = cart.Error.ErrInvalidUserID) ∧
    (userID ≠ "" →
      ∃ c, cart.NewCart userID u now = .ok c ∧ c.items = [] ∧ c.userID = userID) := by
  by_cases hu : userID = ""
  · simp [cart.NewCart, cart.NewID, u.nonblank, user.NewID, hu]
  · refine ⟨?_, ?_, ?_, ?_⟩
    · simp [cart.NewCart_ok userID u now hu, hu]
    · simp [user.NewID, hu]
    · intro err h
      rw [cart.NewCart_ok userID u now hu] at h
      exact absurd h (by simp)
    · intro _
      exact ⟨_, cart.NewCart_ok userID u now hu, rfl, rfl⟩

/-- Witness of C19: `NewCart "U1"` returns `exampleCart`, which has no line and user id
"U1". -/
theorem C19_cart_NewCart_witness :
    ∃ c, cart.NewCart "U1" uuid1 0 = .ok c ∧ c.items = [] ∧ c.userID = "U1" :=
  (C19_cart_NewCart "U1" uuid1 0).2.2.2 (by decide)

/-- C20. `Cart.Clear` has no error result and, on every cart, leaves a cart with
`ItemCount` 0, `TotalItems` 0 and `HasItem p` false for every `p`, whose `id`, `userID`
and `createdAt` are those of the cart before. -/
theorem C20_cart_Clear (c : cart.Cart) (now : Time) :
    (c.Clear now).ItemCount = 0 ∧
    (c.Clear now).TotalItems = 0 ∧
    (∀ p, (c.Clear now).HasItem p = false) ∧
    (c.Clear now).id = c.id ∧
    (c.Clear now).userID = c.userID ∧
    (c.Clear now).createdAt = c.createdAt := by
  refine ⟨rfl, rfl, ?_, rfl, rfl, rfl⟩
  intro p
  rfl

/-- C21, as stated, fails for `TotalItems`.  The reachable cart obtained from
`NewCart "U1"` by `AddItem "A" 9223372036854775807` and `AddItem "B" 1` has lines whose
quantities sum to `9223372036854775808`, whereas `TotalItems`, which adds in the 64-bit
`int`, returns `-9223372036854775808`. -/
theorem C21_cart_TotalItems_not_the_sum :
    cart.Reachable ((exampleCart.AddItem "A" 9223372036854775807 uuid2 1).1.AddItem
      "B" 1 uuid3 2).1 ∧
    (((exampleCart.AddItem "A" 9223372036854775807 uuid2 1).1.AddItem "B" 1 uuid3 2).1.items.map
      (fun item => item.quantity)).sum = 9223372036854775808 ∧
    ((exampleCart.AddItem "A" 9223372036854775807 uuid2 1).1.AddItem "B" 1 uuid3 2).1.TotalItems
      = -9223372036854775808 ∧
    ((exampleCart.AddItem "A" 9223372036854775807 uuid2 1).1.AddItem "B" 1 uuid3 2).1.TotalItems
      ≠ (((exampleCart.AddItem "A" 9223372036854775807 uuid2 1).1.AddItem
          "B" 1 uuid3 2).1.items.map (fun item => item.quantity)).sum := by
  refine ⟨?_, by decide, by decide, by decide⟩
  exact cart.Reachable.addItem _ "B" 1 uuid3 2
    (cart.Reachable.addItem exampleCart "A" 9223372036854775807 uuid2 1
      (cart.Reachable.newCart "U1" uuid1 0 exampleCart rfl)
      (fun it _ hget => by cases hget))
    (fun it _ hget => by cases hget)

/-- C21, amended.  The derived queries of a cart agree with its list of lines.
`ItemCount` is the number of lines.  `TotalItems` is the sum of the quantities of all
lines wrapped into the 64-bit `int`, and it is the sum itself whenever the sum is
representable.
`HasItem p` is true iff some line has product id `p` iff `GetItem p` succeeds.  `GetItem p`
returns the first line whose product id is `p`, and `ErrProductNotFound` when there is
none.  The four are functions of the cart alone: their bodies assign nothing. -/
theorem C21_cart_queries (c : cart.Cart) (p : String) :
    c.ItemCount = c.items.length ∧
    c.TotalItems = Go.wrapInt64 ((c.items.map (fun item => item.quantity)).sum) ∧
    (Go.InInt64 ((c.items.map (fun item => item.quantity)).sum) →
      c.TotalItems = (c.items.map (fun item => item.quantity)).sum) ∧
    (c.HasItem p = true ↔ ∃ x ∈ c.items, x.productID = p) ∧
    (c.HasItem p = true ↔ ∃ it, c.GetItem p = .ok it) ∧
    ((∃ x ∈ c.items, x.productID = p) →
      ∃ pre it post, c.items = pre ++ it :: post ∧ (∀ y ∈ pre, y.productID ≠ p) ∧
        it.productID = p ∧ c.GetItem p = .ok it) ∧
    ((∀ x ∈ c.items, x.productID ≠ p) → c.GetItem p = .error cart.Error.ErrProductNotFound) := by
  have hnone : (∀ x ∈ c.items, x.productID ≠ p) →
      Go.rangeFind (fun item : cart.CartItem => item.productID == p) c.items = none := by
    intro habs
    rw [Go.rangeFind_eq_none_iff]
    intro y hy; simpa using habs y hy
  have hfirst : (∃ x ∈ c.items, x.productID = p) →
      ∃ pre it post, c.items = pre ++ it :: post ∧ (∀ y ∈ pre, y.productID ≠ p) ∧
        it.productID = p ∧ c.GetItem p = .ok it := by
    intro hex
    obtain ⟨pre, it, post, hc, hpre, hit⟩ := cart.exists_first_line c.items p hex
    exact ⟨pre, it, post, hc, hpre, hit, cart.Cart.GetItem_first c p pre post it hc hpre hit⟩
  have hhas : c.HasItem p = true ↔ ∃ x ∈ c.items, x.productID = p := by
    constructor
    · intro h
      by_contra hex
      have habs : ∀ x ∈ c.items, x.productID ≠ p := fun x hx hxp => hex ⟨x, hx, hxp⟩
      rw [cart.Cart.HasItem_eq_false c p habs] at h
      exact absurd h (by decide)
    · intro hex
      obtain ⟨pre, it, post, hc, hpre, hit⟩ := cart.exists_first_line c.items p hex
      have hfind : Go.rangeFind (fun item : cart.CartItem => item.productID == p) c.items
          = some (pre.length, it) := by
        rw [hc]
        apply Go.rangeFind_append_cons
        · intro y hy; simpa using hpre y hy
        · simpa using hit
      simp [cart.Cart.HasItem, hfind]
  refine ⟨rfl, cart.Cart.TotalItems_eq c, ?_, hhas, ?_, hfirst, ?_⟩
  · intro hin
    rw [cart.Cart.TotalItems_eq c, Go.wrapInt64_of_inInt64 hin]
  · rw [hhas]
    constructor
    · intro hex
      obtain ⟨_, it, _, _, _, _, hget⟩ := hfirst hex
      exact ⟨it, hget⟩
    · rintro ⟨it, hget⟩
      obtain ⟨pre, post, hc, _, hit⟩ := cart.Cart.GetItem_eq_ok c p it hget
      exact ⟨it, by rw [hc]; simp, hit⟩
  · intro habs
    simp [cart.Cart.GetItem, hnone habs]

/-- Witness of C21 (amended) on the cart holding 1 of "P0" and 3 of "P1": the total is 4, "P1" is
found, "P9" is not. -/
theorem C21_cart_queries_witness :
    cart.Cart.TotalItems ⟨"c1", "U1", [⟨"i0", "P0", 1, 0, 0⟩, ⟨"i1", "P1", 3, 0, 0⟩], 0, 0⟩ = 4 ∧
    (∃ pre it post,
      (⟨"c1", "U1", [⟨"i0", "P0", 1, 0, 0⟩, ⟨"i1", "P1", 3, 0, 0⟩], 0, 0⟩ : cart.Cart).items
        = pre ++ it :: post ∧ (∀ y ∈ pre, y.productID ≠ "P1") ∧ it.productID = "P1" ∧
      cart.Cart.GetItem ⟨"c1", "U1", [⟨"i0", "P0", 1, 0, 0⟩, ⟨"i1", "P1", 3, 0, 0⟩], 0, 0⟩ "P1"
        = .ok it) ∧
    cart.Cart.GetItem ⟨"c1", "U1", [⟨"i0", "P0", 1, 0, 0⟩, ⟨"i1", "P1", 3, 0, 0⟩], 0, 0⟩ "P9"
      = .error cart.Error.ErrProductNotFound :=
  ⟨(C21_cart_queries ⟨"c1", "U1", [⟨"i0", "P0", 1, 0, 0⟩, ⟨"i1", "P1", 3, 0, 0⟩], 0, 0⟩
      "P1").2.2.1 (by decide),
   (C21_cart_queries ⟨"c1", "U1", [⟨"i0", "P0", 1, 0, 0⟩, ⟨"i1", "P1", 3, 0, 0⟩], 0, 0⟩
      "P1").2.2.2.2.2.1 (by decide),
   (C21_cart_queries ⟨"c1", "U1", [⟨"i0", "P0", 1, 0, 0⟩, ⟨"i1", "P1", 3, 0, 0⟩], 0, 0⟩
      "P9").2.2.2.2.2.2 (by decide)⟩

/-- C22. No partial mutation.  Whenever `AddItem`, `RemoveItem` or `UpdateItemQuantity` of
a cart, or `AddItem`, `RemoveItem`, `ChangeStatus`, `ChangeShippingAddress`,
`ChangeBillingAddress` or `ChangePaymentMethod` of an order, called with any arguments,
returns an error, the aggregate after the call equals the aggregate before it in every
field (lines, `totalAmount`, status and `updatedAt` included). -/
theorem C22_no_mutation_on_error (c : cart.Cart) (o : order.Order) (p : String) (q : Int)
    (price : Float64) (u : uuid.UUID) (s : order.Status) (a : String) (now : Time) :
    ((c.AddItem p q u now).2 ≠ none → (c.AddItem p q u now).1 = c) ∧
    ((c.RemoveItem p now).2 ≠ none → (c.RemoveItem p now).1 = c) ∧
    ((c.UpdateItemQuantity p q now).2 ≠ none → (c.UpdateItemQuantity p q now).1 = c) ∧
    ((o.AddItem p q price u now).2 ≠ none → (o.AddItem p q price u now).1 = o) ∧
    ((o.RemoveItem a now).2 ≠ none → (o.RemoveItem a now).1 = o) ∧
    ((o.ChangeStatus s now).2 ≠ none → (o.ChangeStatus s now).1 = o) ∧
    ((o.ChangeShippingAddress a now).2 ≠ none → (o.ChangeShippingAddress a now).1 = o) ∧
    ((o.ChangeBillingAddress a now).2 ≠ none → (o.ChangeBillingAddress a now).1 = o) ∧
    ((o.ChangePaymentMethod a now).2 ≠ none → (o.ChangePaymentMethod a now).1 = o) := by
  refine ⟨?_, ?_, ?_, ?_, ?_, ?_, ?_, ?_, ?_⟩
  · rcases cart.Cart.AddItem_outcomes c p q u now with
      ⟨err, he⟩ | ⟨_, pre, it, post, _, _, _, he⟩ | ⟨_, _, _, he⟩
    · rw [he]; intro _; rfl
    · rw [he]; intro h; exact absurd rfl h
    · rw [he]; intro h; exact absurd rfl h
  · rcases cart.Cart.RemoveItem_outcomes c p now with he | ⟨pre, it, post, _, _, _, he⟩
    · rw [he]; intro _; rfl
    · rw [he]; intro h; exact absurd rfl h
  · rcases cart.Cart.UpdateItemQuantity_outcomes c p q now with
      ⟨err, he⟩ | ⟨_, pre, it, post, _, _, _, he⟩
    · rw [he]; intro _; rfl
    · rw [he]; intro h; exact absurd rfl h
  · rcases order.Order.AddItem_cases o p q price u now with ⟨err, he⟩ | ⟨item, he⟩
    · rw [he]; intro _; rfl
    · rw [he]; intro h; exact absurd rfl h
  · rcases order.Order.RemoveItem_cases o a now with ⟨err, he⟩ | ⟨items, he⟩
    · rw [he]; intro _; rfl
    · rw [he]; intro h; exact absurd rfl h
  · unfold order.Order.ChangeStatus
    split_ifs
    · intro _; rfl
    · intro h; exact absurd rfl h
  · unfold order.Order.ChangeShippingAddress
    split_ifs
    · intro _; rfl
    · intro h; exact absurd rfl h
  · unfold order.Order.ChangeBillingAddress
    split_ifs
    · intro _; rfl
    · intro h; exact absurd rfl h
  · unfold order.Order.ChangePaymentMethod
    split_ifs
    · intro _; rfl
    · intro h; exact absurd rfl h

/-- Witness of C22: `AddItem "" 2` on the cart holding 3 of "P1", and `AddItem "P1" 0 9.99`
on the empty pending order, return an error and the aggregate as it was. -/
theorem C22_no_mutation_on_error_witness :
    (cart.Cart.AddItem ⟨"c1", "U1", [⟨"i1", "P1", 3, 0, 0⟩], 0, 0⟩ "" 2 uuid1 7).1 =
      ⟨"c1", "U1", [⟨"i1", "P1", 3, 0, 0⟩], 0, 0⟩ ∧
    (exampleOrder.AddItem "" 2 (Float64.ofFraction 999 100) uuid1 7).1 = exampleOrder :=
  ⟨(C22_no_mutation_on_error ⟨"c1", "U1", [⟨"i1", "P1", 3, 0, 0⟩], 0, 0⟩ exampleOrder ""
      2 (Float64.ofFraction 999 100) uuid1 "paid" "x" 7).1 (by decide),
   (C22_no_mutation_on_error ⟨"c1", "U1", [⟨"i1", "P1", 3, 0, 0⟩], 0, 0⟩ exampleOrder ""
      2 (Float64.ofFraction 999 100) uuid1 "paid" "x" 7).2.2.2.1 (by decide)⟩

/-- C23. The status of an order is always a recognized one: for every order reachable from
`NewOrder` by any sequence of `AddItem`, `RemoveItem`, `ChangeStatus`,
`ChangeShippingAddress`, `ChangeBillingAddress` and `ChangePaymentMethod` calls with
arbitrary arguments, the status is one of `pending`, `paid`, `shipped`, `delivered`,
`cancelled`. -/
theorem C23_order_status_recognized (o : order.Order) (h : order.Reachable o) :
    o.status ∈ [order.StatusPending, order.StatusPaid, order.StatusShipped,
                order.StatusDelivered, order.StatusCancelled] := by
  induction h with
  | newOrder userID shippingAddress billingAddress paymentMethod u now o h =>
    unfold order.NewOrder at h
    split at h
    · exact absurd h (by simp)
    · split at h
      · exact absurd h (by simp)
      · split_ifs at h
        simp only [Except.ok.injEq] at h
        subst h
        simp
  | addItem o p q price u now _ ih =>
    rcases order.Order.AddItem_cases o p q price u now with ⟨err, he⟩ | ⟨item, he⟩
    · rw [he]; exact ih
    · rw [he]; exact ih
  | removeItem o itemID now _ ih =>
    rcases order.Order.RemoveItem_cases o itemID now with ⟨err, he⟩ | ⟨items, he⟩
    · rw [he]; exact ih
    · rw [he]; exact ih
  | changeStatus o s now _ ih =>
    unfold order.Order.ChangeStatus
    split_ifs with hv
    · exact ih
    · simp only [Bool.not_eq_true, Bool.not_eq_false] at hv
      exact (order.validStatuses_lookup s).mp (by simpa using hv)
  | changeShippingAddress o a now _ ih =>
    unfold order.Order.ChangeShippingAddress
    split_ifs <;> exact ih
  | changeBillingAddress o a now _ ih =>
    unfold order.Order.ChangeBillingAddress
    split_ifs <;> exact ih
  | changePaymentMethod o m now _ ih =>
    unfold order.Order.ChangePaymentMethod
    split_ifs <;> exact ih

/-- Witness of C23 on the order obtained from `exampleOrder` by `ChangeStatus
"shipped_wrong"` (refused) and then `ChangeStatus "shipped"`. -/
theorem C23_order_status_recognized_witness :
    order.Reachable
      ((exampleOrder.ChangeStatus "shipped_wrong" 1).1.ChangeStatus "shipped" 2).1 ∧
    ((exampleOrder.ChangeStatus "shipped_wrong" 1).1.ChangeStatus "shipped" 2).1.status ∈
      [order.StatusPending, order.StatusPaid, order.StatusShipped,
       order.StatusDelivered, order.StatusCancelled] :=
  ⟨order.Reachable.changeStatus _ "shipped" 2
      (order.Reachable.changeStatus exampleOrder "shipped_wrong" 1
        (order.Reachable.newOrder "U1" "1 Main St" "1 Main St" "card" uuid1 0 exampleOrder rfl)),
   C23_order_status_recognized _
    (order.Reachable.changeStatus _ "shipped" 2
      (order.Reachable.changeStatus exampleOrder "shipped_wrong" 1
        (order.Reachable.newOrder "U1" "1 Main St" "1 Main St" "card" uuid1 0 exampleOrder
          rfl)))⟩

/-- C24, as stated, fails in its second part.  `AddItem "P1" 1 NaN` on the newly created
order returns no error (`NaN <= 0` is false), so the reachable order it leaves has a line
whose unit price is NaN, and NaN is not `> 0`. -/
theorem C24_order_line_price_not_positive :
    order.Reachable (exampleOrder.AddItem "P1" 1 Float64.nan uuid2 1).1 ∧
    (exampleOrder.AddItem "P1" 1 Float64.nan uuid2 1).2 = none ∧
    (exampleOrder.AddItem "P1" 1 Float64.nan uuid2 1).1.items =
      [⟨uuid2.str, "P1", 1, Float64.nan, 1, 1⟩] ∧
    Float64.lt Float64.zero Float64.nan = false := by
  refine ⟨?_, by decide, by decide, by decide⟩
  exact order.Reachable.addItem _ _ _ _ _ _
    (order.Reachable.newOrder "U1" "1 Main St" "1 Main St" "card" uuid1 0 exampleOrder rfl)

/-- C24, amended.  Captured order lines are immutable: after `AddItem` the lines are the
lines before, or the lines before followed by one new line; after `RemoveItem` they are
the lines before, or the lines before without one of them; `ChangeStatus`,
`ChangeShippingAddress`, `ChangeBillingAddress` and `ChangePaymentMethod` leave the lines
as they are; so a line present before and after a call is the same in every field.  And
every line of a reachable order has a quantity `> 0` and a unit price that is not
`<= 0`. -/
theorem C24_order_lines_immutable :
    (∀ (o : order.Order) (p : String) (q : Int) (price : Float64) (u : uuid.UUID) (now : Time),
      (o.AddItem p q price u now).1.items = o.items ∨
      ∃ line, (o.AddItem p q price u now).1.items = o.items ++ [line]) ∧
    (∀ (o : order.Order) (itemID : String) (now : Time),
      (o.RemoveItem itemID now).1.items = o.items ∨
      ∃ pre it post, o.items = pre ++ it :: post ∧
        (o.RemoveItem itemID now).1.items = pre ++ post) ∧
    (∀ (o : order.Order) (s : order.Status) (a : String) (now : Time),
      (o.ChangeStatus s now).1.items = o.items ∧
      (o.ChangeShippingAddress a now).1.items = o.items ∧
      (o.ChangeBillingAddress a now).1.items = o.items ∧
      (o.ChangePaymentMethod a now).1.items = o.items) ∧
    (∀ (o : order.Order), order.Reachable o →
      ∀ line ∈ o.items, 0 < line.quantity ∧ Float64.le line.price Float64.zero = false) := by
  refine ⟨?_, ?_, ?_, ?_⟩
  · intro o p q price u now
    rcases order.Order.AddItem_cases o p q price u now with ⟨err, he⟩ | ⟨item, he⟩
    · rw [he]; exact Or.inl rfl
    · rw [he]; exact Or.inr ⟨item, rfl⟩
  · intro o itemID now
    rcases order.Order.RemoveItem_results o itemID now with
      ⟨err, he⟩ | ⟨pre, it, post, ho, _, _, he⟩
    · rw [he]; exact Or.inl rfl
    · rw [he]; exact Or.inr ⟨pre, it, post, ho, rfl⟩
  · intro o s a now
    refine ⟨?_, ?_, ?_, ?_⟩
    · unfold order.Order.ChangeStatus
      split_ifs <;> rfl
    · unfold order.Order.ChangeShippingAddress
      split_ifs <;> rfl
    · unfold order.Order.ChangeBillingAddress
      split_ifs <;> rfl
    · unfold order.Order.ChangePaymentMethod
      split_ifs <;> rfl
  · intro o hr line hline
    exact (order.reachable_lines_checked o hr line hline).2

/-- Witness of C24 (amended) on the order with the single line `("P1", 2, 9.99)`. -/
theorem C24_order_lines_immutable_witness :
    order.Reachable (exampleOrder.AddItem "P1" 2 (Float64.ofFraction 999 100) uuid2 1).1 ∧
    ∀ line ∈ (exampleOrder.AddItem "P1" 2 (Float64.ofFraction 999 100) uuid2 1).1.items,
      0 < line.quantity ∧ Float64.le line.price Float64.zero = false :=
  ⟨order.Reachable.addItem _ _ _ _ _ _
    (order.Reachable.newOrder "U1" "1 Main St" "1 Main St" "card" uuid1 0 exampleOrder rfl),
   C24_order_lines_immutable.2.2.2 _ (order.Reachable.addItem _ _ _ _ _ _
    (order.Reachable.newOrder "U1" "1 Main St" "1 Main St" "card" uuid1 0 exampleOrder rfl))⟩

/-- C25. The scenario totals, in the float64 arithmetic of the order.  `NewOrder` returns
the pending order `exampleOrder`; `AddItem "P1" 2 9.99` on it returns no error and makes
`totalAmount` the float64 `19.98`; a following `AddItem "P1" 1 9.99` returns no error,
leaves two lines and makes `totalAmount` the float64 `29.97`. -/
theorem C25_order_scenario_totals :
    order.NewOrder "U1" "1 Main St" "1 Main St" "card" uuid1 0 = .ok exampleOrder ∧
    exampleOrder.status = order.StatusPending ∧
    (exampleOrder.AddItem "P1" 2 (Float64.ofFraction 999 100) uuid2 1).2 = none ∧
    (exampleOrder.AddItem "P1" 2 (Float64.ofFraction 999 100) uuid2 1).1.totalAmount =
      Float64.ofFraction 1998 100 ∧
    ((exampleOrder.AddItem "P1" 2 (Float64.ofFraction 999 100) uuid2 1).1.AddItem
        "P1" 1 (Float64.ofFraction 999 100) uuid3 2).2 = none ∧
    ((exampleOrder.AddItem "P1" 2 (Float64.ofFraction 999 100) uuid2 1).1.AddItem
        "P1" 1 (Float64.ofFraction 999 100) uuid3 2).1.items.length = 2 ∧
    ((exampleOrder.AddItem "P1" 2 (Float64.ofFraction 999 100) uuid2 1).1.AddItem
        "P1" 1 (Float64.ofFraction 999 100) uuid3 2).1.totalAmount =
      Float64.ofFraction 2997 100 := by
  refine ⟨rfl, rfl, ?_, ?_, ?_, ?_, ?_⟩ <;> decide

/-- C26. A stock delta must be positive: on every product, `IncreaseStock q` and
`DecreaseStock q` with `q <= 0` return `ErrInvalidStock` and leave the product, in
particular its stock, as it was. -/
theorem C26_product_stock_delta_positive (p : product.Product) (q : Int) (now : Time)
    (hq : q ≤ 0) :
    p.IncreaseStock q now = (p, some product.Error.ErrInvalidStock) ∧
    p.DecreaseStock q now = (p, some product.Error.ErrInvalidStock) ∧
    (p.IncreaseStock q now).1.stock = p.stock ∧
    (p.DecreaseStock q now).1.stock = p.stock := by
  have hi : p.IncreaseStock q now = (p, some product.Error.ErrInvalidStock) := by
    simp [product.Product.IncreaseStock, hq]
  have hd : p.DecreaseStock q now = (p, some product.Error.ErrInvalidStock) := by
    simp [product.Product.DecreaseStock, hq]
  exact ⟨hi, hd, by rw [hi], by rw [hd]⟩

/-- Witness of C26 on a product with stock 10: the deltas 0 and -3 are refused. -/
theorem C26_product_stock_delta_positive_witness :
    product.Product.IncreaseStock ⟨"p1", "Pen", "A pen", Float64.ofInt 2, 10, 0, 0⟩ 0 5 =
      (⟨"p1", "Pen", "A pen", Float64.ofInt 2, 10, 0, 0⟩, some product.Error.ErrInvalidStock) ∧
    product.Product.DecreaseStock ⟨"p1", "Pen", "A pen", Float64.ofInt 2, 10, 0, 0⟩ (-3) 5 =
      (⟨"p1", "Pen", "A pen", Float64.ofInt 2, 10, 0, 0⟩, some product.Error.ErrInvalidStock) :=
  ⟨(C26_product_stock_delta_positive ⟨"p1", "Pen", "A pen", Float64.ofInt 2, 10, 0, 0⟩ 0 5
      (by decide)).1,
   (C26_product_stock_delta_positive ⟨"p1", "Pen", "A pen", Float64.ofInt 2, 10, 0, 0⟩ (-3) 5
      (by decide)).2.1⟩

/-- C27, as stated, fails.  `product.NewPrice` accepts positive infinity and NaN, and
`Order.AddItem` on the newly created order accepts the unit prices positive infinity and
NaN: the calls return no error and the new line carries that price.  The only test is
`price <= 0`, which is false for both. -/
theorem C27_price_infinite_and_nan_accepted :
    product.NewPrice (Float64.inf false) = .ok (Float64.inf false) ∧
    product.NewPrice Float64.nan = .ok Float64.nan ∧
    exampleOrder.AddItem "P1" 1 (Float64.inf false) uuid2 1 =
      ({ exampleOrder with
          items := [⟨uuid2.str, "P1", 1, Float64.inf false, 1, 1⟩],
          totalAmount := Float64.inf false, updatedAt := 1 }, none) ∧
    exampleOrder.AddItem "P1" 1 Float64.nan uuid2 1 =
      ({ exampleOrder with
          items := [⟨uuid2.str, "P1", 1, Float64.nan, 1, 1⟩],
          totalAmount := Float64.nan, updatedAt := 1 }, none) := by
  refine ⟨rfl, rfl, ?_, ?_⟩ <;> decide

/-- C27, amended.  A price is rejected exactly when `price <= 0` holds in float64, that is
when it is zero, negative or negative infinity: `product.NewPrice` then returns
`ErrInvalidPrice`, and so does `Order.AddItem` on a pending order with a valid product id
and quantity.  Every other float64 (a positive finite number, positive infinity, NaN) is
accepted by both.  So no line of a reachable order and no reachable product carries a
price that is `<= 0`. -/
theorem C27_price_rejected_iff_le_zero (price : Float64) :
    (Float64.le price Float64.zero = true ↔
      price = Float64.inf true ∨ ∃ k, k ≤ 0 ∧ price = Float64.fin k) ∧
    (Float64.le price Float64.zero = true →
      product.NewPrice price = .error product.Error.ErrInvalidPrice ∧
      ∀ (o : order.Order) (p : String) (q : Int) (u : uuid.UUID) (now : Time),
        o.status = order.StatusPending → p ≠ "" → 0 < q →
        o.AddItem p q price u now = (o, some order.Error.ErrInvalidPrice)) ∧
    (Float64.le price Float64.zero = false →
      product.NewPrice price = .ok price ∧
      ∀ (o : order.Order) (p : String) (q : Int) (u : uuid.UUID) (now : Time),
        o.status = order.StatusPending → p ≠ "" → 0 < q →
        (o.AddItem p q price u now).2 = none ∧
        ∃ line, (o.AddItem p q price u now).1.items = o.items ++ [line] ∧
          line.price = price) ∧
    (∀ (o : order.Order), order.Reachable o →
      ∀ line ∈ o.items, Float64.le line.price Float64.zero = false) ∧
    (∀ (p : product.Product), product.Reachable p →
      Float64.le p.price Float64.zero = false) := by
  refine ⟨?_, ?_, ?_, ?_, ?_⟩
  · cases price with
    | nan => simp [Float64.le, Float64.zero]
    | inf s => cases s <;> simp [Float64.le, Float64.zero]
    | fin k => simp [Float64.le, Float64.zero]
  · intro hle
    refine ⟨by simp [product.NewPrice, hle], ?_⟩
    intro o p q u now hs hp hq
    have hq' : ¬ q ≤ 0 := by omega
    apply order.Order.AddItem_error o p q price u now _ hs
    simp [order.NewOrderItem, order.NewID, u.nonblank, product.NewID, hp, hq', hle]
  · intro hle
    refine ⟨by simp [product.NewPrice, hle], ?_⟩
    intro o p q u now hs hp hq
    rw [order.Order.AddItem_ok o p q price u now _ hs
      (order.NewOrderItem_valid p q price u now hp hq hle)]
    exact ⟨rfl, _, rfl, rfl⟩
  · intro o hr line hline
    exact (order.reachable_lines_checked o hr line hline).2.2
  · intro p hr
    exact product.reachable_price_checked p hr

/-- Witness of C27 (amended): the price 0 is refused by `NewPrice` and by `AddItem` on the
newly created order; the price 9.99 is accepted by both. -/
theorem C27_price_rejected_iff_le_zero_witness :
    product.NewPrice Float64.zero = .error product.Error.ErrInvalidPrice ∧
    exampleOrder.AddItem "P1" 1 Float64.zero uuid2 1 =
      (exampleOrder, some order.Error.ErrInvalidPrice) ∧
    product.NewPrice (Float64.ofFraction 999 100) = .ok (Float64.ofFraction 999 100) ∧
    (exampleOrder.AddItem "P1" 1 (Float64.ofFraction 999 100) uuid2 1).2 = none :=
  ⟨((C27_price_rejected_iff_le_zero Float64.zero).2.1 (by decide)).1,
   ((C27_price_rejected_iff_le_zero Float64.zero).2.1 (by decide)).2 exampleOrder "P1" 1 uuid2 1
      rfl (by decide) (by decide),
   ((C27_price_rejected_iff_le_zero (Float64.ofFraction 999 100)).2.2.1 (by decide)).1,
   (((C27_price_rejected_iff_le_zero (Float64.ofFraction 999 100)).2.2.1 (by decide)).2
      exampleOrder "P1" 1 uuid2 1 rfl (by decide) (by decide)).1⟩

/-- C28, as stated, fails.  On a delivered order `ChangeStatus "pending"` returns no error
and the status is `pending` again; and from the newly created order the two calls
`ChangeStatus "delivered"`, `ChangeStatus "pending"` both return no error and end in
`pending`: the status moved backwards on the path. -/
theorem C28_order_status_moves_backwards :
    order.Order.ChangeStatus
        ⟨"o1", "U1", "delivered", Float64.zero, "a", "b", "card", [], 0, 0⟩ "pending" 4 =
      (⟨"o1", "U1", "pending", Float64.zero, "a", "b", "card", [], 0, 4⟩, none) ∧
    exampleOrder.ChangeStatusAll [("delivered", 1), ("pending", 2)] =
      ({ exampleOrder with status := "pending", updatedAt := 2 }, [none, none]) := by
  decide

/-- C28, amended.  There is no order among the statuses: along every sequence of
`ChangeStatus` calls whose arguments are recognized values, in any order whatever, every
call returns no error and the status after the sequence is the argument of the last call
(the status before, if there is no call); a single call with a recognized argument sets
the status to it from any status. -/
theorem C28_order_status_any_order (o : order.Order) (calls : List (order.Status × Time))
    (h : ∀ call ∈ calls, call.1 ∈ [order.StatusPending, order.StatusPaid, order.StatusShipped,
      order.StatusDelivered, order.StatusCancelled]) :
    (∀ err ∈ (o.ChangeStatusAll calls).2, err = none) ∧
    (o.ChangeStatusAll calls).2.length = calls.length ∧
    (o.ChangeStatusAll calls).1.status = (calls.map (fun call => call.1)).getLastD o.status := by
  induction calls generalizing o with
  | nil => simp [order.Order.ChangeStatusAll]
  | cons call rest ih =>
    have hcall := h call (List.mem_cons_self _ _)
    have hrest : ∀ c ∈ rest, c.1 ∈ [order.StatusPending, order.StatusPaid,
        order.StatusShipped, order.StatusDelivered, order.StatusCancelled] :=
      fun c hc => h c (List.mem_cons_of_mem _ hc)
    have hstep := order.Order.ChangeStatus_recognized o call.1 call.2 hcall
    obtain ⟨h1, h2, h3⟩ := ih { o with status := call.1, updatedAt := call.2 } hrest
    simp only [order.Order.ChangeStatusAll, hstep]
    refine ⟨?_, by simp [h2], ?_⟩
    · intro err herr
      rcases List.mem_cons.mp herr with rfl | herr
      · rfl
      · exact h1 err herr
    · rw [h3, List.map_cons, List.getLastD_cons]

/-- Witness of C28 (amended): from the newly created order, the calls `delivered`,
`pending`, `shipped` all succeed and end in `shipped`. -/
theorem C28_order_status_any_order_witness :
    (∀ err ∈ (exampleOrder.ChangeStatusAll
        [("delivered", 1), ("pending", 2), ("shipped", 3)]).2, err = none) ∧
    (exampleOrder.ChangeStatusAll
        [("delivered", 1), ("pending", 2), ("shipped", 3)]).2.length = 3 ∧
    (exampleOrder.ChangeStatusAll
        [("delivered", 1), ("pending", 2), ("shipped", 3)]).1.status = "shipped" :=
  C28_order_status_any_order exampleOrder [("delivered", 1), ("pending", 2), ("shipped", 3)]
    (by decide)

/-- C29, what the code does.  A successful `Cart.UpdateItemQuantity` (`q > 0` and a line
for `p` exists) returns no error and leaves `updatedAt` of the cart as it was: the call
returns through `item.UpdateQuantity`, which stamps the line only.  A successful
`RemoveItem` and `Clear` do set `updatedAt` of the cart to the time of the call. -/
theorem C29_cart_UpdateItemQuantity_keeps_updatedAt (c : cart.Cart) (p : String) (q : Int)
    (now : Time) (hq : 0 < q) (hex : ∃ x ∈ c.items, x.productID = p) :
    (c.UpdateItemQuantity p q now).2 = none ∧
    (c.UpdateItemQuantity p q now).1.updatedAt = c.updatedAt ∧
    (c.RemoveItem p now).2 = none ∧
    (c.RemoveItem p now).1.updatedAt = now ∧
    (c.Clear now).updatedAt = now := by
  obtain ⟨pre, it, post, hc, hpre, hit⟩ := cart.exists_first_line c.items p hex
  rw [cart.Cart.UpdateItemQuantity_found c p q now pre post it hc hpre hit hq,
    cart.Cart.RemoveItem_first_line c p now pre post it hc hpre hit]
  exact ⟨rfl, rfl, rfl, rfl, rfl⟩

/-- Witness of C29, the failing input: the cart created at time 0 and given 3 of "P1" at
time 1 has the quantity of "P1" set to 5 at time 7; the call returns no error, the line
holds 5 and is stamped 7, and `updatedAt` of the cart is still 1. -/
theorem C29_cart_UpdateItemQuantity_keeps_updatedAt_witness :
    (exampleCart.AddItem "P1" 3 uuid2 1).1 =
      ⟨uuid1.str, "U1", [⟨uuid2.str, "P1", 3, 1, 1⟩], 0, 1⟩ ∧
    cart.Cart.UpdateItemQuantity ⟨uuid1.str, "U1", [⟨uuid2.str, "P1", 3, 1, 1⟩], 0, 1⟩ "P1" 5 7 =
      (⟨uuid1.str, "U1", [⟨uuid2.str, "P1", 5, 1, 7⟩], 0, 1⟩, none) ∧
    (cart.Cart.UpdateItemQuantity ⟨uuid1.str, "U1", [⟨uuid2.str, "P1", 3, 1, 1⟩], 0, 1⟩
        "P1" 5 7).1.updatedAt = 1 :=
  ⟨by decide, by decide,
   (C29_cart_UpdateItemQuantity_keeps_updatedAt
      ⟨uuid1.str, "U1", [⟨uuid2.str, "P1", 3, 1, 1⟩], 0, 1⟩ "P1" 5 7 (by decide)
      (by decide)).2.1⟩

/-- C30, as stated, fails for `TotalItems`.  The reachable pending order obtained from
`NewOrder` by `AddItem "A" 9223372036854775807 1.0` and `AddItem "B" 1 1.0` has two lines
whose quantities sum to `9223372036854775808`, whereas `Order.TotalItems`, which adds in
the 64-bit `int`, returns `-9223372036854775808`. -/
theorem C30_order_TotalItems_not_the_sum :
    order.Reachable ((exampleOrder.AddItem "A" 9223372036854775807 (Float64.ofInt 1) uuid2 1).1.AddItem
      "B" 1 (Float64.ofInt 1) uuid3 2).1 ∧
    ((exampleOrder.AddItem "A" 9223372036854775807 (Float64.ofInt 1) uuid2 1).1.AddItem
      "B" 1 (Float64.ofInt 1) uuid3 2).1.status = order.StatusPending ∧
    (((exampleOrder.AddItem "A" 9223372036854775807 (Float64.ofInt 1) uuid2 1).1.AddItem
      "B" 1 (Float64.ofInt 1) uuid3 2).1.items.map (fun item => item.quantity)) =
      [9223372036854775807, 1] ∧
    ((exampleOrder.AddItem "A" 9223372036854775807 (Float64.ofInt 1) uuid2 1).1.AddItem
      "B" 1 (Float64.ofInt 1) uuid3 2).1.TotalItems = -9223372036854775808 ∧
    ((exampleOrder.AddItem "A" 9223372036854775807 (Float64.ofInt 1) uuid2 1).1.AddItem
      "B" 1 (Float64.ofInt 1) uuid3 2).1.TotalItems ≠
      (((exampleOrder.AddItem "A" 9223372036854775807 (Float64.ofInt 1) uuid2 1).1.AddItem
        "B" 1 (Float64.ofInt 1) uuid3 2).1.items.map (fun item => item.quantity)).sum := by
  refine ⟨?_, by decide, by decide, by decide, by decide⟩
  exact order.Reachable.addItem _ _ _ _ _ _
    (order.Reachable.addItem _ _ _ _ _ _
      (order.Reachable.newOrder "U1" "1 Main St" "1 Main St" "card" uuid1 0 exampleOrder rfl))

/-- C30, amended.  On an order whose status is one of the five recognized values, exactly
one of `IsPending`, `IsPaid`, `IsShipped`, `IsDelivered`, `IsCancelled` is true, and each
is true exactly when the status is the one it names; `IsPending` is true exactly when
`AddItem` with valid arguments (non-empty product id, positive quantity, a unit price that
is not `<= 0`) returns no error.  `ItemCount` is the number of lines, and `TotalItems` is
the sum of the quantities of the lines wrapped into the 64-bit `int`: it is the sum itself
whenever the sum is representable. -/
theorem C30_order_queries (o : order.Order)
    (hs : o.status ∈ [order.StatusPending, order.StatusPaid, order.StatusShipped,
      order.StatusDelivered, order.StatusCancelled]) :
    [o.IsPending, o.IsPaid, o.IsShipped, o.IsDelivered, o.IsCancelled].count true = 1 ∧
    (o.IsPending = true ↔ o.status = order.StatusPending) ∧
    (o.IsPaid = true ↔ o.status = order.StatusPaid) ∧
    (o.IsShipped = true ↔ o.status = order.StatusShipped) ∧
    (o.IsDelivered = true ↔ o.status = order.StatusDelivered) ∧
    (o.IsCancelled = true ↔ o.status = order.StatusCancelled) ∧
    (∀ (p : String) (q : Int) (price : Float64) (u : uuid.UUID) (now : Time),
      p ≠ "" → 0 < q → Float64.le price Float64.zero = false →
      ((o.AddItem p q price u now).2 = none ↔ o.IsPending = true)) ∧
    o.ItemCount = o.items.length ∧
    o.TotalItems = Go.wrapInt64 ((o.items.map (fun item => item.quantity)).sum) ∧
    (Go.InInt64 ((o.items.map (fun item => item.quantity)).sum) →
      o.TotalItems = (o.items.map (fun item => item.quantity)).sum) := by
  refine ⟨?_, by simp [order.Order.IsPending], by simp [order.Order.IsPaid],
    by simp [order.Order.IsShipped], by simp [order.Order.IsDelivered],
    by simp [order.Order.IsCancelled], ?_, rfl, order.Order.TotalItems_eq_wrapped_sum o, ?_⟩
  · simp only [order.Order.IsPending, order.Order.IsPaid, order.Order.IsShipped,
      order.Order.IsDelivered, order.Order.IsCancelled]
    simp only [List.mem_cons, List.mem_singleton, List.not_mem_nil, or_false] at hs
    rcases hs with h | h | h | h | h <;> rw [h] <;> decide
  · intro p q price u now hp hq hprice
    by_cases hpend : o.status = order.StatusPending
    · rw [order.Order.AddItem_ok o p q price u now _ hpend
        (order.NewOrderItem_valid p q price u now hp hq hprice)]
      simp [order.Order.IsPending, hpend]
    · rw [order.Order.AddItem_not_pending o p q price u now hpend]
      simp [order.Order.IsPending, hpend]
  · intro hin
    rw [order.Order.TotalItems_eq_wrapped_sum o, Go.wrapInt64_of_inInt64 hin]

/-- Witness of C30 (amended) on a paid order with the lines of quantity 2 and 1: exactly one status
predicate is true, `IsPaid`, and the total of the quantities is 3. -/
theorem C30_order_queries_witness :
    [order.Order.IsPending ⟨"o1", "U1", "paid", Float64.ofInt 7, "a", "b", "card",
        [⟨"l1", "P1", 2, Float64.ofInt 2, 0, 0⟩, ⟨"l2", "P2", 1, Float64.ofInt 3, 0, 0⟩], 0, 0⟩,
     order.Order.IsPaid ⟨"o1", "U1", "paid", Float64.ofInt 7, "a", "b", "card",
        [⟨"l1", "P1", 2, Float64.ofInt 2, 0, 0⟩, ⟨"l2", "P2", 1, Float64.ofInt 3, 0, 0⟩], 0, 0⟩,
     order.Order.IsShipped ⟨"o1", "U1", "paid", Float64.ofInt 7, "a", "b", "card",
        [⟨"l1", "P1", 2, Float64.ofInt 2, 0, 0⟩, ⟨"l2", "P2", 1, Float64.ofInt 3, 0, 0⟩], 0, 0⟩,
     order.Order.IsDelivered ⟨"o1", "U1", "paid", Float64.ofInt 7, "a", "b", "card",
        [⟨"l1", "P1", 2, Float64.ofInt 2, 0, 0⟩, ⟨"l2", "P2", 1, Float64.ofInt 3, 0, 0⟩], 0, 0⟩,
     order.Order.IsCancelled ⟨"o1", "U1", "paid", Float64.ofInt 7, "a", "b", "card",
        [⟨"l1", "P1", 2, Float64.ofInt 2, 0, 0⟩, ⟨"l2", "P2", 1, Float64.ofInt 3, 0, 0⟩], 0, 0⟩].count
      true = 1 ∧
    order.Order.TotalItems ⟨"o1", "U1", "paid", Float64.ofInt 7, "a", "b", "card",
        [⟨"l1", "P1", 2, Float64.ofInt 2, 0, 0⟩, ⟨"l2", "P2", 1, Float64.ofInt 3, 0, 0⟩], 0, 0⟩
      = 3 :=
  ⟨(C30_order_queries ⟨"o1", "U1", "paid", Float64.ofInt 7, "a", "b", "card",
        [⟨"l1", "P1", 2, Float64.ofInt 2, 0, 0⟩, ⟨"l2", "P2", 1, Float64.ofInt 3, 0, 0⟩], 0, 0⟩
      (by decide)).1,
   (C30_order_queries ⟨"o1", "U1", "paid", Float64.ofInt 7, "a", "b", "card",
        [⟨"l1", "P1", 2, Float64.ofInt 2, 0, 0⟩, ⟨"l2", "P2", 1, Float64.ofInt 3, 0, 0⟩], 0, 0⟩
      (by decide)).2.2.2.2.2.2.2.2.2 (by decide)⟩

/-- C31. `Order.AddItem` on a pending order reports the first failing check in the order
product id, quantity, unit price: the empty product id gives `ErrInvalidProductID`
whatever the quantity and the price are (also `<= 0`); a valid product id with
`quantity <= 0` gives `ErrInvalidQuantity` whatever the price is (also `<= 0`).
`Cart.AddItem` tests the quantity first: `quantity <= 0` gives `ErrInvalidQuantity` also
for the empty product id. -/
theorem C31_order_AddItem_check_order (o : order.Order) (c : cart.Cart) (u : uuid.UUID)
    (now : Time) (hs : o.status = order.StatusPending) :
    (∀ (q : Int) (price : Float64),
      o.AddItem "" q price u now = (o, some order.Error.ErrInvalidProductID)) ∧
    (∀ (p : String) (q : Int) (price : Float64), p ≠ "" → q ≤ 0 →
      o.AddItem p q price u now = (o, some order.Error.ErrInvalidQuantity)) ∧
    (∀ (q : Int), q ≤ 0 →
      c.AddItem "" q u now = (c, some cart.Error.ErrInvalidQuantity)) := by
  refine ⟨?_, ?_, ?_⟩
  · intro q price
    apply order.Order.AddItem_error o "" q price u now _ hs
    simp [order.NewOrderItem, order.NewID, u.nonblank, product.NewID]
  · intro p q price hp hq
    apply order.Order.AddItem_error o p q price u now _ hs
    simp [order.NewOrderItem, order.NewID, u.nonblank, product.NewID, hp, hq]
  · intro q hq
    exact cart.Cart.AddItem_invalid_quantity c "" q u now hq

/-- Witness of C31: with the empty product id, quantity 0 and price 0, the order reports
`ErrInvalidProductID` and the cart `ErrInvalidQuantity`; with product "P1", quantity 0 and
price 0 the order reports `ErrInvalidQuantity`. -/
theorem C31_order_AddItem_check_order_witness :
    exampleOrder.AddItem "" 0 Float64.zero uuid2 1 =
      (exampleOrder, some order.Error.ErrInvalidProductID) ∧
    exampleOrder.AddItem "P1" 0 Float64.zero uuid2 1 =
      (exampleOrder, some order.Error.ErrInvalidQuantity) ∧
    exampleCart.AddItem "" 0 uuid2 1 = (exampleCart, some cart.Error.ErrInvalidQuantity) :=
  ⟨(C31_order_AddItem_check_order exampleOrder exampleCart uuid2 1 rfl).1 0 Float64.zero,
   (C31_order_AddItem_check_order exampleOrder exampleCart uuid2 1 rfl).2.1 "P1" 0 Float64.zero
      (by decide) (by decide),
   (C31_order_AddItem_check_order exampleOrder exampleCart uuid2 1 rfl).2.2 0 (by decide)⟩

/-- C32. `NewOrder` succeeds if and only if the user id, the shipping address, the billing
address and the payment method are all non-empty; when it fails, the error is that of the
first empty one in that order: `ErrInvalidUserID`, `ErrInvalidShippingAddress`,
`ErrInvalidBillingAddress`, `ErrInvalidPaymentMethod`. -/
theorem C32_order_NewOrder_iff (userID shippingAddress billingAddress paymentMethod : String)
    (u : uuid.UUID) (now : Time) :
    ((∃ o, order.NewOrder userID shippingAddress billingAddress paymentMethod u now = .ok o) ↔
      userID ≠ "" ∧ shippingAddress ≠ "" ∧ billingAddress ≠ "" ∧ paymentMethod ≠ "") ∧
    (userID = "" →
      order.NewOrder userID shippingAddress billingAddress paymentMethod u now =
        .error order.Error.ErrInvalidUserID) ∧
    (userID ≠ "" → shippingAddress = "" →
      order.NewOrder userID shippingAddress billingAddress paymentMethod u now =
        .error order.Error.ErrInvalidShippingAddress) ∧
    (userID ≠ "" → shippingAddress ≠ "" → billingAddress = "" →
      order.NewOrder userID shippingAddress billingAddress paymentMethod u now =
        .error order.Error.ErrInvalidBillingAddress) ∧
    (userID ≠ "" → shippingAddress ≠ "" → billingAddress ≠ "" → paymentMethod = "" →
      order.NewOrder userID shippingAddress billingAddress paymentMethod u now =
        .error order.Error.ErrInvalidPaymentMethod) := by
  by_cases hu : userID = ""
  · simp [order.NewOrder, order.NewID, u.nonblank, user.NewID, hu]
  · by_cases hs : shippingAddress = ""
    · simp [order.NewOrder, order.NewID, u.nonblank, user.NewID, hu, hs]
    · by_cases hb : billingAddress = ""
      · simp [order.NewOrder, order.NewID, u.nonblank, user.NewID, hu, hs, hb]
      · by_cases hp : paymentMethod = ""
        · simp [order.NewOrder, order.NewID, u.nonblank, user.NewID, hu, hs, hb, hp]
        · simp [order.NewOrder, order.NewID, u.nonblank, user.NewID, hu, hs, hb, hp]

/-- Witness of C32: with the user id and the billing address both empty the error is
`ErrInvalidUserID`; with the shipping address and the payment method both empty it is
`ErrInvalidShippingAddress`. -/
theorem C32_order_NewOrder_iff_witness :
    order.NewOrder "" "1 Main St" "" "card" uuid1 0 = .error order.Error.ErrInvalidUserID ∧
    order.NewOrder "U1" "" "1 Main St" "" uuid1 0 =
      .error order.Error.ErrInvalidShippingAddress :=
  ⟨(C32_order_NewOrder_iff "" "1 Main St" "" "card" uuid1 0).2.1 rfl,
   (C32_order_NewOrder_iff "U1" "" "1 Main St" "" uuid1 0).2.2.1 (by decide) rfl⟩

/-- C33. `Product.DecreaseStock q`, the subtraction `stock - q` not overflowing the 64-bit
`int`, returns no error if and only if `q > 0` and `HasSufficientStock q`, that is
`q <= stock`; when it returns no error the stock becomes `stock - q`, and when it returns an
error the product is as before.  Consequently the stock of every product reachable from
`NewProduct` by its mutating methods (`ChangeStock`, `IncreaseStock` and `DecreaseStock`
among them) is never negative. -/
theorem C33_product_DecreaseStock_iff :
    (∀ (p : product.Product) (q : Int) (now : Time), Go.InInt64 (p.stock - q) →
      ((p.DecreaseStock q now).2 = none ↔ 0 < q ∧ p.HasSufficientStock q = true) ∧
      (p.HasSufficientStock q = true ↔ q ≤ p.stock) ∧
      ((p.DecreaseStock q now).2 = none → (p.DecreaseStock q now).1.stock = p.stock - q)) ∧
    (∀ (p : product.Product) (q : Int) (now : Time),
      (p.DecreaseStock q now).2 ≠ none → (p.DecreaseStock q now).1 = p) ∧
    (∀ (p : product.Product), product.Reachable p → 0 ≤ p.stock) := by
  refine ⟨?_, ?_, ?_⟩
  · intro p q now hin
    have hw := Go.wrapInt64_of_inInt64 hin
    have hsuff : p.HasSufficientStock q = true ↔ q ≤ p.stock := by
      simp [product.Product.HasSufficientStock]
    refine ⟨?_, hsuff, ?_⟩
    · rw [hsuff]
      rcases product.Product.DecreaseStock_outcomes p q now with
        ⟨hq, he⟩ | ⟨hq, hn, he⟩ | ⟨hq, hn, he⟩
      · rw [he]
        simp only [reduceCtorEq, false_iff, not_and]
        intro h; omega
      · rw [he]
        rw [hw] at hn
        simp only [reduceCtorEq, false_iff, not_and]
        intro _; omega
      · rw [he]
        rw [hw] at hn
        simp only [true_iff]
        exact ⟨hq, by omega⟩
    · rcases product.Product.DecreaseStock_outcomes p q now with
        ⟨_, he⟩ | ⟨_, _, he⟩ | ⟨_, _, he⟩
      · rw [he]; intro h; exact absurd h (by simp)
      · rw [he]; intro h; exact absurd h (by simp)
      · rw [he, hw]; intro _; rfl
  · intro p q now
    rcases product.Product.DecreaseStock_outcomes p q now with
      ⟨_, he⟩ | ⟨_, _, he⟩ | ⟨_, _, he⟩
    · rw [he]; intro _; rfl
    · rw [he]; intro _; rfl
    · rw [he]; intro h; exact absurd rfl h
  · intro p hr
    induction hr with
    | newProduct name description price stock u now p h =>
      obtain ⟨_, hstock, _, hp⟩ := product.NewProduct_eq_ok name description price stock u now p h
      rw [hp]; exact hstock
    | changeName p name now _ ih =>
      unfold product.Product.ChangeName
      split <;> exact ih
    | changeDescription p description now _ ih =>
      unfold product.Product.ChangeDescription
      split <;> exact ih
    | changePrice p price now _ ih =>
      rcases product.Product.ChangePrice_outcomes p price now with ⟨_, he⟩ | ⟨_, he⟩
      · rw [he]; exact ih
      · rw [he]; exact ih
    | changeStock p stock now _ ih =>
      rcases product.Product.ChangeStock_outcomes p stock now with ⟨_, he⟩ | ⟨hs, he⟩
      · rw [he]; exact ih
      · rw [he]; exact hs
    | increaseStock p quantity now _ ih =>
      rcases product.Product.IncreaseStock_outcomes p quantity now with ⟨_, he⟩ | ⟨_, he⟩
      · rw [he]; exact ih
      · rw [he]
        rcases product.Product.ChangeStock_outcomes p (Go.wrapInt64 (p.stock + quantity)) now
          with ⟨_, he2⟩ | ⟨hs, he2⟩
        · rw [he2]; exact ih
        · rw [he2]; exact hs
    | decreaseStock p quantity now _ ih =>
      rcases product.Product.DecreaseStock_outcomes p quantity now with
        ⟨_, he⟩ | ⟨_, _, he⟩ | ⟨_, hn, he⟩
      · rw [he]; exact ih
      · rw [he]; exact ih
      · rw [he]; exact hn

/-- Witness of C33 on a product with stock 10: decreasing by 4 succeeds and leaves 6,
which is the case `0 < 4` and `4 <= 10`. -/
theorem C33_product_DecreaseStock_iff_witness :
    ((product.Product.DecreaseStock ⟨"p1", "Pen", "A pen", Float64.ofInt 2, 10, 0, 0⟩ 4 5).2
        = none ↔
      (0 : Int) < 4 ∧
      product.Product.HasSufficientStock ⟨"p1", "Pen", "A pen", Float64.ofInt 2, 10, 0, 0⟩ 4
        = true) ∧
    (product.Product.DecreaseStock ⟨"p1", "Pen", "A pen", Float64.ofInt 2, 10, 0, 0⟩ 4 5).1.stock
      = 10 - 4 :=
  ⟨(C33_product_DecreaseStock_iff.1 ⟨"p1", "Pen", "A pen", Float64.ofInt 2, 10, 0, 0⟩ 4 5
      (by decide)).1,
   (C33_product_DecreaseStock_iff.1 ⟨"p1", "Pen", "A pen", Float64.ofInt 2, 10, 0, 0⟩ 4 5
      (by decide)).2.2 (by decide)⟩

/-- C34. With the 64-bit two-complement `int`, `CartItem.IncreaseQuantity a` on a line
with quantity `q > 0` and `a > 0` (both representable) returns no error and stores `q + a`
wrapped modulo `2^64`: the stored quantity equals `q + a` exactly when
`q + a <= 2^63 - 1`, and is negative otherwise.  So on the merge path `Cart.AddItem`
returns no error while the line is left with a quantity that is not positive, whenever
`q + a` exceeds `2^63 - 1`. -/
theorem C34_cart_IncreaseQuantity_wraps (ci : cart.CartItem) (a : Int) (now : Time)
    (hq : 0 < ci.quantity) (hq2 : ci.quantity ≤ Go.maxInt64) (ha : 0 < a)
    (ha2 : a ≤ Go.maxInt64) :
    (ci.IncreaseQuantity a now).2 = none ∧
    (ci.IncreaseQuantity a now).1.quantity = Go.wrapInt64 (ci.quantity + a) ∧
    ((ci.IncreaseQuantity a now).1.quantity = ci.quantity + a ↔
      ci.quantity + a ≤ 9223372036854775807) ∧
    (9223372036854775807 < ci.quantity + a →
      (ci.IncreaseQuantity a now).1.quantity = ci.quantity + a - 18446744073709551616 ∧
      (ci.IncreaseQuantity a now).1.quantity < 0) ∧
    (∀ (c : cart.Cart) (u : uuid.UUID), c.GetItem ci.productID = .ok ci →
      9223372036854775807 < ci.quantity + a →
      (c.AddItem ci.productID a u now).2 = none ∧
      ∃ line, (c.AddItem ci.productID a u now).1.GetItem ci.productID = .ok line ∧
        line.quantity < 0) := by
  have ha' : ¬ a ≤ 0 := by omega
  have hstore : (ci.IncreaseQuantity a now).1.quantity = Go.wrapInt64 (ci.quantity + a) := by
    simp [cart.CartItem.IncreaseQuantity, ha']
  have hneg : 9223372036854775807 < ci.quantity + a →
      Go.wrapInt64 (ci.quantity + a) = ci.quantity + a - 18446744073709551616 := by
    intro h
    unfold Go.maxInt64 at hq2 ha2
    unfold Go.wrapInt64
    omega
  refine ⟨by simp [cart.CartItem.IncreaseQuantity, ha'], hstore, ?_, ?_, ?_⟩
  · rw [hstore]
    constructor
    · intro h
      by_contra hlt
      rw [hneg (by omega)] at h
      omega
    · intro h
      apply Go.wrapInt64_of_inInt64
      unfold Go.InInt64 Go.minInt64 Go.maxInt64
      omega
  · intro h
    rw [hstore, hneg h]
    unfold Go.maxInt64 at hq2 ha2
    exact ⟨rfl, by omega⟩
  · intro c u hget h
    obtain ⟨pre, post, hc, hpre, hit⟩ := cart.Cart.GetItem_eq_ok c ci.productID ci hget
    rw [cart.Cart.AddItem_merge c ci.productID a u now pre post ci hc hpre hit ha]
    refine ⟨rfl, _, cart.Cart.GetItem_first _ ci.productID pre post _ rfl hpre hit, ?_⟩
    show Go.wrapInt64 (ci.quantity + a) < 0
    rw [hneg h]
    unfold Go.maxInt64 at hq2 ha2
    omega

/-- Witness of C34: the line holding `2^63 - 1` of "P1" is given 1 more; `AddItem`
returns no error and the line holds `-2^63`. -/
theorem C34_cart_IncreaseQuantity_wraps_witness :
    (cart.Cart.AddItem ⟨"c1", "U1", [⟨"i1", "P1", 9223372036854775807, 0, 0⟩], 0, 0⟩
        "P1" 1 uuid1 7).2 = none ∧
    (cart.CartItem.IncreaseQuantity ⟨"i1", "P1", 9223372036854775807, 0, 0⟩ 1 7).1.quantity
      = 9223372036854775807 + 1 - 18446744073709551616 ∧
    (cart.CartItem.IncreaseQuantity ⟨"i1", "P1", 9223372036854775807, 0, 0⟩ 1 7).1.quantity < 0 :=
  ⟨((C34_cart_IncreaseQuantity_wraps ⟨"i1", "P1", 9223372036854775807, 0, 0⟩ 1 7 (by decide)
      (by decide) (by decide) (by decide)).2.2.2.2
      ⟨"c1", "U1", [⟨"i1", "P1", 9223372036854775807, 0, 0⟩], 0, 0⟩ uuid1 rfl (by decide)).1,
   ((C34_cart_IncreaseQuantity_wraps ⟨"i1", "P1", 9223372036854775807, 0, 0⟩ 1 7 (by decide)
      (by decide) (by decide) (by decide)).2.2.2.1 (by decide)).1,
   ((C34_cart_IncreaseQuantity_wraps ⟨"i1", "P1", 9223372036854775807, 0, 0⟩ 1 7 (by decide)
      (by decide) (by decide) (by decide)).2.2.2.1 (by decide)).2⟩

/-- C36. Add then remove is a round trip on the lines.  For every cart, every non-empty
product id `p` that no line carries and every `q > 0`, `AddItem p q` and then
`RemoveItem p` both return no error, and the list of lines after the two calls is exactly
the list before them. -/
theorem C36_cart_add_remove_round_trip (c : cart.Cart) (p : String) (q : Int) (u : uuid.UUID)
    (t1 t2 : Time) (hp : p ≠ "") (habs : ∀ y ∈ c.items, y.productID ≠ p) (hq : 0 < q) :
    (c.AddItem p q u t1).2 = none ∧
    ((c.AddItem p q u t1).1.RemoveItem p t2).2 = none ∧
    ((c.AddItem p q u t1).1.RemoveItem p t2).1.items = c.items := by
  rw [cart.Cart.AddItem_new c p q u t1 habs hp hq]
  rw [cart.Cart.RemoveItem_first_line _ p t2 c.items []
    { id := u.str, productID := p, quantity := q, createdAt := t1, updatedAt := t1 }
    rfl habs rfl]
  exact ⟨rfl, rfl, by simp⟩

/-- Witness of C36: adding 4 of "P2" to the cart holding 3 of "P1" and removing "P2"
again leaves the single line for "P1". -/
theorem C36_cart_add_remove_round_trip_witness :
    (cart.Cart.AddItem ⟨"c1", "U1", [⟨"i1", "P1", 3, 0, 0⟩], 0, 0⟩ "P2" 4 uuid1 7).2 = none ∧
    ((cart.Cart.AddItem ⟨"c1", "U1", [⟨"i1", "P1", 3, 0, 0⟩], 0, 0⟩ "P2" 4 uuid1 7).1.RemoveItem
        "P2" 8).2 = none ∧
    ((cart.Cart.AddItem ⟨"c1", "U1", [⟨"i1", "P1", 3, 0, 0⟩], 0, 0⟩ "P2" 4 uuid1 7).1.RemoveItem
        "P2" 8).1.items = [⟨"i1", "P1", 3, 0, 0⟩] :=
  C36_cart_add_remove_round_trip ⟨"c1", "U1", [⟨"i1", "P1", 3, 0, 0⟩], 0, 0⟩ "P2" 4 uuid1 7 8
    (by decide) (by decide) (by decide)

/-- C37. The cart embedded in the User aggregate simulates the Cart aggregate.  Run any
sequence of add, remove, update-quantity and clear calls whose product ids are all
non-empty, from a user with an empty cart through `AddToCart`, `RemoveFromCart`,
`UpdateCartItemQuantity`, `ClearCart`, and from a cart without lines through `AddItem`,
`RemoveItem`, `UpdateItemQuantity`, `Clear`: every call succeeds on the one exactly when
it succeeds on the other, and at the end the two carts hold the same list of
(product id, quantity) pairs, in the same order. -/
theorem C37_user_cart_simulates_cart (usr : user.User) (c : cart.Cart)
    (calls : List (CartCall × uuid.UUID × Time))
    (hu : usr.cart = []) (hc : c.items = [])
    (hcalls : ∀ step ∈ calls, step.1.ProductIDNonEmpty) :
    (usr.run calls).2 = (c.run calls).2 ∧
    (usr.run calls).1.cart.map (fun x => (x.ProductID, x.Quantity)) =
      (c.run calls).1.items.map (fun y => (y.productID, y.quantity)) := by
  have hstart : usr.cart.map (fun x => (x.ProductID, x.Quantity)) =
      c.items.map (fun y => (y.productID, y.quantity)) := by
    rw [hu, hc]; rfl
  clear hu hc
  induction calls generalizing usr c with
  | nil => exact ⟨rfl, hstart⟩
  | cons step rest ih =>
    have hstep := call_user_cart usr c step.1 step.2.1 step.2.2
      (hcalls step (List.mem_cons_self _ _)) hstart
    have hrest := ih (usr.call step.1 step.2.2).1 (c.call step.1 step.2.1 step.2.2).1
      (fun s hs => hcalls s (List.mem_cons_of_mem _ hs)) hstep.2
    simp only [user.User.run, cart.Cart.run]
    exact ⟨by rw [hstep.1, hrest.1], hrest.2⟩

/-- Witness of C37 on the calls add 3 of "P1", add 2 of "P1", add 0 of "P2" (refused),
update "P9" (not found), add 4 of "P2", remove "P1": both carts end with `("P2", 4)`. -/
theorem C37_user_cart_simulates_cart_witness :
    (exampleUser.run
        [(CartCall.add "P1" 3, uuid1, 1), (CartCall.add "P1" 2, uuid2, 2),
         (CartCall.add "P2" 0, uuid3, 3), (CartCall.update "P9" 1, uuid3, 4),
         (CartCall.add "P2" 4, uuid3, 5), (CartCall.remove "P1", uuid3, 6)]).2 =
      (exampleCart.run
        [(CartCall.add "P1" 3, uuid1, 1), (CartCall.add "P1" 2, uuid2, 2),
         (CartCall.add "P2" 0, uuid3, 3), (CartCall.update "P9" 1, uuid3, 4),
         (CartCall.add "P2" 4, uuid3, 5), (CartCall.remove "P1", uuid3, 6)]).2 ∧
    (exampleUser.run
        [(CartCall.add "P1" 3, uuid1, 1), (CartCall.add "P1" 2, uuid2, 2),
         (CartCall.add "P2" 0, uuid3, 3), (CartCall.update "P9" 1, uuid3, 4),
         (CartCall.add "P2" 4, uuid3, 5), (CartCall.remove "P1", uuid3, 6)]).1.cart.map
        (fun x => (x.ProductID, x.Quantity)) =
      (exampleCart.run
        [(CartCall.add "P1" 3, uuid1, 1), (CartCall.add "P1" 2, uuid2, 2),
         (CartCall.add "P2" 0, uuid3, 3), (CartCall.update "P9" 1, uuid3, 4),
         (CartCall.add "P2" 4, uuid3, 5), (CartCall.remove "P1", uuid3, 6)]).1.items.map
        (fun y => (y.productID, y.quantity)) :=
  C37_user_cart_simulates_cart exampleUser exampleCart
    [(CartCall.add "P1" 3, uuid1, 1), (CartCall.add "P1" 2, uuid2, 2),
     (CartCall.add "P2" 0, uuid3, 3), (CartCall.update "P9" 1, uuid3, 4),
     (CartCall.add "P2" 4, uuid3, 5), (CartCall.remove "P1", uuid3, 6)]
    rfl rfl (by
      intro step hstep
      simp only [List.mem_cons, List.mem_singleton, List.not_mem_nil, or_false] at hstep
      rcases hstep with h | h | h | h | h | h <;> subst h <;>
        simp [CartCall.ProductIDNonEmpty])

/-- C35. For every order reachable from `NewOrder` whose unit prices are numbers (none is
NaN), in the float64 arithmetic of the code: `totalAmount` is 0 if and only if the order
has no line, and `totalAmount > 0` otherwise.  No rounding can take a subtotal or a
partial sum of such an order down to 0; a total that overflows is positive infinity, which
is `> 0` as well. -/
theorem C35_order_total_zero_iff_no_lines (o : order.Order) (hr : order.Reachable o)
    (hnum : ∀ line ∈ o.items, line.price ≠ Float64.nan) :
    (o.totalAmount = Float64.zero ↔ o.items = []) ∧
    (o.items ≠ [] → Float64.lt Float64.zero o.totalAmount = true) := by
  have htotal := order.reachable_total_recomputed o hr
  have hlines : ∀ line ∈ o.items,
      0 < line.quantity ∧ Float64.lt Float64.zero line.price = true := by
    intro line hline
    obtain ⟨_, hq, hle⟩ := order.reachable_lines_checked o hr line hline
    exact ⟨hq, Float64.lt_zero_of_not_le line.price hle (hnum line hline)⟩
  have hpos : o.items ≠ [] → Float64.lt Float64.zero o.totalAmount = true := by
    intro hne
    rw [htotal]
    exact order.foldl_subtotals_pos o.items Float64.zero hlines (by decide) hne
  refine ⟨⟨?_, ?_⟩, hpos⟩
  · intro hzero
    by_contra hne
    have h := hpos hne
    rw [hzero] at h
    exact absurd h (by decide)
  · intro hnil
    rw [htotal, hnil]
    rfl

/-- Witness of C35 on the order with the single line `("P1", 2, 9.99)`: it has a line and
its total is positive. -/
theorem C35_order_total_zero_iff_no_lines_witness :
    order.Reachable (exampleOrder.AddItem "P1" 2 (Float64.ofFraction 999 100) uuid2 1).1 ∧
    Float64.lt Float64.zero
      (exampleOrder.AddItem "P1" 2 (Float64.ofFraction 999 100) uuid2 1).1.totalAmount = true :=
  ⟨order.Reachable.addItem _ _ _ _ _ _
    (order.Reachable.newOrder "U1" "1 Main St" "1 Main St" "card" uuid1 0 exampleOrder rfl),
   (C35_order_total_zero_iff_no_lines _
    (order.Reachable.addItem _ _ _ _ _ _
      (order.Reachable.newOrder "U1" "1 Main St" "1 Main St" "card" uuid1 0 exampleOrder rfl))
    (by decide)).2 (by decide)⟩
